import Mathlib

/-!
# Alert-Twitch-Fix: audio capture pipeline (`src/cef_audio.cpp`, `src/cef_audio.h`)

A shallow embedding of `CEFAudioHandler` and of the `AudioUtils` helpers, and the
properties of the audio capture and resampling pipeline proved over it.

Conventions of the embedding
* `float` is `F32`, an IEEE-754 binary32 bit pattern; comparisons and the product
  are computed on the pattern.  Where a product is a NaN its pattern is the platform's
  (x86-64 here); properties are stated up to that pattern (`F32.sameValue`).
* `uint32_t` is `Nat` reduced `% 2^32` wherever the C++ arithmetic is done in 32 bits,
  `int` is `Int`, `size_t` is `Nat`.
* A pointer is an `Option` (`none` is `nullptr`); an array behind a pointer is a `List`
  of its extent.  Reading or writing outside the extent, or through `nullptr`, is a
  `Fault`, and so is the increment of an `int` counter beyond `INT_MAX`: functions that
  touch memory return `Except Fault _`.
* The libobs primitives (`audio_resampler_*`, `circlebuf_*`, `pthread_mutex_*`) are not
  part of the repository.  What they return is an argument of the operation that
  invokes them, and every invocation is recorded as a `Call` in the trace the
  operation returns next to the new handler state.
-/

namespace AlertTwitchFix

/-! ## binary32 values -/

/-- IEEE-754 binary32 value, kept as its bit pattern (sign, 8 exponent bits, 23 fraction bits). -/
structure F32 where
  bits : Nat
deriving DecidableEq, Repr

namespace F32

/-- The literal `0.0f`. -/
def zero : F32 := ⟨0⟩

/-- The literal `1.0f`, pattern `0x3F800000`. -/
def one : F32 := ⟨0x3F800000⟩

/-- Sign bit. -/
def sign (x : F32) : Bool := decide ((x.bits / 2 ^ 31) % 2 = 1)

/-- Biased exponent field. -/
def expo (x : F32) : Nat := (x.bits / 2 ^ 23) % 256

/-- Fraction field. -/
def mant (x : F32) : Nat := x.bits % 2 ^ 23

/-- Exponent all ones and a non-zero fraction. -/
def isNaN (x : F32) : Bool := decide (x.expo = 255) && decide (x.mant ≠ 0)

/-- Signed magnitude of the pattern: for values that are not NaN it is strictly
monotone in the real value, and both zeros map to `0`. -/
def key (x : F32) : Int :=
  if x.sign then -((x.bits % 2 ^ 31 : Nat) : Int) else ((x.bits % 2 ^ 31 : Nat) : Int)

/-- C++ `x < y` on `float`: false as soon as one side is NaN. -/
def lt (x y : F32) : Bool := !x.isNaN && !y.isNaN && decide (x.key < y.key)

/-- C++ `x <= y` on `float`. -/
def le (x y : F32) : Bool := !x.isNaN && !y.isNaN && decide (x.key ≤ y.key)

/-- C++ `x == y` on `float`: NaN equals nothing, `-0.0f == 0.0f`. -/
def eq (x y : F32) : Bool := !x.isNaN && !y.isNaN && decide (x.key = y.key)

/-- C++ `x != y` on `float`. -/
def ne (x y : F32) : Bool := !(x.eq y)

/-- The quiet NaN produced by an invalid operation (the payload is not fixed by IEEE-754). -/
def qNaN : F32 := ⟨0x7FC00000⟩

/-- Infinity with the given sign. -/
def inf (s : Bool) : F32 := ⟨(if s then 2 ^ 31 else 0) + 255 * 2 ^ 23⟩

/-- Significand of a finite value as an integer: the hidden bit is set for normal numbers. -/
def sig (x : F32) : Nat := if x.expo = 0 then x.mant else 2 ^ 23 + x.mant

/-- Exponent of the unit in the last place of a finite value: the value is `sig * 2^(ulpExp - 149)`. -/
def ulpExp (x : F32) : Nat := if x.expo = 0 then 0 else x.expo - 1

/-- Position of the leading bit of `m` after at most `fuel` halvings (`0` for `m < 2`). -/
def ilog2Aux (fuel m : Nat) : Nat :=
  match fuel with
  | 0 => 0
  | f + 1 => if 2 ≤ m then ilog2Aux f (m / 2) + 1 else 0

/-- Position of the leading bit of `m` for `m < 2^49`, which covers the product of two
24-bit significands. -/
def ilog2 (m : Nat) : Nat := ilog2Aux 48 m

/-- Round `m * 2^(e - 298)` (`m` a natural number below `2^49`) to the nearest binary32, ties to even,
and attach the sign `s`.  `298 = 2 * 149` is the offset two `ulpExp` sum to. -/
def round (s : Bool) (m e : Nat) : F32 :=
  let sb : Nat := if s then 2 ^ 31 else 0
  if m = 0 then ⟨sb⟩
  else
    -- exponent (offset 298) of the unit in the last place the result would have
    let top := e + ilog2 m
    let q := if top < 149 + 23 then 149 else top - 23
    -- significand on the grid `2^(q - 298)`
    let r : Nat :=
      if q ≤ e then m * 2 ^ (e - q)
      else
        let sh := q - e
        let lo := m % 2 ^ sh
        let hi := m / 2 ^ sh
        let half := 2 ^ (sh - 1)
        if lo > half ∨ (lo = half ∧ hi % 2 = 1) then hi + 1 else hi
    -- a carry out of the 24 bits moves to the next binade
    let rq : Nat × Nat := if r = 2 ^ 24 then (2 ^ 23, q + 1) else (r, q)
    if rq.1 < 2 ^ 23 then ⟨sb + rq.1⟩
    else
      let ex := rq.2 - 149 + 1
      if ex ≥ 255 then inf s else ⟨sb + ex * 2 ^ 23 + (rq.1 - 2 ^ 23)⟩

/-- A NaN operand as it comes out of an arithmetic instruction: the quiet bit (bit 22) set,
sign and the rest of the payload kept. -/
def quiet (x : F32) : F32 := if (x.bits / 2 ^ 22) % 2 = 1 then x else ⟨x.bits + 2 ^ 22⟩

/-- The NaN an invalid operation (infinity times zero) produces on x86-64, pattern `0xFFC00000`. -/
def indefinite : F32 := ⟨0xFFC00000⟩

/-- C++ `x * y` on `float` (round to nearest, ties to even).  IEEE-754 fixes that the
product is a NaN when an operand is a NaN or when infinity meets zero, and leaves the
pattern of that NaN to the platform; the patterns here are those of the x86-64 `mulss`
instruction (a NaN operand is handed on quieted, the first operand before the second, and
an invalid product is `0xFFC00000`). -/
def mul (x y : F32) : F32 :=
  let s := x.sign != y.sign
  if x.isNaN then x.quiet
  else if y.isNaN then y.quiet
  else if x.expo = 255 then (if y.expo = 0 ∧ y.mant = 0 then indefinite else inf s)
  else if y.expo = 255 then (if x.expo = 0 ∧ x.mant = 0 then indefinite else inf s)
  else round s (x.sig * y.sig) (x.ulpExp + y.ulpExp)

/-- Equality of two `float` values as far as IEEE-754 fixes the outcome of an operation:
the same pattern, or a NaN on both sides. -/
def sameValue (a b : F32) : Prop := a = b ∨ (a.isNaN = true ∧ b.isNaN = true)

instance (a b : F32) : Decidable (sameValue a b) := by
  unfold sameValue
  infer_instance

/-- The function `std::clamp(v, lo, hi)` on `float`: `(v < lo) ? lo : (hi < v) ? hi : v`. -/
def clamp (v lo hi : F32) : F32 := if v.lt lo then lo else if hi.lt v then hi else v

/-- The four bytes of the value in memory, least significant first. -/
def toBytes (x : F32) : List Nat :=
  [x.bits % 256, (x.bits / 2 ^ 8) % 256, (x.bits / 2 ^ 16) % 256, (x.bits / 2 ^ 24) % 256]

end F32

/-! ## memory and loops -/

/-- What ends an operation that leaves defined behaviour: touching memory it must not
touch, or incrementing an `int` beyond `INT_MAX`. -/
inductive Fault where
  | null_deref
  | out_of_bounds
  | int_overflow
deriving DecidableEq, Repr

/-- Read `a[i]` from an array of known extent. -/
def readAt {α : Type} (a : List α) (i : Nat) : Except Fault α :=
  match a[i]? with
  | some v => .ok v
  | none => .error .out_of_bounds

/-- Write `a[i] = v` into an array of known extent. -/
def writeAt {α : Type} (a : List α) (i : Nat) (v : α) : Except Fault (List α) :=
  if i < a.length then .ok (a.set i v) else .error .out_of_bounds

/-- The loop `for (k = 0; k < n; ++k) body(k)` over a state `σ`; a fault in the body ends it. -/
def forUpTo {σ : Type} (n : Nat) (body : Nat → σ → Except Fault σ) (s : σ) : Except Fault σ :=
  match n with
  | 0 => .ok s
  | k + 1 =>
    match forUpTo k body s with
    | .error e => .error e
    | .ok s1 => body k s1

/-- Conversion of an `int` to `uint32_t`. -/
def toUInt32 (x : Int) : Nat := (x % 2 ^ 32).toNat

/-- A `float**`: an array of channel pointers, each `nullptr` or an array of samples. -/
abbrev Planar := List (Option (List F32))

/-! ## libobs declarations used by the handler -/

/-- The libobs `enum audio_format`, by value. -/
abbrev audio_format := Nat

def AUDIO_FORMAT_UNKNOWN : audio_format := 0
def AUDIO_FORMAT_U8BIT : audio_format := 1
def AUDIO_FORMAT_16BIT : audio_format := 2
def AUDIO_FORMAT_32BIT : audio_format := 3
def AUDIO_FORMAT_FLOAT : audio_format := 4
def AUDIO_FORMAT_U8BIT_PLANAR : audio_format := 5
def AUDIO_FORMAT_16BIT_PLANAR : audio_format := 6
def AUDIO_FORMAT_32BIT_PLANAR : audio_format := 7
def AUDIO_FORMAT_FLOAT_PLANAR : audio_format := 8

/-- The two values of libobs `enum speaker_layout` the handler uses. -/
inductive speaker_layout where
  | SPEAKERS_MONO
  | SPEAKERS_STEREO
deriving DecidableEq, Repr

/-- The libobs `struct resample_info`. -/
structure resample_info where
  samples_per_sec : Nat
  format : audio_format
  speakers : speaker_layout
deriving DecidableEq, Repr

/-- Size of the `output_data` array handed to `audio_resampler_resample`. -/
def MAX_AV_PLANES : Nat := 8

/-- What one invocation of `audio_resampler_resample` hands back: its return value, the
frame count it stored, and the planes it stored in `output_data` (each with the extent
of memory readable from that pointer). -/
structure ResampleResult where
  success : Bool
  output_frames : Nat
  output_data : Planar
deriving DecidableEq, Repr

/-- An invocation of a libobs or pthread primitive, as recorded in the trace. -/
inductive Call where
  | audio_resampler_create (dst src : resample_info) (result : Option Nat)
  | audio_resampler_destroy (resampler : Nat)
  | audio_resampler_resample (resampler : Nat) (frames : Nat)
  | pthread_mutex_lock
  | pthread_mutex_unlock
  | circlebuf_push_back (size : Nat)
  | circlebuf_free
  | circlebuf_init
deriving DecidableEq, Repr

/-- The CEF `CefAudioParameters`; `channel_layout` is the enum value. -/
structure CefAudioParameters where
  channel_layout : Int
  sample_rate : Int
  frames_per_buffer : Int
deriving DecidableEq, Repr

/-- The CEF enum value `CEF_CHANNEL_LAYOUT_STEREO`. -/
def CEF_CHANNEL_LAYOUT_STEREO : Int := 3

/-! ## `AudioUtils` -/

namespace AudioUtils

/-- `AudioUtils::GetAudioDataSize`: `frames * channels` is a `uint32_t` product, widened to
`size_t` (64 bits, so the last product cannot wrap) for the multiplication by the sample width. -/
def GetAudioDataSize (frames channels : Nat) (format : audio_format) : Nat :=
  let bytes_per_sample : Nat :=
    if format = AUDIO_FORMAT_U8BIT ∨ format = AUDIO_FORMAT_U8BIT_PLANAR then 1
    else if format = AUDIO_FORMAT_16BIT ∨ format = AUDIO_FORMAT_16BIT_PLANAR then 2
    else if format = AUDIO_FORMAT_32BIT ∨ format = AUDIO_FORMAT_32BIT_PLANAR
        ∨ format = AUDIO_FORMAT_FLOAT ∨ format = AUDIO_FORMAT_FLOAT_PLANAR then 4
    else 4
  ((frames * channels) % 2 ^ 32) * bytes_per_sample

/-- `AudioUtils::ApplyVolume`; the result is the memory behind `audio_data` afterwards. -/
def ApplyVolume (audio_data : Option Planar) (frames channels : Nat) (volume : F32) :
    Except Fault (Option Planar) :=
  match audio_data with
  | none => .ok none
  | some d =>
    if volume.eq F32.one then .ok (some d)
    else
      match forUpTo channels (fun ch d =>
        match readAt d ch with
        | .error e => .error e
        | .ok none => .ok d
        | .ok (some p) =>
          match forUpTo frames (fun i p =>
            match readAt p i with
            | .error e => .error e
            | .ok v => writeAt p i (v.mul volume)) p with
          | .error e => .error e
          | .ok p1 => writeAt d ch (some p1)) d with
      | .error e => .error e
      | .ok d1 => .ok (some d1)

/-- `AudioUtils::InterleavedToPlanar`; the result is the memory behind `planar` afterwards.
The index `i * channels + ch` is a `uint32_t` expression. -/
def InterleavedToPlanar (interleaved : Option (List F32)) (planar : Option Planar)
    (frames channels : Nat) : Except Fault (Option Planar) :=
  match interleaved, planar with
  | some src, some d =>
    match forUpTo channels (fun ch d =>
      match readAt d ch with
      | .error e => .error e
      | .ok none => .ok d
      | .ok (some p) =>
        match forUpTo frames (fun i p =>
          match readAt src ((i * channels + ch) % 2 ^ 32) with
          | .error e => .error e
          | .ok v => writeAt p i v) p with
        | .error e => .error e
        | .ok p1 => writeAt d ch (some p1)) d with
    | .error e => .error e
    | .ok d1 => .ok (some d1)
  | _, _ => .ok planar

/-- `AudioUtils::PlanarToInterleaved`; the result is the memory behind `interleaved` afterwards. -/
def PlanarToInterleaved (planar : Option Planar) (interleaved : Option (List F32))
    (frames channels : Nat) : Except Fault (Option (List F32)) :=
  match planar, interleaved with
  | some src, some dst =>
    match forUpTo frames (fun i dst =>
      forUpTo channels (fun ch dst =>
        match readAt src ch with
        | .error e => .error e
        | .ok (some p) =>
          match readAt p i with
          | .error e => .error e
          | .ok v => writeAt dst ((i * channels + ch) % 2 ^ 32) v
        | .ok none => writeAt dst ((i * channels + ch) % 2 ^ 32) F32.zero) dst) dst with
    | .error e => .error e
    | .ok dst1 => .ok (some dst1)
  | _, _ => .ok interleaved

end AudioUtils

/-! ## `CEFAudioHandler` -/

/-- The `struct AudioParams`. -/
structure AudioParams where
  sample_rate : Nat
  channels : Nat
  format : audio_format
  frames_per_buffer : Nat
deriving DecidableEq, Repr

/-- The constructor `AudioParams::AudioParams()`. -/
def AudioParams.init : AudioParams :=
  { sample_rate := 48000, channels := 2, format := AUDIO_FORMAT_FLOAT_PLANAR,
    frames_per_buffer := 1024 }

/-- The data members of `CEFAudioHandler` that the audio path reads or writes.
`resampler_` is the handle (`none` is `nullptr`), `audio_buffer_` the bytes held by the
`circlebuf`, oldest first.  `source_` and `buffer_mutex_` carry no data of the model. -/
structure CEFAudioHandler where
  stream_active_ : Bool
  volume_ : F32
  muted_ : Bool
  input_params_ : AudioParams
  output_params_ : AudioParams
  resampler_ : Option Nat
  audio_buffer_ : List Nat
deriving DecidableEq, Repr

namespace CEFAudioHandler

/-- The constructor `CEFAudioHandler::CEFAudioHandler`. -/
def init : CEFAudioHandler :=
  { stream_active_ := false
    volume_ := F32.one
    muted_ := false
    input_params_ := AudioParams.init
    output_params_ :=
      { sample_rate := 48000, channels := 2, format := AUDIO_FORMAT_FLOAT_PLANAR,
        frames_per_buffer := 1024 }
    resampler_ := none
    audio_buffer_ := [] }

/-- The method `CEFAudioHandler::GetAudioParameters`: the parameters it stores and its return value. -/
def GetAudioParameters (_h : CEFAudioHandler) (params : CefAudioParameters) :
    CefAudioParameters × Bool :=
  ({ params with channel_layout := CEF_CHANNEL_LAYOUT_STEREO, sample_rate := 48000,
                 frames_per_buffer := 1024 }, true)

/-- The method `CEFAudioHandler::CleanupResampler`. -/
def CleanupResampler (h : CEFAudioHandler) : CEFAudioHandler × List Call :=
  match h.resampler_ with
  | some r => ({ h with resampler_ := none }, [Call.audio_resampler_destroy r])
  | none => (h, [])

/-- The method `CEFAudioHandler::InitializeResampler`; `created` is what
`audio_resampler_create` returns if it is invoked. -/
def InitializeResampler (created : Option Nat) (h : CEFAudioHandler) :
    CEFAudioHandler × List Call :=
  let c := CleanupResampler h
  let h1 := c.1
  if h1.input_params_.sample_rate = h1.output_params_.sample_rate ∧
      h1.input_params_.channels = h1.output_params_.channels then
    (h1, c.2)
  else
    let src_info : resample_info :=
      { samples_per_sec := h1.input_params_.sample_rate
        format := AUDIO_FORMAT_FLOAT
        speakers := if h1.input_params_.channels = 1 then speaker_layout.SPEAKERS_MONO
                    else speaker_layout.SPEAKERS_STEREO }
    let dst_info : resample_info :=
      { samples_per_sec := h1.output_params_.sample_rate
        format := h1.output_params_.format
        speakers := if h1.output_params_.channels = 1 then speaker_layout.SPEAKERS_MONO
                    else speaker_layout.SPEAKERS_STEREO }
    ({ h1 with resampler_ := created },
      c.2 ++ [Call.audio_resampler_create dst_info src_info created])

/-- The method `CEFAudioHandler::OnAudioStreamStarted`; `created` is what
`audio_resampler_create` returns if it is invoked. -/
def OnAudioStreamStarted (params : CefAudioParameters) (channels : Int)
    (created : Option Nat) (h : CEFAudioHandler) : CEFAudioHandler × List Call :=
  let h1 : CEFAudioHandler :=
    { h with input_params_ :=
        { sample_rate := toUInt32 params.sample_rate
          channels := toUInt32 channels
          format := AUDIO_FORMAT_FLOAT
          frames_per_buffer := toUInt32 params.frames_per_buffer } }
  let r := InitializeResampler created h1
  ({ r.1 with stream_active_ := true }, r.2)

/-- The bytes `circlebuf_push_back` copies: `size` bytes starting at `data`. -/
def readBytes (data : Option (List F32)) (size : Nat) : Except Fault (List Nat) :=
  if size = 0 then .ok []
  else
    match data with
    | none => .error .null_deref
    | some fs =>
      if size ≤ 4 * fs.length then .ok ((fs.flatMap F32.toBytes).take size)
      else .error .out_of_bounds

/-- The `output_data` array of `ConvertAndBuffer`: `MAX_AV_PLANES` pointers, null where
the resampler stored none. -/
def outputPlanes (stored : Planar) : Planar :=
  (stored ++ List.replicate MAX_AV_PLANES none).take MAX_AV_PLANES

/-- The pointer `std::vector<float>::data()` returns: `nullptr` for a vector without
elements (it owns no storage), else the array of its elements. -/
def vectorData (v : List F32) : Option (List F32) := if v.isEmpty then none else some v

/-- The conversion in the `else` branch of `ConvertAndBuffer` ("No resampling needed"), from
the construction of the local vector to the point where `circlebuf_push_back` is reached:
the result is the memory behind `input_data` and the `data()` of the local vector
(`volume_adjusted`, or `interleaved`) at that point.  In the volume loops the state is that
pair of memories; `frames * input_params_.channels` and `i * input_params_.channels + ch`
are `uint32_t` expressions.  `ch` is an `int` compared with the `uint32_t` channel count,
so `++ch` beyond `INT_MAX` is a fault; `i` is an `int` below the `int` `frames`. -/
def convertDirect (input : Planar) (frames : Int) (h : CEFAudioHandler) :
    Except Fault (Planar × Option (List F32)) :=
  let channels := h.input_params_.channels
  let count := (toUInt32 frames * channels) % 2 ^ 32
  if h.volume_.ne F32.one then
    match forUpTo channels (fun ch mem =>
      match forUpTo frames.toNat (fun i mem =>
        match readAt mem.1 ch with
        | .error e => .error e
        | .ok none => .error .null_deref
        | .ok (some p) =>
          match readAt p i with
          | .error e => .error e
          | .ok v =>
            match writeAt mem.2 ((i * channels + ch) % 2 ^ 32) (v.mul h.volume_) with
            | .error e => .error e
            | .ok volume_adjusted => .ok (mem.1, volume_adjusted)) mem with
      | .error e => .error e
      | .ok mem1 => if ch + 1 < 2 ^ 31 then .ok mem1 else .error .int_overflow)
      (input, List.replicate count F32.zero) with
    | .error e => .error e
    | .ok mem => .ok (mem.1, vectorData mem.2)
  else
    match AudioUtils.PlanarToInterleaved (some input)
        (vectorData (List.replicate count F32.zero)) frames.toNat channels with
    | .error e => .error e
    | .ok interleaved => .ok (input, interleaved)

/-- The method `CEFAudioHandler::ConvertAndBuffer`; `rs` is what `audio_resampler_resample`
hands back if it is invoked.  Both arms of the `else` branch end in the same
`circlebuf_push_back(&audio_buffer_, <vector>.data(), data_size)`, written once here. -/
def ConvertAndBuffer (input_data : Option Planar) (frames : Int) (rs : ResampleResult)
    (h : CEFAudioHandler) : Except Fault (CEFAudioHandler × List Call) :=
  match input_data with
  | none => .ok (h, [])
  | some input =>
    if frames ≤ 0 then .ok (h, [])
    else
      match h.resampler_ with
      | some r =>
        if rs.success ∧ rs.output_frames > 0 then
          match AudioUtils.ApplyVolume (some (outputPlanes rs.output_data)) rs.output_frames
              h.output_params_.channels h.volume_ with
          | .error e => .error e
          | .ok float_output =>
            let data_size := AudioUtils.GetAudioDataSize rs.output_frames
              h.output_params_.channels h.output_params_.format
            match readBytes ((float_output.getD []).headD none) data_size with
            | .error e => .error e
            | .ok bytes =>
              .ok ({ h with audio_buffer_ := h.audio_buffer_ ++ bytes },
                [Call.pthread_mutex_lock, Call.audio_resampler_resample r (toUInt32 frames),
                 Call.circlebuf_push_back data_size, Call.pthread_mutex_unlock])
        else
          .ok (h, [Call.pthread_mutex_lock, Call.audio_resampler_resample r (toUInt32 frames),
                   Call.pthread_mutex_unlock])
      | none =>
        let data_size := ((toUInt32 frames * h.input_params_.channels) % 2 ^ 32) * 4
        match convertDirect input frames h with
        | .error e => .error e
        | .ok mem =>
          match readBytes mem.2 data_size with
          | .error e => .error e
          | .ok bytes =>
            .ok ({ h with audio_buffer_ := h.audio_buffer_ ++ bytes },
              [Call.pthread_mutex_lock, Call.circlebuf_push_back data_size,
               Call.pthread_mutex_unlock])

/-- The method `CEFAudioHandler::ProcessAudioData`. -/
def ProcessAudioData (data : Option Planar) (frames : Int) (_pts : Int) (rs : ResampleResult)
    (h : CEFAudioHandler) : Except Fault (CEFAudioHandler × List Call) :=
  if h.muted_ ∨ h.volume_.le F32.zero then .ok (h, [])
  else ConvertAndBuffer data frames rs h

/-- The method `CEFAudioHandler::OnAudioStreamPacket`. -/
def OnAudioStreamPacket (data : Option Planar) (frames : Int) (pts : Int) (rs : ResampleResult)
    (h : CEFAudioHandler) : Except Fault (CEFAudioHandler × List Call) :=
  if ¬ h.stream_active_ ∨ data = none ∨ frames ≤ 0 then .ok (h, [])
  else ProcessAudioData data frames pts rs h

/-- The method `CEFAudioHandler::OnAudioStreamStopped`. -/
def OnAudioStreamStopped (h : CEFAudioHandler) : CEFAudioHandler × List Call :=
  ({ h with stream_active_ := false, audio_buffer_ := [] },
    [Call.pthread_mutex_lock, Call.circlebuf_free, Call.circlebuf_init,
     Call.pthread_mutex_unlock])

/-- The method `CEFAudioHandler::OnAudioStreamError`. -/
def OnAudioStreamError (_message : String) (h : CEFAudioHandler) : CEFAudioHandler × List Call :=
  ({ h with stream_active_ := false }, [])

/-- The method `CEFAudioHandler::SetVolume`. -/
def SetVolume (volume : F32) (h : CEFAudioHandler) : CEFAudioHandler :=
  { h with volume_ := F32.clamp volume F32.zero F32.one }

/-- The method `CEFAudioHandler::GetVolume`. -/
def GetVolume (h : CEFAudioHandler) : F32 := h.volume_

/-- The method `CEFAudioHandler::SetMuted`. -/
def SetMuted (muted : Bool) (h : CEFAudioHandler) : CEFAudioHandler :=
  { h with muted_ := muted }

/-- The method `CEFAudioHandler::IsMuted`. -/
def IsMuted (h : CEFAudioHandler) : Bool := h.muted_

/-- The method `CEFAudioHandler::IsStreamActive`. -/
def IsStreamActive (h : CEFAudioHandler) : Bool := h.stream_active_

/-- Number of bytes held by `audio_buffer_` (the `size` of the `circlebuf`). -/
def bufferedBytes (h : CEFAudioHandler) : Nat := h.audio_buffer_.length

end CEFAudioHandler

/-! ## event sequences -/

/-- One call into the handler from the browser engine or from the settings side, with
what the libobs primitive it may reach hands back. -/
inductive Event where
  | OnAudioStreamStarted (params : CefAudioParameters) (channels : Int) (created : Option Nat)
  | OnAudioStreamPacket (data : Option Planar) (frames : Int) (pts : Int) (rs : ResampleResult)
  | OnAudioStreamStopped
  | OnAudioStreamError (message : String)
  | SetVolume (volume : F32)
  | SetMuted (muted : Bool)
deriving DecidableEq, Repr

/-- The handler after one event, with the primitives the event invoked. -/
def step (h : CEFAudioHandler) : Event → Except Fault (CEFAudioHandler × List Call)
  | .OnAudioStreamStarted params channels created =>
      .ok (h.OnAudioStreamStarted params channels created)
  | .OnAudioStreamPacket data frames pts rs => h.OnAudioStreamPacket data frames pts rs
  | .OnAudioStreamStopped => .ok h.OnAudioStreamStopped
  | .OnAudioStreamError message => .ok (h.OnAudioStreamError message)
  | .SetVolume volume => .ok (h.SetVolume volume, [])
  | .SetMuted muted => .ok (h.SetMuted muted, [])

/-- The handler after a sequence of events, with the trace of all primitives invoked. -/
def run (h : CEFAudioHandler) : List Event → Except Fault (CEFAudioHandler × List Call)
  | [] => .ok (h, [])
  | e :: es =>
    match step h e with
    | .error f => .error f
    | .ok (h1, t1) =>
      match run h1 es with
      | .error f => .error f
      | .ok (h2, t2) => .ok (h2, t1 ++ t2)

/-- Recognises an invocation of `audio_resampler_create` in a trace. -/
def Call.isCreate : Call → Bool
  | .audio_resampler_create _ _ _ => true
  | _ => false

/-- Recognises an invocation of `audio_resampler_destroy` in a trace. -/
def Call.isDestroy : Call → Bool
  | .audio_resampler_destroy _ => true
  | _ => false

/-- Recognises `OnAudioStreamStarted` among the events. -/
def Event.isStart : Event → Bool
  | .OnAudioStreamStarted _ _ _ => true
  | _ => false

/-- The level of a `SetVolume` event is a number, not a NaN. -/
def Event.levelIsNumber : Event → Prop
  | .SetVolume volume => volume.isNaN = false
  | _ => True

instance (e : Event) : Decidable e.levelIsNumber := by
  cases e <;> unfold Event.levelIsNumber <;> infer_instance

/-- The start carries a resampler handle: the construction primitive succeeds if invoked. -/
def Event.resamplerBuilt : Event → Prop
  | .OnAudioStreamStarted _ _ created => created.isSome = true
  | _ => True

/-- What the byte count of the buffer rests on: the output format is the constructor's,
a handler without resampler has a 2-channel input format, and the buffer holds whole
output frames. -/
def FrameInv (h : CEFAudioHandler) : Prop :=
  h.output_params_ = CEFAudioHandler.init.output_params_ ∧
  (h.resampler_ = none → h.input_params_.channels = 2) ∧
  8 ∣ h.audio_buffer_.length

/-- The sample `PlanarToInterleaved` stores for channel `ch` of frame `i`: `planar[ch][i]`,
or `0.0f` where the channel pointer is null. -/
def sampleAt (planar : Planar) (ch i : Nat) : F32 :=
  match planar[ch]? with
  | some (some p) => p.getD i F32.zero
  | _ => F32.zero

/-- Whether some `audio_resampler_resample` of the trace is invoked while the buffer mutex
is held; `held` says whether it is held where the trace begins. -/
def resampleUnderLock : Bool → List Call → Bool
  | _, [] => false
  | _, .pthread_mutex_lock :: t => resampleUnderLock true t
  | _, .pthread_mutex_unlock :: t => resampleUnderLock false t
  | held, .audio_resampler_resample _ _ :: t => held || resampleUnderLock held t
  | held, _ :: t => resampleUnderLock held t

/-- Whether some `circlebuf_push_back` of the trace is invoked while the buffer mutex is
not held. -/
def pushOutsideLock : Bool → List Call → Bool
  | _, [] => false
  | _, .pthread_mutex_lock :: t => pushOutsideLock true t
  | _, .pthread_mutex_unlock :: t => pushOutsideLock false t
  | held, .circlebuf_push_back _ :: t => !held || pushOutsideLock held t
  | held, _ :: t => pushOutsideLock held t

/-- Recognises an invocation of `audio_resampler_resample` in a trace. -/
def Call.isResample : Call → Bool
  | .audio_resampler_resample _ _ => true
  | _ => false

/-- The sample width the specification assigns to a format: 1 byte for the 8-bit formats,
2 for the 16-bit formats, 4 for the 32-bit and float formats and for every other value. -/
def specSampleWidth (format : audio_format) : Nat :=
  if format = AUDIO_FORMAT_U8BIT ∨ format = AUDIO_FORMAT_U8BIT_PLANAR then 1
  else if format = AUDIO_FORMAT_16BIT ∨ format = AUDIO_FORMAT_16BIT_PLANAR then 2
  else 4

/-! ## `ChromiumSourceImpl::LoadSettings` (`src/chromium_source.cpp`, `src/chromium_source.h`) -/

/-- The `struct SizePreset`. -/
structure SizePreset where
  name : String
  width : Int
  height : Int
deriving DecidableEq, Repr

/-- The table `SIZE_PRESETS`. -/
def SIZE_PRESETS : List SizePreset :=
  [⟨"Custom", 0, 0⟩,
   ⟨"1920x1080 (Full HD)", 1920, 1080⟩,
   ⟨"1280x720 (HD)", 1280, 720⟩,
   ⟨"1366x768 (WXGA)", 1366, 768⟩,
   ⟨"1600x900 (HD+)", 1600, 900⟩,
   ⟨"2560x1440 (QHD)", 2560, 1440⟩,
   ⟨"3840x2160 (4K UHD)", 3840, 2160⟩,
   ⟨"800x600 (SVGA)", 800, 600⟩,
   ⟨"1024x768 (XGA)", 1024, 768⟩,
   ⟨"1440x900 (WXGA+)", 1440, 900⟩]

/-- The macro `NUM_SIZE_PRESETS`: `sizeof(SIZE_PRESETS) / sizeof(SIZE_PRESETS[0])`. -/
def NUM_SIZE_PRESETS : Nat := SIZE_PRESETS.length

def MIN_WIDTH : Int := 100
def MAX_WIDTH : Int := 7680
def MIN_HEIGHT : Int := 100
def MAX_HEIGHT : Int := 4320
def MIN_RELOAD_INTERVAL : Int := 10
def MAX_RELOAD_INTERVAL : Int := 3600
def DEFAULT_WIDTH : Int := 1920
def DEFAULT_HEIGHT : Int := 1080
def DEFAULT_URL : String := "about:blank"
def DEFAULT_FORCE_CONTINUOUS : Bool := true
def DEFAULT_AUTO_RELOAD : Bool := false
def DEFAULT_RELOAD_INTERVAL : Int := 300

/-- The conversion `(int)` of a `long long`: the low 32 bits as a two's complement value. -/
def toInt32 (x : Int) : Int := (x + 2 ^ 31) % 2 ^ 32 - 2 ^ 31

/-- The function `std::clamp(v, lo, hi)` on `int`: `(v < lo) ? lo : (hi < v) ? hi : v`. -/
def clampInt (v lo hi : Int) : Int := if v < lo then lo else if hi < v then hi else v

/-- What the libobs getters hand back for the keys `LoadSettings` reads from the
`obs_data_t`: `obs_data_get_string` (`none` is a null pointer), `obs_data_get_bool`,
`obs_data_get_int` (a `long long`), and for `volume` the `double` of `obs_data_get_double`
after its conversion `(float)`, which keeps a NaN a NaN and a number a number or an
infinity. -/
structure obs_data_t where
  url : Option String
  custom_size : Bool
  width : Int
  height : Int
  size_preset : Int
  force_continuous : Bool
  volume : F32
  muted : Bool
  auto_reload : Bool
  reload_interval : Int
deriving DecidableEq, Repr

/-- The data members of `ChromiumSourceImpl` that `LoadSettings` writes.  Browser, audio
and texture members are not touched by it. -/
structure ChromiumSourceImpl where
  url_ : String
  width_ : Int
  height_ : Int
  force_continuous_playback_ : Bool
  volume_ : F32
  muted_ : Bool
  auto_reload_ : Bool
  reload_interval_ : Int
deriving DecidableEq, Repr

namespace ChromiumSourceImpl

/-- The constructor `ChromiumSourceImpl::ChromiumSourceImpl`. -/
def init : ChromiumSourceImpl :=
  { url_ := DEFAULT_URL
    width_ := DEFAULT_WIDTH
    height_ := DEFAULT_HEIGHT
    force_continuous_playback_ := DEFAULT_FORCE_CONTINUOUS
    volume_ := F32.one
    muted_ := false
    auto_reload_ := DEFAULT_AUTO_RELOAD
    reload_interval_ := DEFAULT_RELOAD_INTERVAL }

/-- The width and height `LoadSettings` holds before it clamps them. -/
def loadedSize (settings : obs_data_t) (s : ChromiumSourceImpl) : Int × Int :=
  if settings.custom_size then
    (toInt32 settings.width, toInt32 settings.height)
  else
    let preset_index := toInt32 settings.size_preset
    if 0 ≤ preset_index ∧ preset_index < (NUM_SIZE_PRESETS : Int) then
      match SIZE_PRESETS[preset_index.toNat]? with
      | some preset =>
        if preset.width > 0 ∧ preset.height > 0 then (preset.width, preset.height)
        else (s.width_, s.height_)
      | none => (s.width_, s.height_)
    else (s.width_, s.height_)

/-- The method `ChromiumSourceImpl::LoadSettings`. -/
def LoadSettings (settings : obs_data_t) (s : ChromiumSourceImpl) : ChromiumSourceImpl :=
  { url_ := match settings.url with
            | some url => url
            | none => DEFAULT_URL
    width_ := clampInt (loadedSize settings s).1 MIN_WIDTH MAX_WIDTH
    height_ := clampInt (loadedSize settings s).2 MIN_HEIGHT MAX_HEIGHT
    force_continuous_playback_ := settings.force_continuous
    volume_ := F32.clamp settings.volume F32.zero F32.one
    muted_ := settings.muted
    auto_reload_ := settings.auto_reload
    reload_interval_ :=
      clampInt (toInt32 settings.reload_interval) MIN_RELOAD_INTERVAL MAX_RELOAD_INTERVAL }

end ChromiumSourceImpl

/-- An `int` argument is a 32-bit two's complement value. -/
def isInt32 (x : Int) : Prop := -2 ^ 31 ≤ x ∧ x < 2 ^ 31

instance (x : Int) : Decidable (isInt32 x) := by unfold isInt32; infer_instance

end AlertTwitchFix

/-! ## Properties -/

namespace AlertTwitchFix

open CEFAudioHandler

/-! ### Handler events -/

/-- Conversion to `uint32_t` keeps apart a 32-bit `int` and a small constant. -/
theorem toUInt32_eq_iff (x : Int) (k : Nat) (hk : k < 2 ^ 31) (hx : isInt32 x) :
    toUInt32 x = k ↔ x = (k : Int) := by
  unfold isInt32 at hx
  unfold toUInt32
  omega

/-- C2. Mute suppresses buffering: in every handler state in which `muted_` is set or
`volume_ <= 0.0f` holds, `OnAudioStreamPacket` returns for every packet (any data pointer,
any frame count, whatever the resampler would hand back) and the buffered byte count is
what it was. -/
theorem mute_suppresses_buffering (h : CEFAudioHandler) (data : Option Planar)
    (frames pts : Int) (rs : ResampleResult)
    (hm : h.muted_ = true ∨ h.volume_.le F32.zero = true) :
    ∃ h1 t, h.OnAudioStreamPacket data frames pts rs = .ok (h1, t) ∧
      h1.bufferedBytes = h.bufferedBytes := by
  refine ⟨h, [], ?_, rfl⟩
  unfold OnAudioStreamPacket
  by_cases hc : ¬ h.stream_active_ = true ∨ data = none ∨ frames ≤ 0
  · rw [if_pos hc]
  · rw [if_neg hc]
    unfold ProcessAudioData
    rw [if_pos hm]

/-- C2, at a muted handler with an active stream and a one-frame stereo packet. -/
theorem mute_suppresses_buffering_witness :
    (({ CEFAudioHandler.init with stream_active_ := true, muted_ := true } : CEFAudioHandler).muted_ = true ∨
      ({ CEFAudioHandler.init with stream_active_ := true, muted_ := true } : CEFAudioHandler).volume_.le F32.zero = true) ∧
    ∃ h1 t, ({ CEFAudioHandler.init with stream_active_ := true, muted_ := true } :
        CEFAudioHandler).OnAudioStreamPacket (some [some [F32.one], some [F32.one]]) 1 0
          ⟨false, 0, []⟩ = .ok (h1, t) ∧
      h1.bufferedBytes =
        ({ CEFAudioHandler.init with stream_active_ := true, muted_ := true } :
          CEFAudioHandler).bufferedBytes :=
  ⟨Or.inl rfl, mute_suppresses_buffering _ _ _ _ _ (Or.inl rfl)⟩

/-- While the stream is not active, an event other than `OnAudioStreamStarted` returns,
leaves the stream inactive and does not add a byte to the buffer. -/
theorem step_inactive {h : CEFAudioHandler} (e : Event) (hi : h.stream_active_ = false)
    (he : e.isStart = false) :
    ∃ h1 t, step h e = .ok (h1, t) ∧ h1.stream_active_ = false ∧
      h1.bufferedBytes ≤ h.bufferedBytes := by
  cases e with
  | OnAudioStreamStarted params channels created => simp [Event.isStart] at he
  | OnAudioStreamPacket data frames pts rs =>
    refine ⟨h, [], ?_, hi, le_refl _⟩
    simp [step, OnAudioStreamPacket, hi]
  | OnAudioStreamStopped =>
    exact ⟨_, _, rfl, rfl, by simp [OnAudioStreamStopped, bufferedBytes]⟩
  | OnAudioStreamError message => exact ⟨_, _, rfl, rfl, le_refl _⟩
  | SetVolume volume => exact ⟨_, _, rfl, hi, le_refl _⟩
  | SetMuted muted => exact ⟨_, _, rfl, hi, le_refl _⟩

/-- The same along a sequence of events without `OnAudioStreamStarted`. -/
theorem run_inactive (evs : List Event) :
    ∀ {h : CEFAudioHandler}, h.stream_active_ = false → (∀ e ∈ evs, e.isStart = false) →
      ∃ h1 t, run h evs = .ok (h1, t) ∧ h1.stream_active_ = false ∧
        h1.bufferedBytes ≤ h.bufferedBytes := by
  induction evs with
  | nil => exact fun {h} hi _ => ⟨h, [], rfl, hi, le_refl _⟩
  | cons e es ih =>
    intro h hi he
    obtain ⟨h1, t1, hs, hi1, hb1⟩ := step_inactive e hi (he e (List.mem_cons_self _ _))
    obtain ⟨h2, t2, hr, hi2, hb2⟩ := ih hi1 (fun e1 he1 => he e1 (List.mem_cons_of_mem _ he1))
    refine ⟨h2, t1 ++ t2, ?_, hi2, le_trans hb2 hb1⟩
    simp only [run, hs, hr]

/-- C3. Stream-stop clears state: from every handler state, after `OnAudioStreamStopped`
the buffered byte count is 0; an `OnAudioStreamPacket` that follows returns and leaves it
0, for every packet; and so does every sequence of events (packets included) that contains
no `OnAudioStreamStarted`. -/
theorem stream_stop_clears_state (h : CEFAudioHandler) :
    h.OnAudioStreamStopped.1.bufferedBytes = 0 ∧
    (∀ (data : Option Planar) (frames pts : Int) (rs : ResampleResult),
      ∃ h1 t, h.OnAudioStreamStopped.1.OnAudioStreamPacket data frames pts rs = .ok (h1, t) ∧
        h1.bufferedBytes = 0) ∧
    (∀ evs : List Event, (∀ e ∈ evs, e.isStart = false) →
      ∃ h1 t, run h.OnAudioStreamStopped.1 evs = .ok (h1, t) ∧ h1.bufferedBytes = 0) := by
  refine ⟨rfl, fun data frames pts rs => ⟨h.OnAudioStreamStopped.1, [], ?_, rfl⟩,
    fun evs he => ?_⟩
  · unfold OnAudioStreamPacket
    rw [if_pos]
    left
    simp [OnAudioStreamStopped]
  · obtain ⟨h1, t, hr, -, hb⟩ := run_inactive evs (h := h.OnAudioStreamStopped.1) rfl he
    refine ⟨h1, t, hr, ?_⟩
    have h0 : h.OnAudioStreamStopped.1.bufferedBytes = 0 := rfl
    omega

/-- C3, at a handler that holds 8 buffered bytes, followed by a volume change and a packet. -/
theorem stream_stop_clears_state_witness :
    (∀ e ∈ [Event.SetVolume F32.one,
        Event.OnAudioStreamPacket (some [some [F32.one], some [F32.one]]) 1 0 ⟨false, 0, []⟩],
      e.isStart = false) ∧
    ∃ h1 t,
      run ({ CEFAudioHandler.init with
              stream_active_ := true
              audio_buffer_ := [0, 0, 128, 63, 0, 0, 128, 63] } :
            CEFAudioHandler).OnAudioStreamStopped.1
        [Event.SetVolume F32.one,
         Event.OnAudioStreamPacket (some [some [F32.one], some [F32.one]]) 1 0 ⟨false, 0, []⟩] =
          .ok (h1, t) ∧
      h1.bufferedBytes = 0 :=
  ⟨by decide, (stream_stop_clears_state _).2.2 _ (by decide)⟩

/-- C5. Volume identity: `ApplyVolume` with level `1.0f` returns without a fault and
leaves the memory behind `audio_data` exactly as it was, for every array of channel
buffers (null pointers included), frame count and channel count. -/
theorem apply_volume_one_identity (audio_data : Option Planar) (frames channels : Nat) :
    AudioUtils.ApplyVolume audio_data frames channels F32.one = .ok audio_data := by
  unfold AudioUtils.ApplyVolume
  cases audio_data with
  | none => rfl
  | some d =>
    have h1 : F32.one.eq F32.one = true := by decide
    simp [h1]

/-- C10. Stream start always enters Active: from every handler state, for every input
format and every outcome of the resampler construction (a null handle included),
`IsStreamActive` is true after `OnAudioStreamStarted`. -/
theorem stream_start_enters_active (h : CEFAudioHandler) (params : CefAudioParameters)
    (channels : Int) (created : Option Nat) :
    (h.OnAudioStreamStarted params channels created).1.IsStreamActive = true := by
  rfl

/-- C6. Rebuild on restart: with the fixed output format (48000 Hz, 2 channels), for
every 32-bit input format that differs from it in sample rate or channel count, and a
construction primitive that succeeds both times (handles `r1`, then `r2`), two consecutive
`OnAudioStreamStarted` calls with that format invoke `audio_resampler_create` exactly twice;
after whatever the first call released, the trace is create (giving `r1`), destroy `r1`,
create (giving `r2`): the first handle is destroyed before the second is built, and the
second is the one held. -/
theorem rebuild_on_restart (h : CEFAudioHandler) (params : CefAudioParameters)
    (channels : Int) (r1 r2 : Nat)
    (hout : h.output_params_ = CEFAudioHandler.init.output_params_)
    (hrate : isInt32 params.sample_rate) (hch : isInt32 channels)
    (hdiff : params.sample_rate ≠ 48000 ∨ channels ≠ 2) :
    ((h.OnAudioStreamStarted params channels (some r1)).2 ++
      ((h.OnAudioStreamStarted params channels (some r1)).1.OnAudioStreamStarted
        params channels (some r2)).2).countP Call.isCreate = 2 ∧
    (∃ dst src,
      (h.OnAudioStreamStarted params channels (some r1)).2 ++
        ((h.OnAudioStreamStarted params channels (some r1)).1.OnAudioStreamStarted
          params channels (some r2)).2 =
      h.CleanupResampler.2 ++
        [Call.audio_resampler_create dst src (some r1), Call.audio_resampler_destroy r1,
         Call.audio_resampler_create dst src (some r2)]) ∧
    ((h.OnAudioStreamStarted params channels (some r1)).1.OnAudioStreamStarted
      params channels (some r2)).1.resampler_ = some r2 := by
  have hne : ¬ (toUInt32 params.sample_rate = 48000 ∧ toUInt32 channels = 2) := by
    rintro ⟨h1, h2⟩
    have e1 := (toUInt32_eq_iff params.sample_rate 48000 (by norm_num) hrate).1 h1
    have e2 := (toUInt32_eq_iff channels 2 (by norm_num) hch).1 h2
    rcases hdiff with hd | hd
    · exact hd (by exact_mod_cast e1)
    · exact hd (by exact_mod_cast e2)
  obtain ⟨sa, v, m, ip, op, rsm, buf⟩ := h
  simp only [CEFAudioHandler.init] at hout
  subst hout
  cases rsm <;>
    simp [OnAudioStreamStarted, InitializeResampler, CleanupResampler, hne, Call.isCreate,
      List.countP_cons]

/-- C6, at a freshly constructed handler and two starts with 44100 Hz, 2 channels. -/
theorem rebuild_on_restart_witness :
    (CEFAudioHandler.init.output_params_ = CEFAudioHandler.init.output_params_ ∧
      isInt32 44100 ∧ isInt32 2 ∧ ((44100 : Int) ≠ 48000 ∨ (2 : Int) ≠ 2)) ∧
    ((CEFAudioHandler.init.OnAudioStreamStarted ⟨3, 44100, 1024⟩ 2 (some 1)).2 ++
      ((CEFAudioHandler.init.OnAudioStreamStarted ⟨3, 44100, 1024⟩ 2 (some 1)).1.OnAudioStreamStarted
        ⟨3, 44100, 1024⟩ 2 (some 2)).2).countP Call.isCreate = 2 ∧
    (∃ dst src,
      (CEFAudioHandler.init.OnAudioStreamStarted ⟨3, 44100, 1024⟩ 2 (some 1)).2 ++
        ((CEFAudioHandler.init.OnAudioStreamStarted ⟨3, 44100, 1024⟩ 2 (some 1)).1.OnAudioStreamStarted
          ⟨3, 44100, 1024⟩ 2 (some 2)).2 =
      CEFAudioHandler.init.CleanupResampler.2 ++
        [Call.audio_resampler_create dst src (some 1), Call.audio_resampler_destroy 1,
         Call.audio_resampler_create dst src (some 2)]) ∧
    ((CEFAudioHandler.init.OnAudioStreamStarted ⟨3, 44100, 1024⟩ 2 (some 1)).1.OnAudioStreamStarted
      ⟨3, 44100, 1024⟩ 2 (some 2)).1.resampler_ = some 2 :=
  ⟨⟨rfl, by decide, by decide, Or.inl (by decide)⟩,
    rebuild_on_restart CEFAudioHandler.init ⟨3, 44100, 1024⟩ 2 1 2 rfl (by decide) (by decide)
      (Or.inl (by decide))⟩

/-- C7. Format negotiation: with the fixed output format, for every 32-bit sample rate and
channel count reported to `OnAudioStreamStarted` (zero and negative values included) and
every outcome `created` of the construction primitive:
`audio_resampler_create` is invoked iff the sample rate differs from 48000 or the channel
count differs from 2; when construction succeeds (`created` is a handle) a resampler is held
afterwards iff that condition holds; and for 48000 Hz / 2 channels none is constructed and
none is held. -/
theorem format_negotiation (h : CEFAudioHandler) (params : CefAudioParameters)
    (channels : Int) (created : Option Nat)
    (hout : h.output_params_ = CEFAudioHandler.init.output_params_)
    (hrate : isInt32 params.sample_rate) (hch : isInt32 channels) :
    ((h.OnAudioStreamStarted params channels created).2.any Call.isCreate = true ↔
      (params.sample_rate ≠ 48000 ∨ channels ≠ 2)) ∧
    (created.isSome = true →
      ((h.OnAudioStreamStarted params channels created).1.resampler_.isSome = true ↔
        (params.sample_rate ≠ 48000 ∨ channels ≠ 2))) ∧
    (params.sample_rate = 48000 ∧ channels = 2 →
      (h.OnAudioStreamStarted params channels created).2.any Call.isCreate = false ∧
      (h.OnAudioStreamStarted params channels created).1.resampler_ = none) := by
  have e1 := toUInt32_eq_iff params.sample_rate 48000 (by norm_num) hrate
  have e2 := toUInt32_eq_iff channels 2 (by norm_num) hch
  obtain ⟨sa, v, m, ip, op, rsm, buf⟩ := h
  simp only [CEFAudioHandler.init] at hout
  subst hout
  by_cases hs : params.sample_rate = 48000 ∧ channels = 2
  · have t1 : toUInt32 48000 = 48000 := by decide
    have t2 : toUInt32 2 = 2 := by decide
    cases rsm <;>
      simp [OnAudioStreamStarted, InitializeResampler, CleanupResampler, hs, t1, t2,
        Call.isCreate]
  · have hu : ¬ (toUInt32 params.sample_rate = 48000 ∧ toUInt32 channels = 2) := by
      rintro ⟨h1, h2⟩
      exact hs ⟨by exact_mod_cast e1.1 h1, by exact_mod_cast e2.1 h2⟩
    have hd : params.sample_rate ≠ 48000 ∨ channels ≠ 2 := by
      by_contra hcon
      push_neg at hcon
      exact hs hcon
    cases rsm <;> cases created <;>
      simp [OnAudioStreamStarted, InitializeResampler, CleanupResampler, hu, hs, hd,
        Call.isCreate]

/-- C7, at a freshly constructed handler, sample rate 0, channel count -1 and a
construction that succeeds with handle 5. -/
theorem format_negotiation_witness :
    (CEFAudioHandler.init.output_params_ = CEFAudioHandler.init.output_params_ ∧
      isInt32 0 ∧ isInt32 (-1)) ∧
    ((CEFAudioHandler.init.OnAudioStreamStarted ⟨3, 0, 1024⟩ (-1) (some 5)).2.any Call.isCreate = true ↔
      ((0 : Int) ≠ 48000 ∨ (-1 : Int) ≠ 2)) ∧
    ((some 5 : Option Nat).isSome = true →
      ((CEFAudioHandler.init.OnAudioStreamStarted ⟨3, 0, 1024⟩ (-1) (some 5)).1.resampler_.isSome = true ↔
        ((0 : Int) ≠ 48000 ∨ (-1 : Int) ≠ 2))) ∧
    ((0 : Int) = 48000 ∧ (-1 : Int) = 2 →
      (CEFAudioHandler.init.OnAudioStreamStarted ⟨3, 0, 1024⟩ (-1) (some 5)).2.any Call.isCreate = false ∧
      (CEFAudioHandler.init.OnAudioStreamStarted ⟨3, 0, 1024⟩ (-1) (some 5)).1.resampler_ = none) :=
  ⟨⟨rfl, by decide, by decide⟩,
    format_negotiation CEFAudioHandler.init ⟨3, 0, 1024⟩ (-1) (some 5) rfl (by decide)
      (by decide)⟩

/-- C8. The degraded Active state does not drop packets: after `OnAudioStreamStarted` with
44100 Hz, 1 channel (conversion required) and a failed resampler construction, an
`OnAudioStreamPacket` with one frame of non-null data, the handler unmuted at volume `1.0f`,
goes through the branch for streams that need no resampling and the buffered byte count
grows from 0 to 4. -/
theorem degraded_state_buffers_packet :
    (CEFAudioHandler.init.OnAudioStreamStarted ⟨3, 44100, 1024⟩ 1 none).1.resampler_ = none ∧
    (CEFAudioHandler.init.OnAudioStreamStarted ⟨3, 44100, 1024⟩ 1 none).1.bufferedBytes = 0 ∧
    ∃ h1 t,
      (CEFAudioHandler.init.OnAudioStreamStarted ⟨3, 44100, 1024⟩ 1 none).1.OnAudioStreamPacket
        (some [some [F32.one]]) 1 0 ⟨false, 0, []⟩ = .ok (h1, t) ∧
      h1.bufferedBytes = 4 :=
  ⟨rfl, rfl, _, _, rfl, rfl⟩

/-- C9 as stated fails: a handler that holds resampler 7 (started with 44100 Hz, 2 channels)
still holds it after `OnAudioStreamStopped`, and the stop invoked no
`audio_resampler_destroy`. -/
theorem stream_stop_keeps_resampler :
    (CEFAudioHandler.init.OnAudioStreamStarted ⟨3, 44100, 1024⟩ 2 (some 7)).1.resampler_ = some 7 ∧
    (CEFAudioHandler.init.OnAudioStreamStarted ⟨3, 44100, 1024⟩ 2
      (some 7)).1.OnAudioStreamStopped.1.resampler_ = some 7 ∧
    (CEFAudioHandler.init.OnAudioStreamStarted ⟨3, 44100, 1024⟩ 2
      (some 7)).1.OnAudioStreamStopped.2.any Call.isDestroy = false :=
  ⟨rfl, rfl, rfl⟩

/-- C9, amended. From every handler state, after `OnAudioStreamStopped` the stream is not
active and the resampler handle is the one held before the call: the stop invokes no
`audio_resampler_destroy`. -/
theorem stream_stop_inactive_resampler_kept (h : CEFAudioHandler) :
    h.OnAudioStreamStopped.1.IsStreamActive = false ∧
    h.OnAudioStreamStopped.1.resampler_ = h.resampler_ ∧
    h.OnAudioStreamStopped.2.any Call.isDestroy = false :=
  ⟨rfl, rfl, rfl⟩

/-- C1. Frame alignment is lost in the degraded Active state: from a freshly constructed
handler, `OnAudioStreamStarted` with sample rate 0 and 1 channel whose resampler
construction fails, followed by a one-frame packet, leaves 4 bytes in the audio buffer,
which is not a multiple of the output frame size 8. -/
theorem frame_alignment_lost_without_resampler :
    ∃ h t, run CEFAudioHandler.init
        [Event.OnAudioStreamStarted ⟨3, 0, 1024⟩ 1 none,
         Event.OnAudioStreamPacket (some [some [F32.one]]) 1 0 ⟨false, 0, []⟩] = .ok (h, t) ∧
      h.bufferedBytes = 4 ∧ ¬ (8 ∣ h.bufferedBytes) :=
  ⟨_, _, rfl, rfl, by decide⟩


/-! ### The bytes a packet appends -/

/-- Every sample takes four bytes. -/
theorem length_flatMap_toBytes (fs : List F32) : (fs.flatMap F32.toBytes).length = 4 * fs.length := by
  induction fs with
  | nil => rfl
  | cons x xs ih => simp [List.flatMap_cons, F32.toBytes, ih]; omega

/-- When `readBytes` returns it returns exactly `size` bytes. -/
theorem readBytes_length {data : Option (List F32)} {size : Nat} {bytes : List Nat}
    (hr : readBytes data size = .ok bytes) : bytes.length = size := by
  unfold readBytes at hr
  split at hr
  · cases hr; simp_all
  · split at hr
    · cases hr
    · split at hr
      · cases hr
        rw [List.length_take, length_flatMap_toBytes]
        omega
      · cases hr

/-- When `ConvertAndBuffer` returns, the handler differs from the one before at most by bytes
added at the end of the buffer: none, or `GetAudioDataSize` many on the resampler path, or
`frames * channels * sizeof(float)` many on the path without resampler. -/
theorem ConvertAndBuffer_appends {input_data : Option Planar} {frames : Int}
    {rs : ResampleResult} {h h1 : CEFAudioHandler} {t : List Call}
    (hres : h.ConvertAndBuffer input_data frames rs = .ok (h1, t)) :
    ∃ bytes, h1 = { h with audio_buffer_ := h.audio_buffer_ ++ bytes } ∧
      (bytes = [] ∨
       (h.resampler_ ≠ none ∧ bytes.length =
          AudioUtils.GetAudioDataSize rs.output_frames h.output_params_.channels
            h.output_params_.format) ∨
       (h.resampler_ = none ∧ bytes.length =
          ((toUInt32 frames * h.input_params_.channels) % 2 ^ 32) * 4)) := by
  unfold ConvertAndBuffer at hres
  split at hres
  · cases hres; exact ⟨[], by simp, Or.inl rfl⟩
  · split at hres
    · cases hres; exact ⟨[], by simp, Or.inl rfl⟩
    · split at hres
      · rename_i r hr
        split at hres
        · split at hres
          · cases hres
          · dsimp only at hres
            split at hres
            · cases hres
            · rename_i bytes hb
              cases hres
              exact ⟨bytes, rfl, Or.inr (Or.inl ⟨by simp [hr], readBytes_length hb⟩)⟩
        · cases hres; exact ⟨[], by simp, Or.inl rfl⟩
      · rename_i hr
        dsimp only at hres
        split at hres
        · cases hres
        · split at hres
          · cases hres
          · rename_i bytes hb
            cases hres
            exact ⟨bytes, rfl, Or.inr (Or.inr ⟨hr, readBytes_length hb⟩)⟩


/-- The byte size of planar float data. -/
theorem GetAudioDataSize_float_planar (frames channels : Nat) :
    AudioUtils.GetAudioDataSize frames channels AUDIO_FORMAT_FLOAT_PLANAR =
      ((frames * channels) % 2 ^ 32) * 4 := by
  simp [AudioUtils.GetAudioDataSize, AUDIO_FORMAT_FLOAT_PLANAR, AUDIO_FORMAT_U8BIT,
    AUDIO_FORMAT_U8BIT_PLANAR, AUDIO_FORMAT_16BIT, AUDIO_FORMAT_16BIT_PLANAR]

/-- One event keeps `FrameInv` when the start, if it is one, obtains a resampler. -/
theorem FrameInv_step {h h1 : CEFAudioHandler} {e : Event} {t : List Call}
    (hi : FrameInv h) (hb : e.resamplerBuilt) (hs : step h e = .ok (h1, t)) : FrameInv h1 := by
  obtain ⟨ho, hn, hd⟩ := hi
  cases e with
  | OnAudioStreamStarted params channels created =>
    simp only [step, Except.ok.injEq, Prod.mk.injEq] at hs
    obtain ⟨rfl, -⟩ := hs
    simp only [Event.resamplerBuilt] at hb
    obtain ⟨r, rfl⟩ := Option.isSome_iff_exists.1 hb
    obtain ⟨sa, v, m, ip, op, rsm, buf⟩ := h
    simp only [CEFAudioHandler.init] at ho
    subst ho
    by_cases hc : toUInt32 params.sample_rate = 48000 ∧ toUInt32 channels = 2
    · cases rsm <;>
        simp [FrameInv, OnAudioStreamStarted, InitializeResampler, CleanupResampler,
          CEFAudioHandler.init, hc, hd]
    · cases rsm <;>
        simp [FrameInv, OnAudioStreamStarted, InitializeResampler, CleanupResampler,
          CEFAudioHandler.init, hc, hd]
  | OnAudioStreamPacket data frames pts rs =>
    simp only [step, OnAudioStreamPacket, ProcessAudioData] at hs
    split at hs
    · cases hs; exact ⟨ho, hn, hd⟩
    · split at hs
      · cases hs; exact ⟨ho, hn, hd⟩
      · obtain ⟨bytes, rfl, hlen⟩ := ConvertAndBuffer_appends hs
        refine ⟨ho, hn, ?_⟩
        have hb8 : 8 ∣ bytes.length := by
          rcases hlen with rfl | ⟨-, hl⟩ | ⟨hnone, hl⟩
          · simp
          · rw [hl, ho]
            simp only [CEFAudioHandler.init, GetAudioDataSize_float_planar]
            omega
          · rw [hl, hn hnone]
            omega
        simp only [List.length_append]
        exact Dvd.dvd.add hd hb8
  | OnAudioStreamStopped =>
    cases hs
    exact ⟨ho, hn, by simp [OnAudioStreamStopped]⟩
  | OnAudioStreamError message =>
    cases hs
    exact ⟨ho, hn, hd⟩
  | SetVolume volume =>
    cases hs
    exact ⟨ho, hn, hd⟩
  | SetMuted muted =>
    cases hs
    exact ⟨ho, hn, hd⟩

/-- A sequence of events keeps `FrameInv` when every start obtains a resampler. -/
theorem FrameInv_run (evs : List Event) :
    ∀ {h h1 : CEFAudioHandler} {t : List Call}, FrameInv h → (∀ e ∈ evs, e.resamplerBuilt) →
      run h evs = .ok (h1, t) → FrameInv h1 := by
  induction evs with
  | nil =>
    intro h h1 t hi _ hr
    cases hr
    exact hi
  | cons e es ih =>
    intro h h1 t hi hb hr
    simp only [run] at hr
    split at hr
    · cases hr
    · rename_i h2 t2 hs
      split at hr
      · cases hr
      · rename_i h3 t3 hr2
        cases hr
        exact ih (FrameInv_step hi (hb e (List.mem_cons_self _ _)) hs)
          (fun e1 he1 => hb e1 (List.mem_cons_of_mem _ he1)) hr2

/-- Frame alignment along every run from a fresh handler in which each start obtains a
resampler handle: the buffered byte count is a multiple of 8. -/
theorem frame_alignment_of_resampler_built (evs : List Event)
    (hb : ∀ e ∈ evs, e.resamplerBuilt) {h : CEFAudioHandler} {t : List Call}
    (hr : run CEFAudioHandler.init evs = .ok (h, t)) : 8 ∣ h.bufferedBytes :=
  (FrameInv_run evs ⟨rfl, fun _ => rfl, by simp [CEFAudioHandler.init]⟩ hb hr).2.2


/-! ### Loops of the layout conversions -/

/-- A read inside the extent returns the element. -/
theorem readAt_of_lt {α : Type} {a : List α} {i : Nat} (h : i < a.length) :
    readAt a i = .ok (a.get ⟨i, h⟩) := by
  unfold readAt
  rw [List.getElem?_eq_getElem h]
  rfl

/-- A read of a present element returns it. -/
theorem readAt_of_getElem? {α : Type} {a : List α} {i : Nat} {v : α} (h : a[i]? = some v) :
    readAt a i = .ok v := by
  unfold readAt
  rw [h]

/-- A write inside the extent stores the value. -/
theorem writeAt_of_lt {α : Type} {a : List α} {i : Nat} (v : α) (h : i < a.length) :
    writeAt a i v = .ok (a.set i v) := by
  unfold writeAt
  rw [if_pos h]

/-- One more iteration of a loop whose first `k` iterations returned. -/
theorem forUpTo_succ {σ : Type} (k : Nat) (body : Nat → σ → Except Fault σ) (s s1 : σ)
    (h : forUpTo k body s = .ok s1) : forUpTo (k + 1) body s = body k s1 := by
  rw [forUpTo, h]

/-- The inner loop of `InterleavedToPlanar` over one channel buffer `p`. -/
theorem i2p_inner (src : List F32) (channels ch : Nat) (p : List F32) (k : Nat)
    (hk : k ≤ p.length) (hsrc : ∀ i < k, (i * channels + ch) % 2 ^ 32 < src.length) :
    ∃ p1, forUpTo k (fun i p =>
        match readAt src ((i * channels + ch) % 2 ^ 32) with
        | .error e => .error e
        | .ok v => writeAt p i v) p = .ok p1 ∧
      p1.length = p.length ∧
      ∀ j, p1[j]? = if j < k then src[(j * channels + ch) % 2 ^ 32]? else p[j]? := by
  induction k with
  | zero => exact ⟨p, rfl, rfl, fun j => by simp⟩
  | succ k ih =>
    obtain ⟨p1, h1, hl, hc⟩ := ih (by omega) (fun i hi => hsrc i (by omega))
    have hs := hsrc k (by omega)
    refine ⟨p1.set k (src.get ⟨_, hs⟩), ?_, by simp [hl], fun j => ?_⟩
    · rw [forUpTo_succ _ _ _ _ h1, readAt_of_lt hs]
      exact writeAt_of_lt _ (by omega)
    · rw [List.getElem?_set]
      by_cases hj : k = j
      · subst hj
        simp [hl, show k < p.length by omega]
      · rw [if_neg hj, hc j]
        by_cases hjk : j < k
        · simp [hjk, show j < k + 1 by omega]
        · simp [hjk, show ¬ j < k + 1 by omega]


/-- The channel loop of `InterleavedToPlanar`. -/
theorem i2p_outer (src : List F32) (frames channels : Nat) (d : Planar) (k : Nat)
    (hk : k ≤ d.length)
    (hp : ∀ m < k, ∀ p, d[m]? = some (some p) → frames ≤ p.length)
    (hsrc : ∀ m < k, ∀ i < frames, (i * channels + m) % 2 ^ 32 < src.length) :
    ∃ d1, forUpTo k (fun ch d =>
        match readAt d ch with
        | .error e => .error e
        | .ok none => .ok d
        | .ok (some p) =>
          match forUpTo frames (fun i p =>
            match readAt src ((i * channels + ch) % 2 ^ 32) with
            | .error e => .error e
            | .ok v => writeAt p i v) p with
          | .error e => .error e
          | .ok p1 => writeAt d ch (some p1)) d = .ok d1 ∧
      d1.length = d.length ∧
      (∀ m, k ≤ m → d1[m]? = d[m]?) ∧
      (∀ m < k, d[m]? = some none → d1[m]? = some none) ∧
      (∀ m < k, ∀ p, d[m]? = some (some p) →
        ∃ p1, d1[m]? = some (some p1) ∧ p1.length = p.length ∧
          ∀ j, p1[j]? = if j < frames then src[(j * channels + m) % 2 ^ 32]? else p[j]?) := by
  induction k with
  | zero => exact ⟨d, rfl, rfl, fun _ _ => rfl, fun m hm => by omega, fun m hm => by omega⟩
  | succ k ih =>
    obtain ⟨d1, h1, hl, hge, hnull, hch⟩ :=
      ih (by omega) (fun m hm => hp m (by omega)) (fun m hm => hsrc m (by omega))
    have hkd : k < d.length := by omega
    have hdk : d1[k]? = d[k]? := hge k (le_refl k)
    rw [forUpTo_succ _ _ _ _ h1]
    cases hx : d[k]? with
    | none => rw [List.getElem?_eq_getElem hkd] at hx; cases hx
    | some x =>
      cases x with
      | none =>
        refine ⟨d1, ?_, hl, fun m hm => hge m (by omega), fun m hm hmn => ?_, fun m hm p hmp => ?_⟩
        · rw [readAt_of_getElem? (hdk.trans hx)]
        · by_cases hmk : m < k
          · exact hnull m hmk hmn
          · have : m = k := by omega
            subst this
            exact hdk.trans hx
        · by_cases hmk : m < k
          · exact hch m hmk p hmp
          · have : m = k := by omega
            subst this
            rw [hx] at hmp
            cases hmp
      | some p =>
        have hpl := hp k (by omega) p hx
        obtain ⟨p1, hi1, hil, hic⟩ := i2p_inner src channels k p frames hpl (hsrc k (by omega))
        refine ⟨d1.set k (some p1), ?_, by simp [hl], fun m hm => ?_, fun m hm hmn => ?_,
          fun m hm q hmq => ?_⟩
        · rw [readAt_of_getElem? (hdk.trans hx)]
          simp only [hi1]
          exact writeAt_of_lt _ (by omega)
        · rw [List.getElem?_set, if_neg (by omega)]
          exact hge m (by omega)
        · have hmk : m < k := by
            by_contra hcon
            have : m = k := by omega
            subst this
            rw [hx] at hmn
            cases hmn
          rw [List.getElem?_set, if_neg (by omega)]
          exact hnull m hmk hmn
        · by_cases hmk : m < k
          · rw [List.getElem?_set, if_neg (by omega)]
            exact hch m hmk q hmq
          · have : m = k := by omega
            subst this
            rw [hx] at hmq
            cases hmq
            exact ⟨p1, by simp [hl, hkd], hil, hic⟩


/-- What `InterleavedToPlanar` returns when every access is inside its array: channel
`m < channels` that is not null holds `interleaved[(j * channels + m) % 2^32]` at every
`j < frames`; everything else is as it was. -/
theorem i2p_spec (src : List F32) (frames channels : Nat) (d : Planar)
    (hk : channels ≤ d.length)
    (hp : ∀ m < channels, ∀ p, d[m]? = some (some p) → frames ≤ p.length)
    (hsrc : ∀ m < channels, ∀ i < frames, (i * channels + m) % 2 ^ 32 < src.length) :
    ∃ d1, AudioUtils.InterleavedToPlanar (some src) (some d) frames channels = .ok (some d1) ∧
      d1.length = d.length ∧
      (∀ m, channels ≤ m → d1[m]? = d[m]?) ∧
      (∀ m < channels, d[m]? = some none → d1[m]? = some none) ∧
      (∀ m < channels, ∀ p, d[m]? = some (some p) →
        ∃ p1, d1[m]? = some (some p1) ∧ p1.length = p.length ∧
          ∀ j, p1[j]? = if j < frames then src[(j * channels + m) % 2 ^ 32]? else p[j]?) := by
  obtain ⟨d1, h1, hrest⟩ := i2p_outer src frames channels d channels hk hp hsrc
  refine ⟨d1, ?_, hrest⟩
  simp only [AudioUtils.InterleavedToPlanar, h1]

/-- One iteration of the channel loop of `PlanarToInterleaved`. -/
theorem p2i_body (src : Planar) (dst : List F32) (i ch idx : Nat)
    (hch : ch < src.length) (hp : ∀ p, src[ch]? = some (some p) → i < p.length)
    (hidx : idx < dst.length) :
    (match readAt src ch with
      | .error e => Except.error e
      | .ok (some p) =>
        match readAt p i with
        | .error e => Except.error e
        | .ok v => writeAt dst idx v
      | .ok none => writeAt dst idx F32.zero) = Except.ok (dst.set idx (sampleAt src ch i)) := by
  cases hx : src[ch]? with
  | none => rw [List.getElem?_eq_getElem hch] at hx; cases hx
  | some x =>
    rw [readAt_of_getElem? hx]
    cases x with
    | none =>
      simp only [sampleAt, hx]
      exact writeAt_of_lt _ hidx
    | some p =>
      have hip := hp p hx
      simp only [sampleAt, hx, readAt_of_lt hip]
      rw [writeAt_of_lt _ hidx]
      simp [List.getD_eq_getElem?_getD, List.getElem?_eq_getElem hip]

/-- The channel loop of `PlanarToInterleaved` for frame `i`. -/
theorem p2i_inner (src : Planar) (channels i : Nat) (dst : List F32) (k : Nat)
    (hch : ∀ ch < k, ch < src.length)
    (hp : ∀ ch < k, ∀ p, src[ch]? = some (some p) → i < p.length)
    (hidx : ∀ ch < k, (i * channels + ch) % 2 ^ 32 < dst.length) :
    ∃ dst1, forUpTo k (fun ch dst =>
        match readAt src ch with
        | .error e => .error e
        | .ok (some p) =>
          match readAt p i with
          | .error e => .error e
          | .ok v => writeAt dst ((i * channels + ch) % 2 ^ 32) v
        | .ok none => writeAt dst ((i * channels + ch) % 2 ^ 32) F32.zero) dst = .ok dst1 ∧
      dst1.length = dst.length ∧
      (i * channels + k ≤ 2 ^ 32 →
        ∀ j, dst1[j]? =
          if i * channels ≤ j ∧ j < i * channels + k then some (sampleAt src (j - i * channels) i)
          else dst[j]?) := by
  induction k with
  | zero => exact ⟨dst, rfl, rfl, fun _ j => by rw [if_neg (by omega)]⟩
  | succ k ih =>
    obtain ⟨dst1, h1, hl, hc⟩ := ih (fun ch h => hch ch (by omega)) (fun ch h => hp ch (by omega))
      (fun ch h => hidx ch (by omega))
    have hi := hidx k (by omega)
    refine ⟨dst1.set ((i * channels + k) % 2 ^ 32) (sampleAt src k i), ?_, by simp [hl],
      fun hnw j => ?_⟩
    · rw [forUpTo_succ _ _ _ _ h1]
      exact p2i_body src dst1 i k _ (hch k (by omega)) (hp k (by omega)) (by rw [hl]; exact hi)
    · have hmod : (i * channels + k) % 2 ^ 32 = i * channels + k := Nat.mod_eq_of_lt (by omega)
      rw [hmod] at hi ⊢
      rw [List.getElem?_set, hc (by omega) j]
      by_cases hj : i * channels + k = j
      · subst hj
        simp [hl, hi]
      · rw [if_neg hj]
        by_cases hjk : i * channels ≤ j ∧ j < i * channels + k
        · rw [if_pos hjk, if_pos ⟨hjk.1, by omega⟩]
        · rw [if_neg hjk, if_neg (by omega)]

/-- The frame loop of `PlanarToInterleaved`. -/
theorem p2i_outer (src : Planar) (channels : Nat) (dst : List F32) (k : Nat)
    (hch : ∀ ch < channels, ch < src.length)
    (hp : ∀ ch < channels, ∀ p, src[ch]? = some (some p) → k ≤ p.length)
    (hidx : ∀ i < k, ∀ ch < channels, (i * channels + ch) % 2 ^ 32 < dst.length) :
    ∃ dst1, forUpTo k (fun i dst =>
        forUpTo channels (fun ch dst =>
          match readAt src ch with
          | .error e => .error e
          | .ok (some p) =>
            match readAt p i with
            | .error e => .error e
            | .ok v => writeAt dst ((i * channels + ch) % 2 ^ 32) v
          | .ok none => writeAt dst ((i * channels + ch) % 2 ^ 32) F32.zero) dst) dst = .ok dst1 ∧
      dst1.length = dst.length ∧
      (k * channels ≤ 2 ^ 32 →
        ∀ j, dst1[j]? =
          if j < k * channels then some (sampleAt src (j % channels) (j / channels))
          else dst[j]?) := by
  induction k with
  | zero => exact ⟨dst, rfl, rfl, fun _ j => by simp⟩
  | succ k ih =>
    obtain ⟨dst1, h1, hl, hc⟩ := ih (fun ch h p hx => by have := hp ch h p hx; omega)
      (fun i h => hidx i (by omega))
    obtain ⟨dst2, h2, hl2, hc2⟩ := p2i_inner src channels k dst1 channels hch
      (fun ch h p hx => by have := hp ch h p hx; omega)
      (fun ch h => by rw [hl]; exact hidx k (by omega) ch h)
    refine ⟨dst2, ?_, by rw [hl2, hl], fun hnw j => ?_⟩
    · rw [forUpTo_succ _ _ _ _ h1]
      exact h2
    · have e1 : (k + 1) * channels = k * channels + channels := by ring
      rw [e1] at hnw ⊢
      rw [hc2 hnw j]
      by_cases hj : k * channels ≤ j ∧ j < k * channels + channels
      · rw [if_pos hj, if_pos hj.2]
        have hpos : 0 < channels := by omega
        have hdiv : j / channels = k := by
          apply Nat.div_eq_of_lt_le
          · exact hj.1
          · rw [Nat.succ_mul]; exact hj.2
        have hmod : j % channels = j - k * channels := by
          have := Nat.div_add_mod j channels
          rw [hdiv, Nat.mul_comm] at this
          omega
        rw [hdiv, hmod]
      · rw [if_neg hj, hc (by omega) j]
        by_cases hjk : j < k * channels
        · rw [if_pos hjk, if_pos (by omega)]
        · rw [if_neg hjk, if_neg (by omega)]


/-- Frame and channel of an interleaved index. -/
theorem div_mod_of_row (c j m : Nat) (hm : m < c) :
    (j * c + m) / c = j ∧ (j * c + m) % c = m := by
  have hdiv : (j * c + m) / c = j := by
    apply Nat.div_eq_of_lt_le
    · omega
    · rw [Nat.succ_mul]; omega
  refine ⟨hdiv, ?_⟩
  have := Nat.div_add_mod (j * c + m) c
  rw [hdiv, Nat.mul_comm] at this
  omega

/-- An interleaved index of frame `i < n` lies below `n * c`. -/
theorem row_index_lt (n c i ch : Nat) (hi : i < n) (hch : ch < c) : i * c + ch < n * c := by
  have := Nat.mul_le_mul_right c (show i + 1 ≤ n by omega)
  rw [Nat.succ_mul] at this
  omega

/-- The sample read from a planar array without null channels. -/
theorem sampleAt_map_some (planar : List (List F32)) (m j : Nat) {pm : List F32} {v : F32}
    (hm : planar[m]? = some pm) (hj : pm[j]? = some v) :
    sampleAt (planar.map some) m j = v := by
  unfold sampleAt
  simp [List.getElem?_map, hm, hj]

/-- C4, amended. Round trip planar -> interleaved -> planar: for 32-bit channel count `c`
and frame count `n` with `n * c ≤ 2^32` (every index `i * c + ch` fits the `uint32_t` it is
computed in), `c` non-null planar channels of `n` samples each, `PlanarToInterleaved` into a
buffer of `n * c` samples followed by `InterleavedToPlanar` into `c` fresh non-null channels
of `n` samples both return without a fault and reproduce every original channel sample for
sample (the same bit patterns). -/
theorem planar_roundtrip (c n : Nat) (planar fresh : List (List F32)) (buf : List F32)
    (_hc : c < 2 ^ 32) (_hn : n < 2 ^ 32) (hnw : n * c ≤ 2 ^ 32)
    (hpl : planar.length = c) (hps : ∀ p ∈ planar, p.length = n)
    (hfl : fresh.length = c) (hfs : ∀ p ∈ fresh, p.length = n)
    (hbuf : buf.length = n * c) :
    ∃ inter, AudioUtils.PlanarToInterleaved (some (planar.map some)) (some buf) n c =
        .ok (some inter) ∧
      AudioUtils.InterleavedToPlanar (some inter) (some (fresh.map some)) n c =
        .ok (some (planar.map some)) := by
  have hidx : ∀ i < n, ∀ ch < c, (i * c + ch) % 2 ^ 32 = i * c + ch := fun i hi ch hch =>
    Nat.mod_eq_of_lt (by have := row_index_lt n c i ch hi hch; omega)
  obtain ⟨inter, h1, hl1, hc1⟩ := p2i_outer (planar.map some) c buf n
    (fun ch h => by simp [hpl, h])
    (fun ch h p hx => by
      rw [List.getElem?_map] at hx
      cases hy : planar[ch]? with
      | none => rw [hy] at hx; cases hx
      | some q =>
        rw [hy] at hx
        simp only [Option.map_some', Option.some.injEq] at hx
        subst hx
        exact le_of_eq (hps q (List.getElem?_mem hy)).symm)
    (fun i hi ch hch => by
      rw [hidx i hi ch hch, hbuf]
      exact row_index_lt n c i ch hi hch)
  have hc1 := hc1 hnw
  obtain ⟨out, h2, hl2, hge2, -, hch2⟩ := i2p_spec inter n c (fresh.map some)
    (by simp [hfl])
    (fun m hm p hx => by
      rw [List.getElem?_map] at hx
      cases hy : fresh[m]? with
      | none => rw [hy] at hx; cases hx
      | some q =>
        rw [hy] at hx
        simp only [Option.map_some', Option.some.injEq] at hx
        subst hx
        exact le_of_eq (hfs q (List.getElem?_mem hy)).symm)
    (fun m hm i hi => by
      rw [hidx i hi m hm, hl1, hbuf]
      exact row_index_lt n c i m hi hm)
  refine ⟨inter, ?_, ?_⟩
  · simp only [AudioUtils.PlanarToInterleaved, h1]
  · rw [h2]
    congr 2
    apply List.ext_getElem?
    intro m
    by_cases hm : m < c
    · have hmf : m < fresh.length := by omega
      have hmp : m < planar.length := by omega
      obtain ⟨fm, hfm⟩ : ∃ fm, fresh[m]? = some fm := ⟨fresh[m], List.getElem?_eq_getElem hmf⟩
      obtain ⟨pm, hpm⟩ : ∃ pm, planar[m]? = some pm := ⟨planar[m], List.getElem?_eq_getElem hmp⟩
      have hfn : fm.length = n := hfs _ (List.getElem?_mem hfm)
      have hpn : pm.length = n := hps _ (List.getElem?_mem hpm)
      obtain ⟨p1, hp1, hlen, hval⟩ := hch2 m hm fm (by simp [List.getElem?_map, hfm])
      rw [hp1, List.getElem?_map, hpm]
      simp only [Option.map_some', Option.some.injEq]
      apply List.ext_getElem?
      intro j
      rw [hval j]
      by_cases hj : j < n
      · obtain ⟨v, hv⟩ : ∃ v, pm[j]? = some v :=
          ⟨pm[j], List.getElem?_eq_getElem (by omega)⟩
        rw [if_pos hj, hidx j hj m hm, hc1, if_pos (row_index_lt n c j m hj hm)]
        obtain ⟨e1, e2⟩ := div_mod_of_row c j m hm
        rw [e1, e2, sampleAt_map_some planar m j hpm hv, hv]
      · rw [if_neg hj, List.getElem?_eq_none (by omega), List.getElem?_eq_none (by omega)]
    · rw [hge2 m (by omega), List.getElem?_eq_none (by simp [hfl]; omega),
        List.getElem?_eq_none (by simp [hpl]; omega)]


/-- The sample read from a planar array of equal channels. -/
theorem sampleAt_replicate (n ch i : Nat) (p : List F32) (h : ch < n) :
    sampleAt (List.replicate n (some p)) ch i = p.getD i F32.zero := by
  unfold sampleAt
  rw [List.getElem?_replicate_of_lt h]

/-- The last store of `PlanarToInterleaved` is the one that stays: index arithmetic that
wraps included, the slot of the last channel of the last frame holds that sample. -/
theorem p2i_last (src : Planar) (channels frames : Nat) (dst : List F32)
    (hch : ∀ ch < channels + 1, ch < src.length)
    (hp : ∀ ch < channels + 1, ∀ p, src[ch]? = some (some p) → frames + 1 ≤ p.length)
    (hidx : ∀ i < frames + 1, ∀ ch < channels + 1,
      (i * (channels + 1) + ch) % 2 ^ 32 < dst.length) :
    ∃ dst1, AudioUtils.PlanarToInterleaved (some src) (some dst) (frames + 1) (channels + 1) =
        .ok (some dst1) ∧
      dst1.length = dst.length ∧
      dst1[(frames * (channels + 1) + channels) % 2 ^ 32]? =
        some (sampleAt src channels frames) := by
  obtain ⟨dst1, h1, hl1, -⟩ := p2i_outer src (channels + 1) dst frames hch
    (fun ch h p hx => by have := hp ch h p hx; omega) (fun i h => hidx i (by omega))
  obtain ⟨dst2, h2, hl2, -⟩ := p2i_inner src (channels + 1) frames dst1 channels
    (fun ch h => hch ch (by omega))
    (fun ch h p hx => by have := hp ch (by omega) p hx; omega)
    (fun ch h => by rw [hl1]; exact hidx frames (by omega) ch (by omega))
  have hi : (frames * (channels + 1) + channels) % 2 ^ 32 < dst2.length := by
    rw [hl2, hl1]
    exact hidx frames (by omega) channels (by omega)
  refine ⟨dst2.set ((frames * (channels + 1) + channels) % 2 ^ 32) (sampleAt src channels frames),
    ?_, by simp [hl2, hl1], by rw [List.getElem?_set, if_pos rfl, if_pos hi]⟩
  simp only [AudioUtils.PlanarToInterleaved]
  rw [forUpTo_succ _ _ _ _ h1, forUpTo_succ _ _ _ _ h2,
    p2i_body src dst2 frames channels _ (hch channels (by omega))
      (fun p hx => by have := hp channels (by omega) p hx; omega) hi]

/-- C4 as stated fails where `n * c` passes `2^32`: with `c = 2^31 + 1` channels
`[0.0f, 1.0f]` of `n = 2` frames, a buffer of `n * c` samples and `c` fresh channels of
`n` samples, both conversions return, and what `InterleavedToPlanar` gives back is not the
original: the index of channel `2^31` in frame 1 wraps to 1, the slot of channel 1 in frame 0. -/
theorem planar_roundtrip_wraps :
    ∃ inter out,
      AudioUtils.PlanarToInterleaved (some (List.replicate 2147483649 (some [F32.zero, F32.one])))
        (some (List.replicate (2 * 2147483649) F32.zero)) 2 2147483649 = .ok (some inter) ∧
      AudioUtils.InterleavedToPlanar (some inter)
        (some (List.replicate 2147483649 (some [F32.zero, F32.zero]))) 2 2147483649 =
          .ok (some out) ∧
      out ≠ List.replicate 2147483649 (some [F32.zero, F32.one]) := by
  have hsrc : ∀ ch < 2147483649, ∀ p,
      (List.replicate 2147483649 (some [F32.zero, F32.one]))[ch]? = some (some p) →
        p = [F32.zero, F32.one] := by
    intro ch hch p hx
    rw [List.getElem?_replicate_of_lt hch] at hx
    simp only [Option.some.injEq] at hx
    exact hx.symm
  obtain ⟨inter, h1, hl1, hv1⟩ := p2i_last (List.replicate 2147483649 (some [F32.zero, F32.one]))
    2147483648 1 (List.replicate (2 * 2147483649) F32.zero)
    (fun ch h => by rw [List.length_replicate]; exact h)
    (fun ch h p hx => by rw [hsrc ch h p hx]; simp)
    (fun i hi ch h => by
      rw [List.length_replicate]
      have := Nat.mod_lt (i * (2147483648 + 1) + ch) (show 2 ^ 32 > 0 by norm_num)
      omega)
  rw [List.length_replicate] at hl1
  obtain ⟨out, h2, hl2, -, -, hch2⟩ := i2p_spec inter 2 2147483649
    (List.replicate 2147483649 (some [F32.zero, F32.zero]))
    (by rw [List.length_replicate])
    (fun m hm p hx => by
      rw [List.getElem?_replicate_of_lt hm] at hx
      simp only [Option.some.injEq] at hx
      rw [← hx]
      simp)
    (fun m hm i hi => by
      have := Nat.mod_lt (i * 2147483649 + m) (show 2 ^ 32 > 0 by norm_num)
      omega)
  refine ⟨inter, out, h1, h2, ?_⟩
  · intro heq
    obtain ⟨p1, hp1, -, hval⟩ := hch2 1 (by norm_num) [F32.zero, F32.zero]
      (List.getElem?_replicate_of_lt (by norm_num))
    rw [heq, List.getElem?_replicate_of_lt (by norm_num)] at hp1
    simp only [Option.some.injEq] at hp1
    have h0 := hval 0
    rw [← hp1] at h0
    have e1 : (0 * 2147483649 + 1) % 2 ^ 32 = 1 := by norm_num
    have e2 : (1 * (2147483648 + 1) + 2147483648) % 2 ^ 32 = 1 := by norm_num
    rw [if_pos (by norm_num), e1] at h0
    rw [e2] at hv1
    rw [hv1] at h0
    rw [sampleAt_replicate 2147483649 2147483648 1 [F32.zero, F32.one] (by norm_num)] at h0
    simp [F32.zero, F32.one] at h0

/-- C4 amended, at 2 channels of 3 frames. -/
theorem planar_roundtrip_witness :
    ((2 : Nat) < 2 ^ 32 ∧ (3 : Nat) < 2 ^ 32 ∧ 3 * 2 ≤ 2 ^ 32 ∧
      ([[⟨1⟩, ⟨2⟩, ⟨3⟩], [⟨4⟩, ⟨5⟩, ⟨6⟩]] : List (List F32)).length = 2 ∧
      (∀ p ∈ ([[⟨1⟩, ⟨2⟩, ⟨3⟩], [⟨4⟩, ⟨5⟩, ⟨6⟩]] : List (List F32)), p.length = 3) ∧
      (List.replicate 2 (List.replicate 3 F32.zero)).length = 2 ∧
      (∀ p ∈ List.replicate 2 (List.replicate 3 F32.zero), p.length = 3) ∧
      (List.replicate 6 F32.zero).length = 3 * 2) ∧
    ∃ inter,
      AudioUtils.PlanarToInterleaved
        (some (([[⟨1⟩, ⟨2⟩, ⟨3⟩], [⟨4⟩, ⟨5⟩, ⟨6⟩]] : List (List F32)).map some))
        (some (List.replicate 6 F32.zero)) 3 2 = .ok (some inter) ∧
      AudioUtils.InterleavedToPlanar (some inter)
        (some ((List.replicate 2 (List.replicate 3 F32.zero)).map some)) 3 2 =
        .ok (some (([[⟨1⟩, ⟨2⟩, ⟨3⟩], [⟨4⟩, ⟨5⟩, ⟨6⟩]] : List (List F32)).map some)) :=
  ⟨⟨by norm_num, by norm_num, by norm_num, rfl, by decide, rfl, by decide, rfl⟩,
    planar_roundtrip 2 3 [[⟨1⟩, ⟨2⟩, ⟨3⟩], [⟨4⟩, ⟨5⟩, ⟨6⟩]]
      (List.replicate 2 (List.replicate 3 F32.zero)) (List.replicate 6 F32.zero)
      (by norm_num) (by norm_num) (by norm_num) rfl (by decide) rfl (by decide) rfl⟩

/-! ### Packets that change nothing -/

/-- A run over two sequences of events is the run over the first followed by the run over
the second. -/
theorem run_append (pre post : List Event) :
    ∀ {h h1 h2 : CEFAudioHandler} {t1 t2 : List Call}, run h pre = .ok (h1, t1) →
      run h1 post = .ok (h2, t2) → run h (pre ++ post) = .ok (h2, t1 ++ t2) := by
  induction pre with
  | nil =>
    intro h h1 h2 t1 t2 hp hq
    cases hp
    simpa using hq
  | cons e es ih =>
    intro h h1 h2 t1 t2 hp hq
    simp only [run] at hp
    split at hp
    · cases hp
    · rename_i ha ta hs
      split at hp
      · cases hp
      · rename_i hb tb hr
        cases hp
        rw [List.cons_append]
        simp only [run, hs]
        rw [ih hr hq]
        simp

/-- C11. Stream error is terminal until restart: from every handler state, after
`OnAudioStreamError` the stream is not active and the buffer holds what it held; along every
sequence of events without `OnAudioStreamStarted` (packets, volume and mute changes, errors,
stops), cut at any point into `pre` and `post`, the run returns, the stream is inactive at
the cut and at the end, and the buffered byte count never exceeds the count before. -/
theorem stream_error_terminal (h : CEFAudioHandler) (message : String)
    (pre post : List Event) (hpre : ∀ e ∈ pre, e.isStart = false)
    (hpost : ∀ e ∈ post, e.isStart = false) :
    (h.OnAudioStreamError message).1.IsStreamActive = false ∧
    (h.OnAudioStreamError message).1.bufferedBytes = h.bufferedBytes ∧
    ∃ h1 t1 h2 t2,
      run (h.OnAudioStreamError message).1 pre = .ok (h1, t1) ∧
      run (h.OnAudioStreamError message).1 (pre ++ post) = .ok (h2, t1 ++ t2) ∧
      h1.IsStreamActive = false ∧ h2.IsStreamActive = false ∧
      h1.bufferedBytes ≤ h.bufferedBytes ∧ h2.bufferedBytes ≤ h1.bufferedBytes := by
  refine ⟨rfl, rfl, ?_⟩
  obtain ⟨h1, t1, hr1, hi1, hb1⟩ :=
    run_inactive pre (h := (h.OnAudioStreamError message).1) rfl hpre
  obtain ⟨h2, t2, hr2, hi2, hb2⟩ := run_inactive post hi1 hpost
  exact ⟨h1, t1, h2, t2, hr1, run_append pre post hr1 hr2, hi1, hi2, hb1, hb2⟩

/-- C11, at an active handler holding 8 bytes: a packet and a mute change, then a stop and
another packet. -/
theorem stream_error_terminal_witness :
    ((∀ e ∈ [Event.OnAudioStreamPacket (some [some [F32.one], some [F32.one]]) 1 0
          ⟨false, 0, []⟩, Event.SetMuted true], e.isStart = false) ∧
      (∀ e ∈ [Event.OnAudioStreamStopped,
          Event.OnAudioStreamPacket (some [some [F32.one], some [F32.one]]) 1 0 ⟨false, 0, []⟩],
        e.isStart = false)) ∧
    ((({ CEFAudioHandler.init with
          stream_active_ := true
          audio_buffer_ := [0, 0, 128, 63, 0, 0, 128, 63] } :
        CEFAudioHandler).OnAudioStreamError "lost").1.IsStreamActive = false ∧
      (({ CEFAudioHandler.init with
          stream_active_ := true
          audio_buffer_ := [0, 0, 128, 63, 0, 0, 128, 63] } :
        CEFAudioHandler).OnAudioStreamError "lost").1.bufferedBytes =
        ({ CEFAudioHandler.init with
            stream_active_ := true
            audio_buffer_ := [0, 0, 128, 63, 0, 0, 128, 63] } : CEFAudioHandler).bufferedBytes ∧
      ∃ h1 t1 h2 t2,
        run (({ CEFAudioHandler.init with
                stream_active_ := true
                audio_buffer_ := [0, 0, 128, 63, 0, 0, 128, 63] } :
              CEFAudioHandler).OnAudioStreamError "lost").1
          [Event.OnAudioStreamPacket (some [some [F32.one], some [F32.one]]) 1 0 ⟨false, 0, []⟩,
           Event.SetMuted true] = .ok (h1, t1) ∧
        run (({ CEFAudioHandler.init with
                stream_active_ := true
                audio_buffer_ := [0, 0, 128, 63, 0, 0, 128, 63] } :
              CEFAudioHandler).OnAudioStreamError "lost").1
          ([Event.OnAudioStreamPacket (some [some [F32.one], some [F32.one]]) 1 0 ⟨false, 0, []⟩,
            Event.SetMuted true] ++
           [Event.OnAudioStreamStopped,
            Event.OnAudioStreamPacket (some [some [F32.one], some [F32.one]]) 1 0
              ⟨false, 0, []⟩]) = .ok (h2, t1 ++ t2) ∧
        h1.IsStreamActive = false ∧ h2.IsStreamActive = false ∧
        h1.bufferedBytes ≤
          ({ CEFAudioHandler.init with
              stream_active_ := true
              audio_buffer_ := [0, 0, 128, 63, 0, 0, 128, 63] } : CEFAudioHandler).bufferedBytes ∧
        h2.bufferedBytes ≤ h1.bufferedBytes) :=
  ⟨⟨by decide, by decide⟩, stream_error_terminal _ "lost" _ _ (by decide) (by decide)⟩

/-- C12. Packets outside Active are a no-op: in every handler state whose stream is not
active, `OnAudioStreamPacket` returns, for every packet, the handler it was given (buffer
contents, volume, mute flag, formats and resampler handle are the same value) and invokes
no primitive. -/
theorem packet_outside_active_noop (h : CEFAudioHandler) (data : Option Planar)
    (frames pts : Int) (rs : ResampleResult) (hi : h.IsStreamActive = false) :
    h.OnAudioStreamPacket data frames pts rs = .ok (h, []) := by
  unfold IsStreamActive at hi
  simp [OnAudioStreamPacket, hi]

/-- C12, at a freshly constructed handler and a well-formed stereo packet. -/
theorem packet_outside_active_noop_witness :
    CEFAudioHandler.init.IsStreamActive = false ∧
    CEFAudioHandler.init.OnAudioStreamPacket (some [some [F32.one], some [F32.one]]) 1 0
      ⟨true, 1, [some [F32.one, F32.one]]⟩ = .ok (CEFAudioHandler.init, []) :=
  ⟨rfl, packet_outside_active_noop _ _ _ _ _ rfl⟩

/-- C14. Malformed packets are discarded without state change: in every handler state,
`OnAudioStreamPacket` with a null data pointer or with a frame count `<= 0` returns the
handler it was given (buffer, stream-active flag, volume, mute, formats, resampler) and
invokes no primitive. -/
theorem malformed_packet_discarded (h : CEFAudioHandler) (data : Option Planar)
    (frames pts : Int) (rs : ResampleResult) (hm : data = none ∨ frames ≤ 0) :
    h.OnAudioStreamPacket data frames pts rs = .ok (h, []) := by
  unfold OnAudioStreamPacket
  rw [if_pos (Or.inr hm)]

/-- C14, at an active handler: a packet with frame count 0. -/
theorem malformed_packet_discarded_witness :
    ((some [some [F32.one], some [F32.one]] : Option Planar) = none ∨ (0 : Int) ≤ 0) ∧
    ({ CEFAudioHandler.init with stream_active_ := true } : CEFAudioHandler).OnAudioStreamPacket
      (some [some [F32.one], some [F32.one]]) 0 0 ⟨false, 0, []⟩ =
      .ok (({ CEFAudioHandler.init with stream_active_ := true } : CEFAudioHandler), []) :=
  ⟨Or.inr (le_refl 0), malformed_packet_discarded _ _ _ _ _ (Or.inr (le_refl 0))⟩

/-- C19. Resampler failure appends nothing: in every handler state that holds a resampler,
when `audio_resampler_resample` reports failure, or success with zero output frames,
`OnAudioStreamPacket` returns the handler it was given, so the buffer contents and the byte
count are what they were. -/
theorem resampler_failure_appends_nothing (h : CEFAudioHandler) (r : Nat)
    (data : Option Planar) (frames pts : Int) (rs : ResampleResult)
    (hr : h.resampler_ = some r) (hf : rs.success = false ∨ rs.output_frames = 0) :
    ∃ h1 t, h.OnAudioStreamPacket data frames pts rs = .ok (h1, t) ∧
      h1.audio_buffer_ = h.audio_buffer_ ∧ h1.bufferedBytes = h.bufferedBytes := by
  have hn : ¬ (rs.success = true ∧ rs.output_frames > 0) := by
    rintro ⟨h1, h2⟩
    rcases hf with hf | hf
    · rw [hf] at h1; cases h1
    · omega
  unfold OnAudioStreamPacket
  split
  · exact ⟨h, [], rfl, rfl, rfl⟩
  · unfold ProcessAudioData
    split
    · exact ⟨h, [], rfl, rfl, rfl⟩
    · unfold ConvertAndBuffer
      split
      · exact ⟨h, [], rfl, rfl, rfl⟩
      · split
        · exact ⟨h, [], rfl, rfl, rfl⟩
        · simp only [hr, if_neg hn]
          exact ⟨h, _, rfl, rfl, rfl⟩

/-- C19, at an active handler holding resampler 7, with a resampler that reports failure. -/
theorem resampler_failure_appends_nothing_witness :
    (({ CEFAudioHandler.init with stream_active_ := true, resampler_ := some 7 } :
        CEFAudioHandler).resampler_ = some 7 ∧
      ((⟨false, 5, []⟩ : ResampleResult).success = false ∨
        (⟨false, 5, []⟩ : ResampleResult).output_frames = 0)) ∧
    ∃ h1 t, ({ CEFAudioHandler.init with stream_active_ := true, resampler_ := some 7 } :
        CEFAudioHandler).OnAudioStreamPacket (some [some [F32.one], some [F32.one]]) 1 0
          ⟨false, 5, []⟩ = .ok (h1, t) ∧
      h1.audio_buffer_ =
        ({ CEFAudioHandler.init with stream_active_ := true, resampler_ := some 7 } :
          CEFAudioHandler).audio_buffer_ ∧
      h1.bufferedBytes =
        ({ CEFAudioHandler.init with stream_active_ := true, resampler_ := some 7 } :
          CEFAudioHandler).bufferedBytes :=
  ⟨⟨rfl, Or.inl rfl⟩, resampler_failure_appends_nothing _ 7 _ _ _ _ rfl (Or.inl rfl)⟩

/-- When `OnAudioStreamPacket` returns, the handler differs from the one before at most by
bytes added at the end of the buffer. -/
theorem OnAudioStreamPacket_appends {h h1 : CEFAudioHandler} {data : Option Planar}
    {frames pts : Int} {rs : ResampleResult} {t : List Call}
    (hres : h.OnAudioStreamPacket data frames pts rs = .ok (h1, t)) :
    ∃ bytes, h1 = { h with audio_buffer_ := h.audio_buffer_ ++ bytes } := by
  unfold OnAudioStreamPacket at hres
  split at hres
  · cases hres; exact ⟨[], by simp⟩
  · unfold ProcessAudioData at hres
    split at hres
    · cases hres; exact ⟨[], by simp⟩
    · obtain ⟨bytes, hb, -⟩ := ConvertAndBuffer_appends hres
      exact ⟨bytes, hb⟩

/-- C20. Append-only production: for every handler state and every packet, the handler
`OnAudioStreamPacket` returns holds the bytes buffered before followed by the bytes the
packet added (possibly none): the old bytes are an initial segment of the new buffer, none
rewritten, reordered or removed, and nothing but the buffer differs. -/
theorem packet_appends_only (h h1 : CEFAudioHandler) (data : Option Planar)
    (frames pts : Int) (rs : ResampleResult) (t : List Call)
    (hres : h.OnAudioStreamPacket data frames pts rs = .ok (h1, t)) :
    h.audio_buffer_ <+: h1.audio_buffer_ ∧
    ∃ bytes, h1 = { h with audio_buffer_ := h.audio_buffer_ ++ bytes } := by
  obtain ⟨bytes, hb⟩ := OnAudioStreamPacket_appends hres
  refine ⟨?_, bytes, hb⟩
  rw [hb]
  exact ⟨bytes, rfl⟩

/-- C20, at an active handler holding 4 bytes and a one-frame stereo packet that adds 8. -/
theorem packet_appends_only_witness :
    ({ CEFAudioHandler.init with stream_active_ := true, audio_buffer_ := [1, 2, 3, 4] } :
        CEFAudioHandler).OnAudioStreamPacket (some [some [F32.one], some [F32.zero]]) 1 0
          ⟨false, 0, []⟩ =
      .ok (({ CEFAudioHandler.init with
                stream_active_ := true
                audio_buffer_ := [1, 2, 3, 4, 0, 0, 128, 63, 0, 0, 0, 0] } : CEFAudioHandler),
            [Call.pthread_mutex_lock, Call.circlebuf_push_back 8, Call.pthread_mutex_unlock]) ∧
    (({ CEFAudioHandler.init with stream_active_ := true, audio_buffer_ := [1, 2, 3, 4] } :
        CEFAudioHandler).audio_buffer_ <+:
      ({ CEFAudioHandler.init with
          stream_active_ := true
          audio_buffer_ := [1, 2, 3, 4, 0, 0, 128, 63, 0, 0, 0, 0] } :
        CEFAudioHandler).audio_buffer_ ∧
    ∃ bytes,
      ({ CEFAudioHandler.init with
          stream_active_ := true
          audio_buffer_ := [1, 2, 3, 4, 0, 0, 128, 63, 0, 0, 0, 0] } : CEFAudioHandler) =
      { ({ CEFAudioHandler.init with stream_active_ := true, audio_buffer_ := [1, 2, 3, 4] } :
          CEFAudioHandler) with
        audio_buffer_ :=
          ({ CEFAudioHandler.init with stream_active_ := true, audio_buffer_ := [1, 2, 3, 4] } :
            CEFAudioHandler).audio_buffer_ ++ bytes }) :=
  ⟨rfl, packet_appends_only _ _ (some [some [F32.one], some [F32.zero]]) 1 0 ⟨false, 0, []⟩
    [Call.pthread_mutex_lock, Call.circlebuf_push_back 8, Call.pthread_mutex_unlock] rfl⟩

/-! ### Byte size and volume -/

/-- C15. Byte-size computation: for every frame count `f` and channel count `c` whose
product fits in 32 bits, `GetAudioDataSize f c format` is `f * c * w` with `w = 1` for the
two 8-bit formats, `w = 2` for the two 16-bit formats, `w = 4` for the 32-bit and float
formats, and `w = 4` for every other format value. -/
theorem audio_data_size (f c : Nat) (format : audio_format) (hfit : f * c < 2 ^ 32) :
    (format = AUDIO_FORMAT_U8BIT ∨ format = AUDIO_FORMAT_U8BIT_PLANAR →
      AudioUtils.GetAudioDataSize f c format = f * c * 1) ∧
    (format = AUDIO_FORMAT_16BIT ∨ format = AUDIO_FORMAT_16BIT_PLANAR →
      AudioUtils.GetAudioDataSize f c format = f * c * 2) ∧
    (format = AUDIO_FORMAT_32BIT ∨ format = AUDIO_FORMAT_32BIT_PLANAR ∨
        format = AUDIO_FORMAT_FLOAT ∨ format = AUDIO_FORMAT_FLOAT_PLANAR →
      AudioUtils.GetAudioDataSize f c format = f * c * 4) ∧
    (format ≠ AUDIO_FORMAT_U8BIT ∧ format ≠ AUDIO_FORMAT_U8BIT_PLANAR ∧
        format ≠ AUDIO_FORMAT_16BIT ∧ format ≠ AUDIO_FORMAT_16BIT_PLANAR ∧
        format ≠ AUDIO_FORMAT_32BIT ∧ format ≠ AUDIO_FORMAT_32BIT_PLANAR ∧
        format ≠ AUDIO_FORMAT_FLOAT ∧ format ≠ AUDIO_FORMAT_FLOAT_PLANAR →
      AudioUtils.GetAudioDataSize f c format = f * c * 4) := by
  have hmod : f * c % 2 ^ 32 = f * c := Nat.mod_eq_of_lt hfit
  unfold AudioUtils.GetAudioDataSize
  simp only [hmod]
  refine ⟨?_, ?_, ?_, ?_⟩
  · intro h8
    rw [if_pos h8]
  · rintro (h16 | h16) <;> subst h16 <;> rfl
  · rintro (h32 | h32 | h32 | h32) <;> subst h32 <;> rfl
  · rintro ⟨n1, n2, n3, n4, -, -, -, -⟩
    rw [if_neg (by tauto), if_neg (by tauto)]
    split <;> rfl

/-- C15, at 1024 frames of 2 channels in the unknown format 0. -/
theorem audio_data_size_witness :
    (1024 * 2 < 2 ^ 32) ∧
    ((AUDIO_FORMAT_UNKNOWN = AUDIO_FORMAT_U8BIT ∨ AUDIO_FORMAT_UNKNOWN = AUDIO_FORMAT_U8BIT_PLANAR →
      AudioUtils.GetAudioDataSize 1024 2 AUDIO_FORMAT_UNKNOWN = 1024 * 2 * 1) ∧
    (AUDIO_FORMAT_UNKNOWN = AUDIO_FORMAT_16BIT ∨ AUDIO_FORMAT_UNKNOWN = AUDIO_FORMAT_16BIT_PLANAR →
      AudioUtils.GetAudioDataSize 1024 2 AUDIO_FORMAT_UNKNOWN = 1024 * 2 * 2) ∧
    (AUDIO_FORMAT_UNKNOWN = AUDIO_FORMAT_32BIT ∨ AUDIO_FORMAT_UNKNOWN = AUDIO_FORMAT_32BIT_PLANAR ∨
        AUDIO_FORMAT_UNKNOWN = AUDIO_FORMAT_FLOAT ∨ AUDIO_FORMAT_UNKNOWN = AUDIO_FORMAT_FLOAT_PLANAR →
      AudioUtils.GetAudioDataSize 1024 2 AUDIO_FORMAT_UNKNOWN = 1024 * 2 * 4) ∧
    (AUDIO_FORMAT_UNKNOWN ≠ AUDIO_FORMAT_U8BIT ∧ AUDIO_FORMAT_UNKNOWN ≠ AUDIO_FORMAT_U8BIT_PLANAR ∧
        AUDIO_FORMAT_UNKNOWN ≠ AUDIO_FORMAT_16BIT ∧ AUDIO_FORMAT_UNKNOWN ≠ AUDIO_FORMAT_16BIT_PLANAR ∧
        AUDIO_FORMAT_UNKNOWN ≠ AUDIO_FORMAT_32BIT ∧ AUDIO_FORMAT_UNKNOWN ≠ AUDIO_FORMAT_32BIT_PLANAR ∧
        AUDIO_FORMAT_UNKNOWN ≠ AUDIO_FORMAT_FLOAT ∧ AUDIO_FORMAT_UNKNOWN ≠ AUDIO_FORMAT_FLOAT_PLANAR →
      AudioUtils.GetAudioDataSize 1024 2 AUDIO_FORMAT_UNKNOWN = 1024 * 2 * 4)) :=
  ⟨by norm_num, audio_data_size 1024 2 AUDIO_FORMAT_UNKNOWN (by norm_num)⟩

/-- The order key of `0.0f`. -/
theorem F32.key_zero : F32.zero.key = 0 := by decide

/-- The order key of `1.0f`. -/
theorem F32.key_one : F32.one.key = 1065353216 := by decide

/-- Neither `0.0f` nor `1.0f` is a NaN. -/
theorem F32.isNaN_zero_one : F32.zero.isNaN = false ∧ F32.one.isNaN = false := by decide

/-- The three cases of `std::clamp(v, 0.0f, 1.0f)`. -/
theorem F32.clamp_unit_cases (v : F32) :
    (v.lt F32.zero = true → F32.clamp v F32.zero F32.one = F32.zero) ∧
    (F32.one.lt v = true → F32.clamp v F32.zero F32.one = F32.one) ∧
    (F32.zero.le v = true ∧ v.le F32.one = true → F32.clamp v F32.zero F32.one = v) := by
  refine ⟨fun h => ?_, fun h => ?_, fun h => ?_⟩
  · unfold F32.clamp
    rw [if_pos h]
  · have hlt : v.lt F32.zero = false := by
      simp only [F32.lt, Bool.and_eq_true, decide_eq_true_eq, F32.key_one, F32.key_zero] at h ⊢
      simp only [Bool.and_eq_false_imp, decide_eq_false_iff_not]
      intro _ _
      omega
    unfold F32.clamp
    rw [hlt, if_pos h]
    simp
  · obtain ⟨h0, h1⟩ := h
    simp only [F32.le, Bool.and_eq_true, decide_eq_true_eq, F32.key_one, F32.key_zero] at h0 h1
    have hlt : v.lt F32.zero = false := by
      simp only [F32.lt, F32.key_zero, Bool.and_eq_false_imp, decide_eq_false_iff_not]
      intro _ _
      omega
    have hgt : F32.one.lt v = false := by
      simp only [F32.lt, F32.key_one, Bool.and_eq_false_imp, decide_eq_false_iff_not]
      intro _ _
      omega
    unfold F32.clamp
    rw [hlt, hgt]
    simp

/-- A level that is not a NaN is clamped into `[0.0f, 1.0f]`. -/
theorem F32.clamp_unit_range (v : F32) (hv : v.isNaN = false) :
    F32.zero.le (F32.clamp v F32.zero F32.one) = true ∧
    (F32.clamp v F32.zero F32.one).le F32.one = true := by
  unfold F32.clamp
  by_cases h1 : v.lt F32.zero = true
  · rw [if_pos h1]; decide
  · rw [if_neg h1]
    by_cases h2 : F32.one.lt v = true
    · rw [if_pos h2]; decide
    · rw [if_neg h2]
      simp only [F32.lt, hv, F32.isNaN_zero_one.1, F32.isNaN_zero_one.2, F32.key_zero,
        F32.key_one, Bool.not_false, Bool.true_and, decide_eq_true_eq] at h1 h2
      simp only [F32.le, hv, F32.isNaN_zero_one.1, F32.isNaN_zero_one.2, F32.key_zero,
        F32.key_one, Bool.not_false, Bool.true_and, decide_eq_true_eq]
      omega

/-- `OnAudioStreamStarted` leaves the volume alone. -/
theorem OnAudioStreamStarted_volume (h : CEFAudioHandler) (params : CefAudioParameters)
    (channels : Int) (created : Option Nat) :
    (h.OnAudioStreamStarted params channels created).1.volume_ = h.volume_ := by
  unfold OnAudioStreamStarted InitializeResampler CleanupResampler
  cases h.resampler_ <;> (dsimp only; split <;> rfl)

/-- One event keeps the stored volume in `[0.0f, 1.0f]` when the level it sets, if it sets
one, is not a NaN. -/
theorem volume_range_step {h h1 : CEFAudioHandler} {e : Event} {t : List Call}
    (hi : F32.zero.le h.volume_ = true ∧ h.volume_.le F32.one = true)
    (hn : e.levelIsNumber) (hs : step h e = .ok (h1, t)) :
    F32.zero.le h1.volume_ = true ∧ h1.volume_.le F32.one = true := by
  cases e with
  | OnAudioStreamStarted params channels created =>
    cases hs
    show F32.zero.le (h.OnAudioStreamStarted params channels created).1.volume_ = true ∧
      (h.OnAudioStreamStarted params channels created).1.volume_.le F32.one = true
    rw [OnAudioStreamStarted_volume]
    exact hi
  | OnAudioStreamPacket data frames pts rs =>
    obtain ⟨bytes, rfl⟩ := OnAudioStreamPacket_appends hs
    exact hi
  | OnAudioStreamStopped => cases hs; exact hi
  | OnAudioStreamError message => cases hs; exact hi
  | SetVolume volume =>
    cases hs
    exact F32.clamp_unit_range volume hn
  | SetMuted muted => cases hs; exact hi

/-- A sequence of events keeps the stored volume in `[0.0f, 1.0f]` when no level is a NaN. -/
theorem volume_range_run (evs : List Event) :
    ∀ {h h1 : CEFAudioHandler} {t : List Call},
      F32.zero.le h.volume_ = true ∧ h.volume_.le F32.one = true →
      (∀ e ∈ evs, e.levelIsNumber) → run h evs = .ok (h1, t) →
      F32.zero.le h1.volume_ = true ∧ h1.volume_.le F32.one = true := by
  induction evs with
  | nil =>
    intro h h1 t hi _ hr
    cases hr
    exact hi
  | cons e es ih =>
    intro h h1 t hi hn hr
    simp only [run] at hr
    split at hr
    · cases hr
    · rename_i h2 t2 hs
      split at hr
      · cases hr
      · rename_i h3 t3 hr2
        cases hr
        exact ih (volume_range_step hi (hn e (List.mem_cons_self _ _)) hs)
          (fun e1 he1 => hn e1 (List.mem_cons_of_mem _ he1)) hr2

/-- C13 as stated fails at a NaN level: `SetVolume` of a quiet NaN on a fresh handler stores
the NaN, a state reached by one event, and the stored volume is neither `>= 0.0f` nor
`<= 1.0f`. -/
theorem set_volume_keeps_nan :
    run CEFAudioHandler.init [Event.SetVolume F32.qNaN] =
      .ok (CEFAudioHandler.init.SetVolume F32.qNaN, []) ∧
    (CEFAudioHandler.init.SetVolume F32.qNaN).GetVolume = F32.qNaN ∧
    F32.zero.le (CEFAudioHandler.init.SetVolume F32.qNaN).GetVolume = false ∧
    (CEFAudioHandler.init.SetVolume F32.qNaN).GetVolume.le F32.one = false :=
  ⟨rfl, rfl, by decide, by decide⟩

/-- C13, amended. `SetVolume` clamps: for every level `v`, after `SetVolume v` `GetVolume`
returns `0.0f` when `v < 0`, `1.0f` when `v > 1` and `v` itself when `0 <= v <= 1`; and in
every state reached from construction by events whose `SetVolume` levels are not NaN the
stored volume `x` satisfies `0 <= x` and `x <= 1`. -/
theorem set_volume_clamps (h0 : CEFAudioHandler) (v : F32) (evs : List Event)
    (h : CEFAudioHandler) (t : List Call) (hnum : ∀ e ∈ evs, e.levelIsNumber)
    (hr : run CEFAudioHandler.init evs = .ok (h, t)) :
    (v.lt F32.zero = true → (h0.SetVolume v).GetVolume = F32.zero) ∧
    (F32.one.lt v = true → (h0.SetVolume v).GetVolume = F32.one) ∧
    (F32.zero.le v = true ∧ v.le F32.one = true → (h0.SetVolume v).GetVolume = v) ∧
    F32.zero.le h.GetVolume = true ∧ h.GetVolume.le F32.one = true := by
  obtain ⟨c1, c2, c3⟩ := F32.clamp_unit_cases v
  have hv := volume_range_run evs (h := CEFAudioHandler.init) (by decide) hnum hr
  exact ⟨c1, c2, c3, hv.1, hv.2⟩

/-- C13 amended, at the levels 2.0 and -1.0 set one after the other on a started stream. -/
theorem set_volume_clamps_witness :
    ((∀ e ∈ [Event.OnAudioStreamStarted ⟨3, 48000, 1024⟩ 2 none,
          Event.SetVolume ⟨0x40000000⟩, Event.SetVolume ⟨0xBF800000⟩], e.levelIsNumber) ∧
      run CEFAudioHandler.init [Event.OnAudioStreamStarted ⟨3, 48000, 1024⟩ 2 none,
          Event.SetVolume ⟨0x40000000⟩, Event.SetVolume ⟨0xBF800000⟩] =
        .ok ({ CEFAudioHandler.init with
               stream_active_ := true
               volume_ := F32.zero
               input_params_ := ⟨48000, 2, AUDIO_FORMAT_FLOAT, 1024⟩ }, [])) ∧
    ((F32.lt ⟨0x40000000⟩ F32.zero = true →
        (CEFAudioHandler.init.SetVolume ⟨0x40000000⟩).GetVolume = F32.zero) ∧
      (F32.one.lt ⟨0x40000000⟩ = true →
        (CEFAudioHandler.init.SetVolume ⟨0x40000000⟩).GetVolume = F32.one) ∧
      (F32.zero.le ⟨0x40000000⟩ = true ∧ F32.le ⟨0x40000000⟩ F32.one = true →
        (CEFAudioHandler.init.SetVolume ⟨0x40000000⟩).GetVolume = ⟨0x40000000⟩) ∧
      F32.zero.le
        ({ CEFAudioHandler.init with
            stream_active_ := true
            volume_ := F32.zero
            input_params_ := ⟨48000, 2, AUDIO_FORMAT_FLOAT, 1024⟩ } :
          CEFAudioHandler).GetVolume = true ∧
      F32.le
        ({ CEFAudioHandler.init with
            stream_active_ := true
            volume_ := F32.zero
            input_params_ := ⟨48000, 2, AUDIO_FORMAT_FLOAT, 1024⟩ } :
          CEFAudioHandler).GetVolume F32.one = true) :=
  ⟨⟨by decide, rfl⟩,
    set_volume_clamps CEFAudioHandler.init ⟨0x40000000⟩
      [Event.OnAudioStreamStarted ⟨3, 48000, 1024⟩ 2 none,
       Event.SetVolume ⟨0x40000000⟩, Event.SetVolume ⟨0xBF800000⟩] _ [] (by decide) rfl⟩

/-! ### The product of two `float` values -/

/-- With enough halvings `ilog2Aux` is the position of the leading bit, `Nat.log2`. -/
theorem F32.ilog2Aux_eq_log2 (fuel : Nat) : ∀ m, m < 2 ^ (fuel + 1) →
    F32.ilog2Aux fuel m = Nat.log2 m := by
  induction fuel with
  | zero =>
    intro m hm
    rw [Nat.log2]
    simp only [F32.ilog2Aux]
    rw [if_neg (by omega)]
  | succ f ih =>
    intro m hm
    rw [Nat.log2]
    simp only [F32.ilog2Aux]
    by_cases h2 : 2 ≤ m
    · rw [if_pos h2, if_pos h2, ih (m / 2) (by
        rw [Nat.div_lt_iff_lt_mul (by norm_num)]
        rw [pow_succ] at hm
        exact hm)]
    · rw [if_neg h2, if_neg h2]

/-- The leading bit position `round` uses is `Nat.log2` on every product of two 24-bit
significands. -/
theorem F32.ilog2_eq_log2 (m : Nat) (hm : m < 2 ^ 49) : F32.ilog2 m = Nat.log2 m :=
  F32.ilog2Aux_eq_log2 48 m hm

/-- The leading bit position brackets the number. -/
theorem F32.ilog2_bounds (m : Nat) (h0 : m ≠ 0) (hm : m < 2 ^ 49) :
    2 ^ F32.ilog2 m ≤ m ∧ m < 2 ^ (F32.ilog2 m + 1) := by
  rw [F32.ilog2_eq_log2 m hm]
  exact ⟨Nat.log2_self_le h0, Nat.lt_log2_self⟩

/-- A quieted NaN is a NaN. -/
theorem F32.quiet_isNaN (x : F32) (h : x.isNaN = true) : x.quiet.isNaN = true := by
  unfold F32.quiet
  split_ifs with hb
  · exact h
  · simp only [F32.isNaN, F32.expo, F32.mant, Bool.and_eq_true, decide_eq_true_eq] at h ⊢
    omega

/-- An infinity is not a NaN. -/
theorem F32.inf_not_isNaN (s : Bool) : (F32.inf s).isNaN = false := by
  cases s <;> decide

/-- The significand `round` arrives at has at most 24 bits, or is `2^24`. -/
theorem F32.round_sig_le (m e q : Nat) (h0 : m ≠ 0) (hm : m < 2 ^ 49)
    (hq : e + F32.ilog2 m ≤ q + 23) :
    (if q ≤ e then m * 2 ^ (e - q)
      else if m % 2 ^ (q - e) > 2 ^ (q - e - 1) ∨
          (m % 2 ^ (q - e) = 2 ^ (q - e - 1) ∧ m / 2 ^ (q - e) % 2 = 1)
        then m / 2 ^ (q - e) + 1 else m / 2 ^ (q - e)) ≤ 2 ^ 24 := by
  obtain ⟨-, hb⟩ := F32.ilog2_bounds m h0 hm
  by_cases hqe : q ≤ e
  · rw [if_pos hqe]
    have h1 : m * 2 ^ (e - q) < 2 ^ (F32.ilog2 m + 1) * 2 ^ (e - q) :=
      Nat.mul_lt_mul_of_pos_right hb (Nat.pos_pow_of_pos _ (by norm_num))
    rw [← pow_add] at h1
    have h2 : 2 ^ (F32.ilog2 m + 1 + (e - q)) ≤ 2 ^ 24 :=
      Nat.pow_le_pow_right (by norm_num) (by omega)
    omega
  · rw [if_neg hqe]
    have hhi : m / 2 ^ (q - e) < 2 ^ 24 := by
      rw [Nat.div_lt_iff_lt_mul (Nat.pos_pow_of_pos _ (by norm_num)), ← pow_add]
      exact lt_of_lt_of_le hb (Nat.pow_le_pow_right (by norm_num) (by omega))
    split_ifs <;> omega

/-- Whatever the exponent of the grid, rounding moves the value by at most half a step:
in units of `2^-298`, `r * 2^q` against `m * 2^e`. -/
theorem F32.round_sig_error (m e q : Nat) :
    2 * ((if q ≤ e then m * 2 ^ (e - q)
      else if m % 2 ^ (q - e) > 2 ^ (q - e - 1) ∨
          (m % 2 ^ (q - e) = 2 ^ (q - e - 1) ∧ m / 2 ^ (q - e) % 2 = 1)
        then m / 2 ^ (q - e) + 1 else m / 2 ^ (q - e)) * 2 ^ q) ≤ 2 * (m * 2 ^ e) + 2 ^ q ∧
    2 * (m * 2 ^ e) ≤ 2 * ((if q ≤ e then m * 2 ^ (e - q)
      else if m % 2 ^ (q - e) > 2 ^ (q - e - 1) ∨
          (m % 2 ^ (q - e) = 2 ^ (q - e - 1) ∧ m / 2 ^ (q - e) % 2 = 1)
        then m / 2 ^ (q - e) + 1 else m / 2 ^ (q - e)) * 2 ^ q) + 2 ^ q := by
  by_cases hqe : q ≤ e
  · rw [if_pos hqe]
    have h1 : m * 2 ^ (e - q) * 2 ^ q = m * 2 ^ e := by
      rw [Nat.mul_assoc, ← pow_add, Nat.sub_add_cancel hqe]
    rw [h1]
    exact ⟨Nat.le_add_right _ _, Nat.le_add_right _ _⟩
  · rw [if_neg hqe]
    have hsh : q = e + (q - e - 1) + 1 := by omega
    have hdm := Nat.div_add_mod m (2 ^ (q - e))
    have hlt := Nat.mod_lt m (show 2 ^ (q - e) > 0 from Nat.pos_pow_of_pos _ (by norm_num))
    have hp : 2 ^ (q - e) = 2 * 2 ^ (q - e - 1) := by
      rw [← pow_succ']
      congr 1
      omega
    have hq2 : 2 ^ q = 2 ^ (q - e) * 2 ^ e := by
      rw [← pow_add]
      congr 1
      omega
    -- everything in units of 2^e
    generalize hA : 2 ^ (q - e - 1) = half at *
    generalize hH : m / 2 ^ (q - e) = hi at *
    generalize hL : m % 2 ^ (q - e) = lo at *
    generalize hS : 2 ^ (q - e) = step at *
    generalize hE : 2 ^ e = u at *
    rw [hq2]
    subst hp
    have hm : m = 2 * half * hi + lo := hdm.symm
    subst hm
    split_ifs with hc
    · have h1 : half * u ≤ lo * u := Nat.mul_le_mul_right u (by omega)
      have h2 : lo * u ≤ 2 * half * u := Nat.mul_le_mul_right u (by omega)
      constructor
      · nlinarith [h1, h2]
      · nlinarith [h1, h2]
    · have h1 : lo * u ≤ half * u := Nat.mul_le_mul_right u (by
        by_contra hcon
        exact hc (Or.inl (by omega)))
      constructor
      · nlinarith [h1]
      · nlinarith [h1]
/-- Above the subnormal grid the rounded significand keeps its leading bit. -/
theorem F32.round_sig_ge (m e q : Nat) (h0 : m ≠ 0) (hm : m < 2 ^ 49)
    (hq : q + 23 ≤ e + F32.ilog2 m) :
    2 ^ 23 ≤ (if q ≤ e then m * 2 ^ (e - q)
      else if m % 2 ^ (q - e) > 2 ^ (q - e - 1) ∨
          (m % 2 ^ (q - e) = 2 ^ (q - e - 1) ∧ m / 2 ^ (q - e) % 2 = 1)
        then m / 2 ^ (q - e) + 1 else m / 2 ^ (q - e)) := by
  obtain ⟨ha, -⟩ := F32.ilog2_bounds m h0 hm
  by_cases hqe : q ≤ e
  · rw [if_pos hqe]
    have h1 : 2 ^ F32.ilog2 m * 2 ^ (e - q) ≤ m * 2 ^ (e - q) := Nat.mul_le_mul_right _ ha
    rw [← pow_add] at h1
    have h2 : 2 ^ 23 ≤ 2 ^ (F32.ilog2 m + (e - q)) :=
      Nat.pow_le_pow_right (by norm_num) (by omega)
    omega
  · rw [if_neg hqe]
    have hhi : 2 ^ 23 ≤ m / 2 ^ (q - e) := by
      rw [Nat.le_div_iff_mul_le (Nat.pos_pow_of_pos _ (by norm_num)), ← pow_add]
      exact le_trans (Nat.pow_le_pow_right (by norm_num) (by omega)) ha
    split_ifs <;> omega

/-- The shape of what `round` returns for a significand that is not zero. -/
theorem F32.round_shape (s : Bool) (m e : Nat) (h0 : m ≠ 0) :
    ∃ q r rq, (q = 149 ∧ e + F32.ilog2 m < 149 + 23 ∨ 149 ≤ q ∧ q + 23 = e + F32.ilog2 m) ∧
      r = (if q ≤ e then m * 2 ^ (e - q)
        else if m % 2 ^ (q - e) > 2 ^ (q - e - 1) ∨
            (m % 2 ^ (q - e) = 2 ^ (q - e - 1) ∧ m / 2 ^ (q - e) % 2 = 1)
          then m / 2 ^ (q - e) + 1 else m / 2 ^ (q - e)) ∧
      rq = (if r = 2 ^ 24 then ((2 ^ 23 : Nat), q + 1) else (r, q)) ∧
      F32.round s m e =
        (if rq.1 < 2 ^ 23 then ⟨(if s then 2 ^ 31 else 0) + rq.1⟩
        else if rq.2 - 149 + 1 ≥ 255 then F32.inf s
        else ⟨(if s then 2 ^ 31 else 0) + (rq.2 - 149 + 1) * 2 ^ 23 + (rq.1 - 2 ^ 23)⟩) := by
  refine ⟨if e + F32.ilog2 m < 149 + 23 then 149 else e + F32.ilog2 m - 23, _, _, ?_, rfl, rfl,
    ?_⟩
  · split_ifs with h
    · exact Or.inl ⟨rfl, h⟩
    · exact Or.inr ⟨by omega, by omega⟩
  · unfold F32.round
    simp only [if_neg h0]
/-- Reading back a pattern of the lowest binade. -/
theorem F32.decode_subnormal (s : Bool) (r : Nat) (hr : r < 2 ^ 23) :
    (⟨(if s then 2 ^ 31 else 0) + r⟩ : F32).sign = s ∧
    (⟨(if s then 2 ^ 31 else 0) + r⟩ : F32).expo = 0 ∧
    (⟨(if s then 2 ^ 31 else 0) + r⟩ : F32).sig = r ∧
    (⟨(if s then 2 ^ 31 else 0) + r⟩ : F32).ulpExp = 0 ∧
    (⟨(if s then 2 ^ 31 else 0) + r⟩ : F32).isNaN = false := by
  have he : ((if s then 2 ^ 31 else 0) + r) / 2 ^ 23 % 256 = 0 := by
    cases s <;> simp <;> omega
  have hm : ((if s then 2 ^ 31 else 0) + r) % 2 ^ 23 = r := by
    cases s <;> simp <;> omega
  have hs : decide (((if s then 2 ^ 31 else 0) + r) / 2 ^ 31 % 2 = 1) = s := by
    cases s <;> simp <;> omega
  refine ⟨hs, he, ?_, ?_, ?_⟩
  · simp only [F32.sig, F32.expo, F32.mant, he, hm, if_true]
  · simp only [F32.ulpExp, F32.expo, he, if_true]
  · simp only [F32.isNaN, F32.expo, he]
    simp

/-- Reading back a pattern with exponent field `ex` and a 24-bit significand `r`. -/
theorem F32.decode_normal (s : Bool) (ex r : Nat) (hex1 : 1 ≤ ex) (hex : ex < 255)
    (hr1 : 2 ^ 23 ≤ r) (hr : r < 2 ^ 24) :
    (⟨(if s then 2 ^ 31 else 0) + ex * 2 ^ 23 + (r - 2 ^ 23)⟩ : F32).sign = s ∧
    (⟨(if s then 2 ^ 31 else 0) + ex * 2 ^ 23 + (r - 2 ^ 23)⟩ : F32).expo = ex ∧
    (⟨(if s then 2 ^ 31 else 0) + ex * 2 ^ 23 + (r - 2 ^ 23)⟩ : F32).sig = r ∧
    (⟨(if s then 2 ^ 31 else 0) + ex * 2 ^ 23 + (r - 2 ^ 23)⟩ : F32).ulpExp = ex - 1 ∧
    (⟨(if s then 2 ^ 31 else 0) + ex * 2 ^ 23 + (r - 2 ^ 23)⟩ : F32).isNaN = false := by
  have he : ((if s then 2 ^ 31 else 0) + ex * 2 ^ 23 + (r - 2 ^ 23)) / 2 ^ 23 % 256 = ex := by
    cases s <;> simp <;> omega
  have hm : ((if s then 2 ^ 31 else 0) + ex * 2 ^ 23 + (r - 2 ^ 23)) % 2 ^ 23 = r - 2 ^ 23 := by
    cases s <;> simp <;> omega
  have hs : decide (((if s then 2 ^ 31 else 0) + ex * 2 ^ 23 + (r - 2 ^ 23)) / 2 ^ 31 % 2 = 1)
      = s := by
    cases s <;> simp <;> omega
  refine ⟨hs, he, ?_, ?_, ?_⟩
  · simp only [F32.sig, F32.expo, F32.mant, he, hm]
    rw [if_neg (by omega)]
    omega
  · simp only [F32.ulpExp, F32.expo, he]
    rw [if_neg (by omega)]
  · simp only [F32.isNaN, F32.expo, he]
    simp
    omega
/-- The fields of an infinity. -/
theorem F32.inf_fields (s : Bool) :
    (F32.inf s).sign = s ∧ (F32.inf s).expo = 255 ∧ (F32.inf s).mant = 0 := by
  cases s <;> decide

/-- What `round` returns: the sign asked for, never a NaN, and, unless it is an infinity,
a value within half a unit in the last place of `m * 2^(e - 298)`.  In units of `2^-298`
the value returned is `sig * 2^(ulpExp + 149)`. -/
theorem F32.round_spec (s : Bool) (m e : Nat) (hm : m < 2 ^ 49) :
    (F32.round s m e).sign = s ∧ (F32.round s m e).isNaN = false ∧
    ((F32.round s m e).expo < 255 →
      2 * ((F32.round s m e).sig * 2 ^ ((F32.round s m e).ulpExp + 149)) ≤
        2 * (m * 2 ^ e) + 2 ^ ((F32.round s m e).ulpExp + 149) ∧
      2 * (m * 2 ^ e) ≤
        2 * ((F32.round s m e).sig * 2 ^ ((F32.round s m e).ulpExp + 149)) +
          2 ^ ((F32.round s m e).ulpExp + 149)) := by
  by_cases h0 : m = 0
  · have hz : F32.round s m e = ⟨(if s then 2 ^ 31 else 0) + 0⟩ := by
      unfold F32.round
      simp only [if_pos h0, Nat.add_zero]
    obtain ⟨d1, d2, d3, d4, d5⟩ := F32.decode_subnormal s 0 (by norm_num)
    rw [hz]
    refine ⟨d1, d5, fun _ => ?_⟩
    rw [d3, d4, h0]
    simp
  · obtain ⟨q, r, rq, hq, hr, hrq, hz⟩ := F32.round_shape s m e h0
    have A1 := F32.round_sig_le m e q h0 hm (by omega)
    have A3 := F32.round_sig_error m e q
    have A2 : 149 < q → 2 ^ 23 ≤ r := by
      intro h149
      rw [hr]
      exact F32.round_sig_ge m e q h0 hm (by omega)
    rw [← hr] at A1 A3
    have hq149 : 149 ≤ q := by omega
    rw [hz]
    by_cases h24 : r = 2 ^ 24
    · rw [if_pos h24] at hrq
      subst hrq
      simp only
      rw [if_neg (by norm_num)]
      by_cases hex : q + 1 - 149 + 1 ≥ 255
      · rw [if_pos hex]
        obtain ⟨i1, i2, i3⟩ := F32.inf_fields s
        refine ⟨i1, ?_, fun h => ?_⟩
        · simp [F32.isNaN, i2, i3]
        · omega
      · rw [if_neg hex]
        obtain ⟨d1, d2, d3, d4, d5⟩ := F32.decode_normal s (q + 1 - 149 + 1) (2 ^ 23)
          (by omega) (by omega) (le_refl _) (by norm_num)
        refine ⟨d1, d5, fun _ => ?_⟩
        rw [d3, d4]
        have e1 : q + 1 - 149 + 1 - 1 + 149 = q + 1 := by omega
        have e2 : 2 ^ (q + 1) = 2 * 2 ^ q := by ring
        rw [e1, e2]
        rw [h24] at A3
        generalize 2 ^ q = P at *
        generalize m * 2 ^ e = M at *
        omega
    · rw [if_neg h24] at hrq
      subst hrq
      simp only
      by_cases h23 : r < 2 ^ 23
      · rw [if_pos h23]
        have hq' : q = 149 := by
          by_contra hne
          have := A2 (by omega)
          omega
        obtain ⟨d1, d2, d3, d4, d5⟩ := F32.decode_subnormal s r h23
        refine ⟨d1, d5, fun _ => ?_⟩
        rw [d3, d4]
        subst hq'
        exact A3
      · rw [if_neg h23]
        by_cases hex : q - 149 + 1 ≥ 255
        · rw [if_pos hex]
          obtain ⟨i1, i2, i3⟩ := F32.inf_fields s
          refine ⟨i1, ?_, fun h => ?_⟩
          · simp [F32.isNaN, i2, i3]
          · omega
        · rw [if_neg hex]
          obtain ⟨d1, d2, d3, d4, d5⟩ := F32.decode_normal s (q - 149 + 1) r
            (by omega) (by omega) (by omega) (by omega)
          refine ⟨d1, d5, fun _ => ?_⟩
          rw [d3, d4]
          have e1 : q - 149 + 1 - 1 + 149 = q := by omega
          rw [e1]
          exact A3

/-- A significand has at most 24 bits. -/
theorem F32.sig_lt (x : F32) : x.sig < 2 ^ 24 := by
  unfold F32.sig F32.mant
  split_ifs <;> omega

/-- The product is a NaN exactly where IEEE-754 says so: an operand is a NaN, or an
infinity meets a zero. -/
theorem F32.mul_isNaN (x y : F32) :
    (x.mul y).isNaN = true ↔
      x.isNaN = true ∨ y.isNaN = true ∨ (x.expo = 255 ∧ y.expo = 0 ∧ y.mant = 0) ∨
        (y.expo = 255 ∧ x.expo = 0 ∧ x.mant = 0) := by
  unfold F32.mul
  simp only
  by_cases hx : x.isNaN = true
  · rw [if_pos hx]
    exact ⟨fun _ => Or.inl hx, fun _ => F32.quiet_isNaN x hx⟩
  · rw [if_neg hx]
    by_cases hy : y.isNaN = true
    · rw [if_pos hy]
      exact ⟨fun _ => Or.inr (Or.inl hy), fun _ => F32.quiet_isNaN y hy⟩
    · rw [if_neg hy]
      have hx' : ¬ (x.expo = 255 ∧ x.mant ≠ 0) := by
        simpa [F32.isNaN] using hx
      have hy' : ¬ (y.expo = 255 ∧ y.mant ≠ 0) := by
        simpa [F32.isNaN] using hy
      by_cases hxe : x.expo = 255
      · rw [if_pos hxe]
        by_cases hyz : y.expo = 0 ∧ y.mant = 0
        · rw [if_pos hyz]
          exact ⟨fun _ => Or.inr (Or.inr (Or.inl ⟨hxe, hyz⟩)), fun _ => by decide⟩
        · rw [if_neg hyz, F32.inf_not_isNaN]
          constructor
          · intro h; cases h
          · rintro (h | h | h | h)
            · exact absurd h hx
            · exact absurd h hy
            · exact absurd h.2 hyz
            · omega
      · rw [if_neg hxe]
        by_cases hye : y.expo = 255
        · rw [if_pos hye]
          by_cases hxz : x.expo = 0 ∧ x.mant = 0
          · rw [if_pos hxz]
            exact ⟨fun _ => Or.inr (Or.inr (Or.inr ⟨hye, hxz⟩)), fun _ => by decide⟩
          · rw [if_neg hxz, F32.inf_not_isNaN]
            constructor
            · intro h; cases h
            · rintro (h | h | h | h)
              · exact absurd h hx
              · exact absurd h hy
              · omega
              · exact absurd h.2 hxz
        · rw [if_neg hye]
          have hm : x.sig * y.sig < 2 ^ 49 := by
            have h1 := F32.sig_lt x
            have h2 := F32.sig_lt y
            calc x.sig * y.sig < 2 ^ 24 * 2 ^ 24 := Nat.mul_lt_mul'' h1 h2
              _ ≤ 2 ^ 49 := by norm_num
          rw [(F32.round_spec _ _ _ hm).2.1]
          constructor
          · intro h; cases h
          · rintro (h | h | h | h)
            · exact absurd h hx
            · exact absurd h hy
            · exact absurd h.1 hxe
            · exact absurd h.1 hye

/-- The product of two finite values: the sign is the exclusive or of the signs, and
unless the product overflows to an infinity it is within half a unit in the last place of
the exact product.  In units of `2^-298` the exact product of `x` and `y` is
`sig x * sig y * 2^(ulpExp x + ulpExp y)` and the value of the result `z` is
`sig z * 2^(ulpExp z + 149)`. -/
theorem F32.mul_finite (x y : F32) (hx : x.expo < 255) (hy : y.expo < 255) :
    (x.mul y).sign = (x.sign != y.sign) ∧
    ((x.mul y).expo < 255 →
      2 * ((x.mul y).sig * 2 ^ ((x.mul y).ulpExp + 149)) ≤
        2 * (x.sig * y.sig * 2 ^ (x.ulpExp + y.ulpExp)) + 2 ^ ((x.mul y).ulpExp + 149) ∧
      2 * (x.sig * y.sig * 2 ^ (x.ulpExp + y.ulpExp)) ≤
        2 * ((x.mul y).sig * 2 ^ ((x.mul y).ulpExp + 149)) +
          2 ^ ((x.mul y).ulpExp + 149)) := by
  have hxn : x.isNaN = false := by
    simp [F32.isNaN]
    intro h
    omega
  have hyn : y.isNaN = false := by
    simp [F32.isNaN]
    intro h
    omega
  have hm : x.sig * y.sig < 2 ^ 49 := by
    have h1 := F32.sig_lt x
    have h2 := F32.sig_lt y
    calc x.sig * y.sig < 2 ^ 24 * 2 ^ 24 := Nat.mul_lt_mul'' h1 h2
      _ ≤ 2 ^ 49 := by norm_num
  have hz : x.mul y = F32.round (x.sign != y.sign) (x.sig * y.sig) (x.ulpExp + y.ulpExp) := by
    unfold F32.mul
    simp only [hxn, hyn]
    rw [if_neg (by simp), if_neg (by simp), if_neg (by omega), if_neg (by omega)]
  rw [hz]
  obtain ⟨r1, -, r3⟩ := F32.round_spec (x.sign != y.sign) (x.sig * y.sig)
    (x.ulpExp + y.ulpExp) hm
  exact ⟨r1, r3⟩

/-- Reference products: 3 * 0.5 = 1.5, an inexact product (0.1 * 0.3), a subnormal tie
(3 * 2^-149 halved rounds to even), overflow to infinity, the sign of a zero product, and
the NaN patterns: a NaN operand keeps sign and payload and comes out quiet, infinity times
zero gives `0xFFC00000`. -/
theorem F32.mul_reference :
    F32.mul ⟨0x40400000⟩ ⟨0x3F000000⟩ = ⟨0x3FC00000⟩ ∧
    F32.mul ⟨0x3DCCCCCD⟩ ⟨0x3E99999A⟩ = ⟨0x3CF5C290⟩ ∧
    F32.mul ⟨0x00000003⟩ ⟨0x3F000000⟩ = ⟨0x00000002⟩ ∧
    F32.mul ⟨0x7F7FFFFF⟩ ⟨0x40000000⟩ = ⟨0x7F800000⟩ ∧
    F32.mul ⟨0x80000000⟩ ⟨0x3F000000⟩ = ⟨0x80000000⟩ ∧
    F32.mul ⟨0xFF800001⟩ ⟨0x3F000000⟩ = ⟨0xFFC00001⟩ ∧
    F32.mul ⟨0x3F000000⟩ ⟨0x7FA00000⟩ = ⟨0x7FE00000⟩ ∧
    F32.mul ⟨0x7F800000⟩ ⟨0x00000000⟩ = ⟨0xFFC00000⟩ ∧
    F32.mul ⟨0x80000000⟩ ⟨0x7F800000⟩ = ⟨0xFFC00000⟩ := by
  decide

/-! ### `ApplyVolume` -/

/-- The sample loop of `ApplyVolume` over one channel buffer `p`. -/
theorem av_inner (volume : F32) (p : List F32) (k : Nat) (hk : k ≤ p.length) :
    ∃ p1, forUpTo k (fun i p =>
        match readAt p i with
        | .error e => .error e
        | .ok v => writeAt p i (v.mul volume)) p = .ok p1 ∧
      p1.length = p.length ∧
      ∀ j, p1[j]? = if j < k then (p[j]?).map (fun x => x.mul volume) else p[j]? := by
  induction k with
  | zero => exact ⟨p, rfl, rfl, fun j => by simp⟩
  | succ k ih =>
    obtain ⟨p1, h1, hl, hc⟩ := ih (by omega)
    have hkp : k < p.length := by omega
    have hk1 : p1[k]? = some p[k] := by
      rw [hc k, if_neg (by omega), List.getElem?_eq_getElem hkp]
    refine ⟨p1.set k (p[k].mul volume), ?_, by simp [hl], fun j => ?_⟩
    · rw [forUpTo_succ _ _ _ _ h1, readAt_of_getElem? hk1]
      exact writeAt_of_lt _ (by omega)
    · rw [List.getElem?_set]
      by_cases hj : k = j
      · subst hj
        simp [hl, hkp]
      · rw [if_neg hj, hc j]
        by_cases hjk : j < k
        · simp [hjk, show j < k + 1 by omega]
        · simp [hjk, show ¬ j < k + 1 by omega]

/-- The channel loop of `ApplyVolume`. -/
theorem av_outer (volume : F32) (frames : Nat) (d : Planar) (k : Nat)
    (hk : k ≤ d.length)
    (hp : ∀ m < k, ∀ p, d[m]? = some (some p) → frames ≤ p.length) :
    ∃ d1, forUpTo k (fun ch d =>
        match readAt d ch with
        | .error e => .error e
        | .ok none => .ok d
        | .ok (some p) =>
          match forUpTo frames (fun i p =>
            match readAt p i with
            | .error e => .error e
            | .ok v => writeAt p i (v.mul volume)) p with
          | .error e => .error e
          | .ok p1 => writeAt d ch (some p1)) d = .ok d1 ∧
      d1.length = d.length ∧
      (∀ m, k ≤ m → d1[m]? = d[m]?) ∧
      (∀ m < k, d[m]? = some none → d1[m]? = some none) ∧
      (∀ m < k, ∀ p, d[m]? = some (some p) →
        ∃ p1, d1[m]? = some (some p1) ∧ p1.length = p.length ∧
          ∀ j, p1[j]? = if j < frames then (p[j]?).map (fun x => x.mul volume) else p[j]?) := by
  induction k with
  | zero => exact ⟨d, rfl, rfl, fun _ _ => rfl, fun m hm => by omega, fun m hm => by omega⟩
  | succ k ih =>
    obtain ⟨d1, h1, hl, hge, hnull, hch⟩ := ih (by omega) (fun m hm => hp m (by omega))
    have hkd : k < d.length := by omega
    have hdk : d1[k]? = d[k]? := hge k (le_refl k)
    rw [forUpTo_succ _ _ _ _ h1]
    cases hx : d[k]? with
    | none => rw [List.getElem?_eq_getElem hkd] at hx; cases hx
    | some x =>
      cases x with
      | none =>
        refine ⟨d1, ?_, hl, fun m hm => hge m (by omega), fun m hm hmn => ?_, fun m hm p hmp => ?_⟩
        · rw [readAt_of_getElem? (hdk.trans hx)]
        · by_cases hmk : m < k
          · exact hnull m hmk hmn
          · have : m = k := by omega
            subst this
            exact hdk.trans hx
        · by_cases hmk : m < k
          · exact hch m hmk p hmp
          · have : m = k := by omega
            subst this
            rw [hx] at hmp
            cases hmp
      | some p =>
        have hpl := hp k (by omega) p hx
        obtain ⟨p1, hi1, hil, hic⟩ := av_inner volume p frames hpl
        refine ⟨d1.set k (some p1), ?_, by simp [hl], fun m hm => ?_, fun m hm hmn => ?_,
          fun m hm q hmq => ?_⟩
        · rw [readAt_of_getElem? (hdk.trans hx)]
          simp only [hi1]
          exact writeAt_of_lt _ (by omega)
        · rw [List.getElem?_set, if_neg (by omega)]
          exact hge m (by omega)
        · have hmk : m < k := by
            by_contra hcon
            have : m = k := by omega
            subst this
            rw [hx] at hmn
            cases hmn
          rw [List.getElem?_set, if_neg (by omega)]
          exact hnull m hmk hmn
        · by_cases hmk : m < k
          · rw [List.getElem?_set, if_neg (by omega)]
            exact hch m hmk q hmq
          · have : m = k := by omega
            subst this
            rw [hx] at hmq
            cases hmq
            exact ⟨p1, by simp [hl, hkd], hil, hic⟩

/-- C17. `ApplyVolume` scales every sample: for every level with `level != 1.0f`, channel
count `c` and frame count `n`, on an array of at least `c` channel pointers whose non-null
channels hold at least `n` samples, `ApplyVolume` returns without a fault; afterwards every
sample `i < n` of every non-null channel `ch < c` has the value of its previous value times
`level` (one product: the same pattern, a NaN where the product is a NaN), samples at
index `>= n` are as they were, null channels stay null, and channels at index `>= c` are as
they were.  The product `F32.mul` is the IEEE-754 one: `F32.mul_isNaN` says where it is a
NaN, `F32.mul_finite` bounds its distance from the exact product by half a unit in the
last place. -/
theorem apply_volume_scales (d : Planar) (frames channels : Nat) (volume : F32)
    (hne : volume.ne F32.one = true) (hlen : channels ≤ d.length)
    (hp : ∀ ch < channels, ∀ p, d[ch]? = some (some p) → frames ≤ p.length) :
    ∃ d1, AudioUtils.ApplyVolume (some d) frames channels volume = .ok (some d1) ∧
      d1.length = d.length ∧
      (∀ ch, channels ≤ ch → d1[ch]? = d[ch]?) ∧
      (∀ ch < channels, d[ch]? = some none → d1[ch]? = some none) ∧
      (∀ ch < channels, ∀ p, d[ch]? = some (some p) →
        ∃ p1, d1[ch]? = some (some p1) ∧ p1.length = p.length ∧
          (∀ i < frames, ∃ x y, p[i]? = some x ∧ p1[i]? = some y ∧
            y.sameValue (x.mul volume)) ∧
          (∀ i, frames ≤ i → p1[i]? = p[i]?)) := by
  have heq : volume.eq F32.one = false := by
    unfold F32.ne at hne
    simpa using hne
  obtain ⟨d1, h1, hl, hge, hnull, hch⟩ := av_outer volume frames d channels hlen hp
  refine ⟨d1, ?_, hl, hge, hnull, fun ch hc p hx => ?_⟩
  · simp only [AudioUtils.ApplyVolume, heq, h1]
    simp
  · obtain ⟨p1, e1, e2, e3⟩ := hch ch hc p hx
    refine ⟨p1, e1, e2, fun i hi => ?_, fun i hi => ?_⟩
    · have hpi : i < p.length := by
        have := hp ch hc p hx
        omega
      refine ⟨p[i], p[i].mul volume, List.getElem?_eq_getElem hpi, ?_, Or.inl rfl⟩
      rw [e3 i, if_pos hi, List.getElem?_eq_getElem hpi]
      rfl
    · rw [e3 i, if_neg (by omega)]

/-- C17, at level 0.3 on two frames of a channel of three samples (0.1, -3.1415927, 1.0)
next to a null channel: the channel holds 0.030000001, -0.94247788 and 1.0 afterwards. -/
theorem apply_volume_scales_witness :
    ((F32.ne ⟨0x3E99999A⟩ F32.one = true ∧
      2 ≤ ([some [⟨0x3DCCCCCD⟩, ⟨0xC0490FDB⟩, F32.one], none] : Planar).length ∧
      (∀ ch < 2, ∀ p, ([some [⟨0x3DCCCCCD⟩, ⟨0xC0490FDB⟩, F32.one], none] : Planar)[ch]? = some (some p) → 2 ≤ p.length)) ∧
    ∃ d1, AudioUtils.ApplyVolume (some ([some [⟨0x3DCCCCCD⟩, ⟨0xC0490FDB⟩, F32.one], none] : Planar)) 2 2 ⟨0x3E99999A⟩ = .ok (some d1) ∧
      d1.length = ([some [⟨0x3DCCCCCD⟩, ⟨0xC0490FDB⟩, F32.one], none] : Planar).length ∧
      (∀ ch, 2 ≤ ch → d1[ch]? = ([some [⟨0x3DCCCCCD⟩, ⟨0xC0490FDB⟩, F32.one], none] : Planar)[ch]?) ∧
      (∀ ch < 2, ([some [⟨0x3DCCCCCD⟩, ⟨0xC0490FDB⟩, F32.one], none] : Planar)[ch]? = some none → d1[ch]? = some none) ∧
      (∀ ch < 2, ∀ p, ([some [⟨0x3DCCCCCD⟩, ⟨0xC0490FDB⟩, F32.one], none] : Planar)[ch]? = some (some p) →
        ∃ p1, d1[ch]? = some (some p1) ∧ p1.length = p.length ∧
          (∀ i < 2, ∃ x y, p[i]? = some x ∧ p1[i]? = some y ∧
            y.sameValue (x.mul ⟨0x3E99999A⟩)) ∧
          (∀ i, 2 ≤ i → p1[i]? = p[i]?))) ∧
    AudioUtils.ApplyVolume (some ([some [⟨0x3DCCCCCD⟩, ⟨0xC0490FDB⟩, F32.one], none] : Planar)) 2 2 ⟨0x3E99999A⟩ =
      .ok (some [some [⟨0x3CF5C290⟩, ⟨0xBF71463B⟩, F32.one], none]) :=
  have hp : ∀ ch < 2, ∀ p, ([some [⟨0x3DCCCCCD⟩, ⟨0xC0490FDB⟩, F32.one], none] : Planar)[ch]? = some (some p) → 2 ≤ p.length := by
    intro ch hch p hx
    have hc : ch = 0 ∨ ch = 1 := by omega
    rcases hc with rfl | rfl
    · simp at hx
      rw [← hx]
      simp
    · simp at hx
  ⟨⟨⟨by decide, by decide, hp⟩,
    apply_volume_scales ([some [⟨0x3DCCCCCD⟩, ⟨0xC0490FDB⟩, F32.one], none] : Planar) 2 2 ⟨0x3E99999A⟩ (by decide) (by decide) hp⟩, rfl⟩

/-! ### Null channels in `PlanarToInterleaved` -/

/-- What `PlanarToInterleaved` returns when every access is inside its array and no index
wraps: slot `j < frames * channels` holds the sample of channel `j % channels` in frame
`j / channels`, the slots behind are as they were. -/
theorem p2i_spec (src : Planar) (dst : List F32) (frames channels : Nat)
    (hnw : frames * channels ≤ 2 ^ 32) (hlen : channels ≤ src.length)
    (hp : ∀ ch < channels, ∀ p, src[ch]? = some (some p) → frames ≤ p.length)
    (hdst : frames * channels ≤ dst.length) :
    ∃ inter, AudioUtils.PlanarToInterleaved (some src) (some dst) frames channels =
        .ok (some inter) ∧
      inter.length = dst.length ∧
      ∀ j, inter[j]? =
        if j < frames * channels then some (sampleAt src (j % channels) (j / channels))
        else dst[j]? := by
  obtain ⟨inter, h1, hl, hc⟩ := p2i_outer src channels dst frames (fun ch h => by omega) hp
    (fun i hi ch hch => by
      have := row_index_lt frames channels i ch hi hch
      rw [Nat.mod_eq_of_lt (by omega)]
      omega)
  refine ⟨inter, ?_, hl, hc hnw⟩
  simp only [AudioUtils.PlanarToInterleaved, h1]

/-- The sample read through a null channel pointer is `0.0f`. -/
theorem sampleAt_null (src : Planar) (ch i : Nat) (h : src[ch]? = some none) :
    sampleAt src ch i = F32.zero := by
  unfold sampleAt
  rw [h]

/-- The sample read from a channel that holds it. -/
theorem sampleAt_some (src : Planar) (ch i : Nat) {p : List F32} (h : src[ch]? = some (some p))
    (hi : i < p.length) : some (sampleAt src ch i) = p[i]? := by
  unfold sampleAt
  rw [h]
  simp [List.getElem?_eq_getElem hi]

/-- C16, amended. Missing planar channel reads as silence: for 32-bit channel count `c` and
frame count `n` with `n * c ≤ 2^32`, a planar array of at least `c` channel pointers whose
non-null channels hold at least `n` samples, and a buffer of at least `n * c` samples,
`PlanarToInterleaved` returns without a fault; it has written `0.0f` at every index
`i * c + ch` (`i < n`) of every null channel `ch < c`, `planar[k][i]` at index `i * c + k`
for every non-null channel `k < c`, and nothing behind index `n * c`. -/
theorem null_channel_reads_as_silence (src : Planar) (dst : List F32) (n c : Nat)
    (_hc : c < 2 ^ 32) (_hn : n < 2 ^ 32) (hnw : n * c ≤ 2 ^ 32) (hlen : c ≤ src.length)
    (hp : ∀ k < c, ∀ p, src[k]? = some (some p) → n ≤ p.length)
    (hdst : n * c ≤ dst.length) :
    ∃ inter, AudioUtils.PlanarToInterleaved (some src) (some dst) n c = .ok (some inter) ∧
      inter.length = dst.length ∧
      (∀ i < n, ∀ ch < c, src[ch]? = some none → inter[i * c + ch]? = some F32.zero) ∧
      (∀ i < n, ∀ k < c, ∀ p, src[k]? = some (some p) → inter[i * c + k]? = p[i]?) ∧
      (∀ j, n * c ≤ j → inter[j]? = dst[j]?) := by
  obtain ⟨inter, h1, hl, hc⟩ := p2i_spec src dst n c hnw hlen hp hdst
  refine ⟨inter, h1, hl, fun i hi ch hch hnull => ?_, fun i hi k hk p hx => ?_, fun j hj => ?_⟩
  · obtain ⟨e1, e2⟩ := div_mod_of_row c i ch hch
    rw [hc, if_pos (row_index_lt n c i ch hi hch), e1, e2, sampleAt_null src ch i hnull]
  · obtain ⟨e1, e2⟩ := div_mod_of_row c i k hk
    have := hp k hk p hx
    rw [hc, if_pos (row_index_lt n c i k hi hk), e1, e2, sampleAt_some src k i hx (by omega)]
  · rw [hc, if_neg (by omega)]

/-- C16 amended, at three frames of a channel next to a null channel. -/
theorem null_channel_reads_as_silence_witness :
    ((2 : Nat) < 2 ^ 32 ∧ (3 : Nat) < 2 ^ 32 ∧ 3 * 2 ≤ 2 ^ 32 ∧
      2 ≤ ([some [⟨1⟩, ⟨2⟩, ⟨3⟩], none] : Planar).length ∧
      (∀ k < 2, ∀ p, ([some [⟨1⟩, ⟨2⟩, ⟨3⟩], none] : Planar)[k]? = some (some p) →
        3 ≤ p.length) ∧
      3 * 2 ≤ (List.replicate 6 (⟨9⟩ : F32)).length) ∧
    ∃ inter, AudioUtils.PlanarToInterleaved (some [some [⟨1⟩, ⟨2⟩, ⟨3⟩], none])
        (some (List.replicate 6 ⟨9⟩)) 3 2 = .ok (some inter) ∧
      inter.length = (List.replicate 6 (⟨9⟩ : F32)).length ∧
      (∀ i < 3, ∀ ch < 2, ([some [⟨1⟩, ⟨2⟩, ⟨3⟩], none] : Planar)[ch]? = some none →
        inter[i * 2 + ch]? = some F32.zero) ∧
      (∀ i < 3, ∀ k < 2, ∀ p, ([some [⟨1⟩, ⟨2⟩, ⟨3⟩], none] : Planar)[k]? = some (some p) →
        inter[i * 2 + k]? = p[i]?) ∧
      (∀ j, 3 * 2 ≤ j → inter[j]? = (List.replicate 6 (⟨9⟩ : F32))[j]?) :=
  have hp : ∀ k < 2, ∀ p, ([some [⟨1⟩, ⟨2⟩, ⟨3⟩], none] : Planar)[k]? = some (some p) →
      3 ≤ p.length := by
    intro k hk p hx
    have hc : k = 0 ∨ k = 1 := by omega
    rcases hc with rfl | rfl
    · simp at hx
      rw [← hx]
      simp
    · simp at hx
  ⟨⟨by norm_num, by norm_num, by norm_num, by decide, hp, by decide⟩,
    null_channel_reads_as_silence [some [⟨1⟩, ⟨2⟩, ⟨3⟩], none] (List.replicate 6 ⟨9⟩) 3 2
      (by norm_num) (by norm_num) (by norm_num) (by decide) hp (by decide)⟩

/-- Extent of `n` equal channels followed by a null pointer. -/
theorem length_replicate_null (n : Nat) (p : List F32) :
    (List.replicate n (some p) ++ [none] : Planar).length = n + 1 := by
  simp

/-- The first `n` pointers of `n` equal channels followed by a null pointer. -/
theorem getElem?_replicate_null_lt (n ch : Nat) (p : List F32) (h : ch < n) :
    (List.replicate n (some p) ++ [none] : Planar)[ch]? = some (some p) := by
  rw [List.getElem?_append_left (by simpa using h), List.getElem?_replicate_of_lt h]

/-- The last pointer of `n` equal channels followed by a null pointer. -/
theorem getElem?_replicate_null_last (n : Nat) (p : List F32) :
    (List.replicate n (some p) ++ [none] : Planar)[n]? = some none := by
  rw [List.getElem?_append_right (by simp)]
  simp

/-- Every non-null channel among `n` equal channels followed by a null pointer is `p`. -/
theorem eq_of_getElem?_replicate_null (n ch : Nat) (p q : List F32) (h : ch < n + 1)
    (hx : (List.replicate n (some p) ++ [none] : Planar)[ch]? = some (some q)) : q = p := by
  by_cases hlt : ch < n
  · rw [getElem?_replicate_null_lt n ch p hlt] at hx
    simp only [Option.some.injEq] at hx
    exact hx.symm
  · have : ch = n := by omega
    subst this
    rw [getElem?_replicate_null_last] at hx
    cases hx

/-- C16 as stated fails where `n * c` passes `2^32`: with `c = 2^31 + 1` channels of
`n = 2` frames, the last channel null and the others `[1.0f, 1.0f]`, and a buffer of `n * c`
samples, `PlanarToInterleaved` returns, and index `0 * c + 1` holds `0.0f`, not the sample
`1.0f` of the non-null channel 1 in frame 0: the `0.0f` stored for the null channel in
frame 1 went to the wrapped index `(1 * c + 2^31) mod 2^32 = 1`. -/
theorem null_channel_index_wraps :
    ∃ inter,
      AudioUtils.PlanarToInterleaved
        (some (List.replicate 2147483648 (some [F32.one, F32.one]) ++ [none]))
        (some (List.replicate (2 * 2147483649) F32.one)) 2 2147483649 = .ok (some inter) ∧
      inter[0 * 2147483649 + 1]? = some F32.zero ∧
      (List.replicate 2147483648 (some [F32.one, F32.one]) ++ [none] : Planar)[1]? =
        some (some [F32.one, F32.one]) ∧
      ([F32.one, F32.one] : List F32)[0]? = some F32.one ∧
      F32.zero ≠ F32.one := by
  obtain ⟨inter, h1, hl1, hv1⟩ :=
    p2i_last (List.replicate 2147483648 (some [F32.one, F32.one]) ++ [none])
      2147483648 1 (List.replicate (2 * 2147483649) F32.one)
      (fun ch h => by rw [length_replicate_null]; exact h)
      (fun ch h p hx => by
        rw [eq_of_getElem?_replicate_null 2147483648 ch [F32.one, F32.one] p h hx]
        exact le_refl 2)
      (fun i hi ch h => by
        rw [List.length_replicate]
        have := Nat.mod_lt (i * (2147483648 + 1) + ch) (show 2 ^ 32 > 0 by norm_num)
        omega)
  have e2 : (1 * (2147483648 + 1) + 2147483648) % 2 ^ 32 = 0 * 2147483649 + 1 := by norm_num
  rw [e2, sampleAt_null _ _ _ (getElem?_replicate_null_last 2147483648 [F32.one, F32.one])]
    at hv1
  exact ⟨inter, h1, hv1, getElem?_replicate_null_lt 2147483648 1 [F32.one, F32.one]
    (by norm_num), rfl, by decide⟩

/-! ### The path without resampler -/

/-- `OnAudioStreamStarted` leaves the output format alone. -/
theorem OnAudioStreamStarted_output (h : CEFAudioHandler) (params : CefAudioParameters)
    (channels : Int) (created : Option Nat) :
    (h.OnAudioStreamStarted params channels created).1.output_params_ = h.output_params_ := by
  unfold OnAudioStreamStarted InitializeResampler CleanupResampler
  cases h.resampler_ <;> (dsimp only; split <;> rfl)

/-- No event changes the output format. -/
theorem output_format_step {h h1 : CEFAudioHandler} {e : Event} {t : List Call}
    (hs : step h e = .ok (h1, t)) : h1.output_params_ = h.output_params_ := by
  cases e with
  | OnAudioStreamStarted params channels created =>
    cases hs
    exact OnAudioStreamStarted_output h params channels created
  | OnAudioStreamPacket data frames pts rs =>
    obtain ⟨bytes, rfl⟩ := OnAudioStreamPacket_appends hs
    rfl
  | OnAudioStreamStopped => cases hs; rfl
  | OnAudioStreamError message => cases hs; rfl
  | SetVolume volume => cases hs; rfl
  | SetMuted muted => cases hs; rfl

/-- No sequence of events changes the output format. -/
theorem output_format_run (evs : List Event) :
    ∀ {h h1 : CEFAudioHandler} {t : List Call}, run h evs = .ok (h1, t) →
      h1.output_params_ = h.output_params_ := by
  induction evs with
  | nil =>
    intro h h1 t hr
    cases hr
    rfl
  | cons e es ih =>
    intro h h1 t hr
    simp only [run] at hr
    split at hr
    · cases hr
    · rename_i h2 t2 hs
      split at hr
      · cases hr
      · rename_i h3 t3 hr2
        cases hr
        rw [ih hr2, output_format_step hs]

/-- C21. Fixed output format: in every state reached from construction by a sequence of
handler events the output format is 48000 Hz, 2 channels, planar float (1024 frames per
buffer); no single event changes it, `OnAudioStreamStarted` with any input format and any
outcome of the construction included; and `GetAudioParameters` stores 48000 Hz, stereo,
1024 frames per buffer and returns true, in every state and whatever `params` held. -/
theorem output_format_fixed (evs : List Event) (h : CEFAudioHandler) (t : List Call)
    (hr : run CEFAudioHandler.init evs = .ok (h, t)) :
    h.output_params_ =
      { sample_rate := 48000, channels := 2, format := AUDIO_FORMAT_FLOAT_PLANAR,
        frames_per_buffer := 1024 } ∧
    (∀ (e : Event) (h1 : CEFAudioHandler) (t1 : List Call),
      step h e = .ok (h1, t1) → h1.output_params_ = h.output_params_) ∧
    (∀ (params : CefAudioParameters) (channels : Int) (created : Option Nat),
      (h.OnAudioStreamStarted params channels created).1.output_params_ = h.output_params_) ∧
    (∀ params : CefAudioParameters,
      h.GetAudioParameters params =
        ({ channel_layout := CEF_CHANNEL_LAYOUT_STEREO, sample_rate := 48000,
           frames_per_buffer := 1024 }, true)) := by
  refine ⟨?_, fun e h1 t1 hs => output_format_step hs,
    fun params channels created => OnAudioStreamStarted_output h params channels created,
    fun params => rfl⟩
  rw [output_format_run evs hr]
  rfl

/-- C21, at a start with 44100 Hz, 1 channel, a volume change and a stop. -/
theorem output_format_fixed_witness :
    run CEFAudioHandler.init
        [Event.OnAudioStreamStarted ⟨3, 44100, 512⟩ 1 (some 4), Event.SetVolume F32.zero,
         Event.OnAudioStreamStopped] =
      .ok (({ CEFAudioHandler.init with
              volume_ := F32.zero
              input_params_ := ⟨44100, 1, AUDIO_FORMAT_FLOAT, 512⟩
              resampler_ := some 4 } : CEFAudioHandler),
           [Call.audio_resampler_create
              ⟨48000, AUDIO_FORMAT_FLOAT_PLANAR, speaker_layout.SPEAKERS_STEREO⟩
              ⟨44100, AUDIO_FORMAT_FLOAT, speaker_layout.SPEAKERS_MONO⟩ (some 4),
            Call.pthread_mutex_lock, Call.circlebuf_free, Call.circlebuf_init,
            Call.pthread_mutex_unlock]) ∧
    (({ CEFAudioHandler.init with
          volume_ := F32.zero
          input_params_ := ⟨44100, 1, AUDIO_FORMAT_FLOAT, 512⟩
          resampler_ := some 4 } : CEFAudioHandler).output_params_ =
      { sample_rate := 48000, channels := 2, format := AUDIO_FORMAT_FLOAT_PLANAR,
        frames_per_buffer := 1024 } ∧
    (∀ (e : Event) (h1 : CEFAudioHandler) (t1 : List Call),
      step ({ CEFAudioHandler.init with
                volume_ := F32.zero
                input_params_ := ⟨44100, 1, AUDIO_FORMAT_FLOAT, 512⟩
                resampler_ := some 4 } : CEFAudioHandler) e = .ok (h1, t1) →
        h1.output_params_ =
          ({ CEFAudioHandler.init with
              volume_ := F32.zero
              input_params_ := ⟨44100, 1, AUDIO_FORMAT_FLOAT, 512⟩
              resampler_ := some 4 } : CEFAudioHandler).output_params_) ∧
    (∀ (params : CefAudioParameters) (channels : Int) (created : Option Nat),
      (({ CEFAudioHandler.init with
            volume_ := F32.zero
            input_params_ := ⟨44100, 1, AUDIO_FORMAT_FLOAT, 512⟩
            resampler_ := some 4 } : CEFAudioHandler).OnAudioStreamStarted params channels
          created).1.output_params_ =
        ({ CEFAudioHandler.init with
            volume_ := F32.zero
            input_params_ := ⟨44100, 1, AUDIO_FORMAT_FLOAT, 512⟩
            resampler_ := some 4 } : CEFAudioHandler).output_params_) ∧
    (∀ params : CefAudioParameters,
      ({ CEFAudioHandler.init with
          volume_ := F32.zero
          input_params_ := ⟨44100, 1, AUDIO_FORMAT_FLOAT, 512⟩
          resampler_ := some 4 } : CEFAudioHandler).GetAudioParameters params =
        ({ channel_layout := CEF_CHANNEL_LAYOUT_STEREO, sample_rate := 48000,
           frames_per_buffer := 1024 }, true))) :=
  ⟨rfl, output_format_fixed
    [Event.OnAudioStreamStarted ⟨3, 44100, 512⟩ 1 (some 4), Event.SetVolume F32.zero,
     Event.OnAudioStreamStopped] _ _ rfl⟩

/-- C22. Volume and mute are independent of stream state: in every handler state,
`SetVolume` changes nothing but the stored volume and `SetMuted` nothing but the mute flag,
which `IsMuted` then returns; stream-active flag, the other of the two values, input and
output formats, resampler handle and buffer are what they were. -/
theorem volume_mute_independent (h : CEFAudioHandler) (volume : F32) (muted : Bool) :
    (h.SetVolume volume = { h with volume_ := (h.SetVolume volume).GetVolume } ∧
      (h.SetVolume volume).IsStreamActive = h.IsStreamActive ∧
      (h.SetVolume volume).IsMuted = h.IsMuted ∧
      (h.SetVolume volume).input_params_ = h.input_params_ ∧
      (h.SetVolume volume).output_params_ = h.output_params_ ∧
      (h.SetVolume volume).resampler_ = h.resampler_ ∧
      (h.SetVolume volume).audio_buffer_ = h.audio_buffer_) ∧
    (h.SetMuted muted = { h with muted_ := muted } ∧
      (h.SetMuted muted).IsMuted = muted ∧
      (h.SetMuted muted).IsStreamActive = h.IsStreamActive ∧
      (h.SetMuted muted).GetVolume = h.GetVolume ∧
      (h.SetMuted muted).input_params_ = h.input_params_ ∧
      (h.SetMuted muted).output_params_ = h.output_params_ ∧
      (h.SetMuted muted).resampler_ = h.resampler_ ∧
      (h.SetMuted muted).audio_buffer_ = h.audio_buffer_) :=
  ⟨⟨rfl, rfl, rfl, rfl, rfl, rfl, rfl⟩, ⟨rfl, rfl, rfl, rfl, rfl, rfl, rfl, rfl⟩⟩

/-- C23. Resampler destroy is idempotent: in every handler state, a second
`CleanupResampler` returns the state the first one left and invokes nothing; after the
first no resampler is held; the two calls together invoke `audio_resampler_destroy` at most
once; and on a handler that holds no resampler the call changes nothing and invokes
nothing. -/
theorem cleanup_resampler_idempotent (h : CEFAudioHandler) :
    h.CleanupResampler.1.CleanupResampler = (h.CleanupResampler.1, []) ∧
    h.CleanupResampler.1.resampler_ = none ∧
    (h.CleanupResampler.2 ++ h.CleanupResampler.1.CleanupResampler.2).countP
      Call.isDestroy ≤ 1 ∧
    ({ h with resampler_ := none } : CEFAudioHandler).CleanupResampler =
      ({ h with resampler_ := none }, []) := by
  unfold CleanupResampler
  cases hr : h.resampler_ <;> simp [hr, Call.isDestroy]

/-! ### Null channels, lock scope and plane size in the packet path -/

/-- C24. A null channel in the packet path faults below full volume: after
`OnAudioStreamStarted` with 48000 Hz, 2 channels (no resampler) and `SetVolume(0.5)` the
stream is active, no resampler is held, the handler is unmuted and `0 < volume < 1`; a
one-frame packet whose channel 1 is null then reads `input_data[1][0]` through the null
pointer.  At volume `1.0f` the same packet returns and appends `1.0f, 0.0f`: there
`PlanarToInterleaved` stores `0.0f` for the null channel. -/
theorem null_channel_faults_below_full_volume :
    ∃ h t,
      run CEFAudioHandler.init
        [Event.OnAudioStreamStarted ⟨3, 48000, 1024⟩ 2 none,
         Event.SetVolume ⟨0x3F000000⟩] = .ok (h, t) ∧
      h.stream_active_ = true ∧ h.resampler_ = none ∧ h.muted_ = false ∧
      F32.zero.lt h.volume_ = true ∧ h.volume_.lt F32.one = true ∧
      h.OnAudioStreamPacket (some [some [F32.one], none]) 1 0 ⟨false, 0, []⟩ =
        .error .null_deref ∧
      (h.SetVolume F32.one).OnAudioStreamPacket (some [some [F32.one], none]) 1 0
          ⟨false, 0, []⟩ =
        .ok ({ h.SetVolume F32.one with
                audio_buffer_ := F32.one.toBytes ++ F32.zero.toBytes },
             [Call.pthread_mutex_lock, Call.circlebuf_push_back 8,
              Call.pthread_mutex_unlock]) :=
  ⟨_, _, rfl, rfl, rfl, rfl, by decide, by decide, rfl, rfl⟩

/-- C26. The resample path copies past the first output plane: with resampler 7 held
(stream started with 44100 Hz, 2 channels) and a resampler that succeeds with `n = 1`
output frame in two planes of `n * 4 = 4` bytes each, `OnAudioStreamPacket` asks
`circlebuf_push_back` for `GetAudioDataSize(1, 2, planar float) = 8` bytes starting at
plane 0, which runs off the plane; where 8 bytes are readable from that address, all 8 are
appended, twice the size of the plane. -/
theorem resample_copy_exceeds_first_plane :
    ∃ h t,
      run CEFAudioHandler.init
        [Event.OnAudioStreamStarted ⟨3, 44100, 1024⟩ 2 (some 7)] = .ok (h, t) ∧
      h.resampler_ = some 7 ∧ h.output_params_.format = AUDIO_FORMAT_FLOAT_PLANAR ∧
      AudioUtils.GetAudioDataSize 1 h.output_params_.channels h.output_params_.format = 8 ∧
      h.OnAudioStreamPacket (some [some [F32.one], some [F32.one]]) 1 0
          ⟨true, 1, [some [F32.one], some [F32.zero]]⟩ = .error .out_of_bounds ∧
      h.OnAudioStreamPacket (some [some [F32.one], some [F32.one]]) 1 0
          ⟨true, 1, [some [F32.one, F32.zero], some [F32.zero]]⟩ =
        .ok ({ h with audio_buffer_ := F32.one.toBytes ++ F32.zero.toBytes },
             [Call.pthread_mutex_lock, Call.audio_resampler_resample 7 1,
              Call.circlebuf_push_back 8, Call.pthread_mutex_unlock]) ∧
      1 * 4 < (F32.one.toBytes ++ F32.zero.toBytes).length :=
  ⟨_, _, rfl, rfl, rfl, rfl, rfl, rfl, by decide⟩

/-- The primitives `ConvertAndBuffer` invokes, in order, when it returns. -/
theorem ConvertAndBuffer_trace {input_data : Option Planar} {frames : Int}
    {rs : ResampleResult} {h h1 : CEFAudioHandler} {t : List Call}
    (hres : h.ConvertAndBuffer input_data frames rs = .ok (h1, t)) :
    (t = [] ∧ (input_data = none ∨ frames ≤ 0)) ∨
    (h.resampler_ = none ∧
      ∃ size, t = [Call.pthread_mutex_lock, Call.circlebuf_push_back size,
        Call.pthread_mutex_unlock]) ∨
    (∃ r, h.resampler_ = some r ∧
      (t = [Call.pthread_mutex_lock, Call.audio_resampler_resample r (toUInt32 frames),
          Call.pthread_mutex_unlock] ∨
       ∃ size, t = [Call.pthread_mutex_lock, Call.audio_resampler_resample r (toUInt32 frames),
          Call.circlebuf_push_back size, Call.pthread_mutex_unlock])) := by
  unfold ConvertAndBuffer at hres
  split at hres
  · cases hres; exact Or.inl ⟨rfl, Or.inl rfl⟩
  · split at hres
    · rename_i hf
      cases hres; exact Or.inl ⟨rfl, Or.inr hf⟩
    · split at hres
      · rename_i r hr
        split at hres
        · split at hres
          · cases hres
          · dsimp only at hres
            split at hres
            · cases hres
            · cases hres
              exact Or.inr (Or.inr ⟨r, hr, Or.inr ⟨_, rfl⟩⟩)
        · cases hres
          exact Or.inr (Or.inr ⟨r, hr, Or.inl rfl⟩)
      · rename_i hr
        dsimp only at hres
        split at hres
        · cases hres
        · split at hres
          · cases hres
          · cases hres
            exact Or.inr (Or.inl ⟨hr, _, rfl⟩)

/-- C25 as stated fails: with resampler 7 held, the trace of one packet is lock, resample,
push, unlock; `audio_resampler_resample` is invoked while the buffer mutex is held. -/
theorem resample_runs_under_lock :
    ∃ h t,
      run CEFAudioHandler.init
        [Event.OnAudioStreamStarted ⟨3, 44100, 1024⟩ 2 (some 7)] = .ok (h, t) ∧
      h.OnAudioStreamPacket (some [some [F32.one], some [F32.one]]) 1 0
          ⟨true, 1, [some [F32.one, F32.zero], some [F32.zero]]⟩ =
        .ok ({ h with audio_buffer_ := F32.one.toBytes ++ F32.zero.toBytes },
             [Call.pthread_mutex_lock, Call.audio_resampler_resample 7 1,
              Call.circlebuf_push_back 8, Call.pthread_mutex_unlock]) ∧
      resampleUnderLock false
        [Call.pthread_mutex_lock, Call.audio_resampler_resample 7 1,
         Call.circlebuf_push_back 8, Call.pthread_mutex_unlock] = true :=
  ⟨_, _, rfl, rfl, rfl⟩

/-- C25, amended. Lock scope: whenever `OnAudioStreamPacket` returns, its trace is empty
(packet dropped before conversion), or lock, push, unlock (no resampler), or lock, resample,
unlock, or lock, resample, push, unlock (resampler `r` held).  So every
`audio_resampler_resample` is invoked while the buffer lock is held, inside the same
lock/unlock interval as the copy into the buffer, and no copy happens outside it. -/
theorem resample_inside_lock (h h1 : CEFAudioHandler) (data : Option Planar)
    (frames pts : Int) (rs : ResampleResult) (t : List Call)
    (hres : h.OnAudioStreamPacket data frames pts rs = .ok (h1, t)) :
    (t = [] ∨
      (∃ size, t = [Call.pthread_mutex_lock, Call.circlebuf_push_back size,
        Call.pthread_mutex_unlock]) ∨
      (∃ r, h.resampler_ = some r ∧
        (t = [Call.pthread_mutex_lock, Call.audio_resampler_resample r (toUInt32 frames),
            Call.pthread_mutex_unlock] ∨
         ∃ size, t = [Call.pthread_mutex_lock,
            Call.audio_resampler_resample r (toUInt32 frames),
            Call.circlebuf_push_back size, Call.pthread_mutex_unlock]))) ∧
    (t.any Call.isResample = true → resampleUnderLock false t = true) ∧
    pushOutsideLock false t = false := by
  have shape : t = [] ∨
      (∃ size, t = [Call.pthread_mutex_lock, Call.circlebuf_push_back size,
        Call.pthread_mutex_unlock]) ∨
      (∃ r, h.resampler_ = some r ∧
        (t = [Call.pthread_mutex_lock, Call.audio_resampler_resample r (toUInt32 frames),
            Call.pthread_mutex_unlock] ∨
         ∃ size, t = [Call.pthread_mutex_lock,
            Call.audio_resampler_resample r (toUInt32 frames),
            Call.circlebuf_push_back size, Call.pthread_mutex_unlock])) := by
    unfold OnAudioStreamPacket at hres
    split at hres
    · cases hres; exact Or.inl rfl
    · unfold ProcessAudioData at hres
      split at hres
      · cases hres; exact Or.inl rfl
      · rcases ConvertAndBuffer_trace hres with ⟨h0, -⟩ | ⟨-, hp⟩ | hr
        · exact Or.inl h0
        · exact Or.inr (Or.inl hp)
        · exact Or.inr (Or.inr hr)
  refine ⟨shape, ?_, ?_⟩
  · rcases shape with rfl | ⟨size, rfl⟩ | ⟨r, -, rfl | ⟨size, rfl⟩⟩ <;>
      simp [resampleUnderLock, Call.isResample]
  · rcases shape with rfl | ⟨size, rfl⟩ | ⟨r, -, rfl | ⟨size, rfl⟩⟩ <;>
      simp [pushOutsideLock]

/-- C25 amended, at a handler holding resampler 7 and a resampler that reports failure. -/
theorem resample_inside_lock_witness :
    ({ CEFAudioHandler.init with stream_active_ := true, resampler_ := some 7 } :
        CEFAudioHandler).OnAudioStreamPacket (some [some [F32.one], some [F32.one]]) 1 0
          ⟨false, 0, []⟩ =
      .ok (({ CEFAudioHandler.init with stream_active_ := true, resampler_ := some 7 } :
              CEFAudioHandler),
           [Call.pthread_mutex_lock, Call.audio_resampler_resample 7 (toUInt32 1),
            Call.pthread_mutex_unlock]) ∧
    (([Call.pthread_mutex_lock, Call.audio_resampler_resample 7 (toUInt32 1),
          Call.pthread_mutex_unlock] = [] ∨
      (∃ size, [Call.pthread_mutex_lock, Call.audio_resampler_resample 7 (toUInt32 1),
          Call.pthread_mutex_unlock] =
        [Call.pthread_mutex_lock, Call.circlebuf_push_back size, Call.pthread_mutex_unlock]) ∨
      (∃ r, ({ CEFAudioHandler.init with stream_active_ := true, resampler_ := some 7 } :
            CEFAudioHandler).resampler_ = some r ∧
        ([Call.pthread_mutex_lock, Call.audio_resampler_resample 7 (toUInt32 1),
            Call.pthread_mutex_unlock] =
          [Call.pthread_mutex_lock, Call.audio_resampler_resample r (toUInt32 1),
            Call.pthread_mutex_unlock] ∨
         ∃ size, [Call.pthread_mutex_lock, Call.audio_resampler_resample 7 (toUInt32 1),
            Call.pthread_mutex_unlock] =
          [Call.pthread_mutex_lock, Call.audio_resampler_resample r (toUInt32 1),
            Call.circlebuf_push_back size, Call.pthread_mutex_unlock]))) ∧
      (List.any [Call.pthread_mutex_lock, Call.audio_resampler_resample 7 (toUInt32 1),
          Call.pthread_mutex_unlock] Call.isResample = true →
        resampleUnderLock false
          [Call.pthread_mutex_lock, Call.audio_resampler_resample 7 (toUInt32 1),
           Call.pthread_mutex_unlock] = true) ∧
      pushOutsideLock false
        [Call.pthread_mutex_lock, Call.audio_resampler_resample 7 (toUInt32 1),
         Call.pthread_mutex_unlock] = false) :=
  ⟨rfl, resample_inside_lock _ _ (some [some [F32.one], some [F32.one]]) 1 0 ⟨false, 0, []⟩
    _ rfl⟩

/-- The width of a sample is at least one byte. -/
theorem specSampleWidth_pos (format : audio_format) : 0 < specSampleWidth format := by
  unfold specSampleWidth
  split
  · decide
  · split <;> decide

/-- C27. `GetAudioDataSize` arithmetic width: for all frame counts `f` and channel counts
`c` (32-bit or not) `GetAudioDataSize f c format` is `((f * c) mod 2^32) * w`, `w` the
sample width of the format; it is the exact product `f * c * w` if and only if
`f * c < 2^32`, and adding the case of an exact product 0 changes nothing. -/
theorem audio_data_size_width (f c : Nat) (format : audio_format) :
    AudioUtils.GetAudioDataSize f c format = ((f * c) % 2 ^ 32) * specSampleWidth format ∧
    (AudioUtils.GetAudioDataSize f c format = f * c * specSampleWidth format ↔
      f * c < 2 ^ 32) ∧
    (AudioUtils.GetAudioDataSize f c format = f * c * specSampleWidth format ↔
      (f * c < 2 ^ 32 ∨ f * c * specSampleWidth format = 0)) := by
  have hsize : AudioUtils.GetAudioDataSize f c format =
      ((f * c) % 2 ^ 32) * specSampleWidth format := by
    unfold AudioUtils.GetAudioDataSize specSampleWidth
    dsimp only
    split
    · rfl
    · split
      · rfl
      · split <;> rfl
  have hpos := specSampleWidth_pos format
  have hiff : AudioUtils.GetAudioDataSize f c format = f * c * specSampleWidth format ↔
      f * c < 2 ^ 32 := by
    rw [hsize]
    constructor
    · intro he
      have h1 := Nat.eq_of_mul_eq_mul_right hpos he
      have h2 := Nat.mod_lt (f * c) (show 2 ^ 32 > 0 by norm_num)
      omega
    · intro hlt
      rw [Nat.mod_eq_of_lt hlt]
  refine ⟨hsize, hiff, ?_⟩
  rw [hiff]
  constructor
  · exact Or.inl
  · rintro (h1 | h1)
    · exact h1
    · have h2 : f * c = 0 := by
        rcases Nat.mul_eq_zero.1 h1 with h3 | h3
        · exact h3
        · omega
      rw [h2]
      norm_num

/-! ### Round trip from the interleaved side -/

/-- A property that every returning iteration keeps holds when the loop returns. -/
theorem forUpTo_inv_ok {σ : Type} (Q : σ → Prop) (n : Nat) (body : Nat → σ → Except Fault σ) :
    ∀ (s r : σ), Q s → (∀ k s1 s2, Q s1 → body k s1 = .ok s2 → Q s2) →
      forUpTo n body s = .ok r → Q r := by
  induction n with
  | zero =>
    intro s r h0 _ hr
    cases hr
    exact h0
  | succ n ih =>
    intro s r h0 hstep hr
    rw [forUpTo] at hr
    split at hr
    · cases hr
    · rename_i s1 h1
      exact hstep n s1 r (ih s s1 h0 hstep h1) hr

/-- A write that returns has stored the value at its index. -/
theorem writeAt_ok {α : Type} {a b : List α} {i : Nat} {v : α} (h : writeAt a i v = .ok b) :
    b = a.set i v := by
  unfold writeAt at h
  split at h
  · cases h; rfl
  · cases h

/-- The stores of `PlanarToInterleaved` go to 32-bit indices: whatever it returns, the slots
from index `2^32` on are as they were. -/
theorem p2i_high (src : Planar) (dst out : List F32) (frames channels : Nat)
    (h : AudioUtils.PlanarToInterleaved (some src) (some dst) frames channels =
      .ok (some out)) :
    ∀ j, 2 ^ 32 ≤ j → out[j]? = dst[j]? := by
  unfold AudioUtils.PlanarToInterleaved at h
  dsimp only at h
  split at h
  · cases h
  · rename_i dst1 h1
    cases h
    refine forUpTo_inv_ok (fun (s : List F32) => ∀ j, 2 ^ 32 ≤ j → s[j]? = dst[j]?) frames _
      dst out (fun _ _ => rfl) ?_ h1
    intro i s1 s2 hq hb
    refine forUpTo_inv_ok (fun (s : List F32) => ∀ j, 2 ^ 32 ≤ j → s[j]? = dst[j]?) channels _
      s1 s2 hq ?_ hb
    intro ch a b ha hw j hj
    have hlt := Nat.mod_lt (i * channels + ch) (show 2 ^ 32 > 0 by norm_num)
    have hset : ∀ v : F32, writeAt a ((i * channels + ch) % 2 ^ 32) v = .ok b →
        b[j]? = dst[j]? := by
      intro v hv
      rw [writeAt_ok hv, List.getElem?_set, if_neg (by omega)]
      exact ha j hj
    split at hw
    · cases hw
    · split at hw
      · cases hw
      · exact hset _ hw
    · exact hset _ hw

/-- `PlanarToInterleaved` returns when every access is inside its array, index arithmetic
that wraps included. -/
theorem p2i_returns (src : Planar) (dst : List F32) (frames channels : Nat)
    (hch : ∀ ch < channels, ch < src.length)
    (hp : ∀ ch < channels, ∀ p, src[ch]? = some (some p) → frames ≤ p.length)
    (hidx : ∀ i < frames, ∀ ch < channels, (i * channels + ch) % 2 ^ 32 < dst.length) :
    ∃ out, AudioUtils.PlanarToInterleaved (some src) (some dst) frames channels =
        .ok (some out) ∧ out.length = dst.length := by
  obtain ⟨out, h1, hl, -⟩ := p2i_outer src channels dst frames hch hp hidx
  refine ⟨out, ?_, hl⟩
  simp only [AudioUtils.PlanarToInterleaved, h1]

/-- C28, amended. Round trip interleaved -> planar -> interleaved: for 32-bit channel count
`c` and frame count `n` with `n * c ≤ 2^32`, an interleaved buffer of `n * c` samples,
`InterleavedToPlanar` into `c` non-null channels of `n` samples followed by
`PlanarToInterleaved` into a fresh buffer of `n * c` samples both return without a fault
and reproduce the original interleaved buffer exactly. -/
theorem interleaved_roundtrip (c n : Nat) (inter buf : List F32) (fresh : List (List F32))
    (_hc : c < 2 ^ 32) (_hn : n < 2 ^ 32) (hnw : n * c ≤ 2 ^ 32)
    (hil : inter.length = n * c) (hfl : fresh.length = c)
    (hfs : ∀ p ∈ fresh, p.length = n) (hbuf : buf.length = n * c) :
    ∃ planar, AudioUtils.InterleavedToPlanar (some inter) (some (fresh.map some)) n c =
        .ok (some planar) ∧
      AudioUtils.PlanarToInterleaved (some planar) (some buf) n c = .ok (some inter) := by
  have hidx : ∀ i < n, ∀ ch < c, (i * c + ch) % 2 ^ 32 = i * c + ch := fun i hi ch hch =>
    Nat.mod_eq_of_lt (by have := row_index_lt n c i ch hi hch; omega)
  have hfresh : ∀ m < c, ∃ fm, fresh[m]? = some fm ∧ fm.length = n := by
    intro m hm
    have hmf : m < fresh.length := by omega
    exact ⟨fresh[m], List.getElem?_eq_getElem hmf, hfs _ (List.getElem_mem _)⟩
  obtain ⟨d1, h1, hl1, -, -, hch1⟩ := i2p_spec inter n c (fresh.map some)
    (by simp [hfl])
    (fun m hm p hx => by
      obtain ⟨fm, hfm, hfn⟩ := hfresh m hm
      rw [List.getElem?_map, hfm] at hx
      simp only [Option.map_some', Option.some.injEq] at hx
      subst hx
      omega)
    (fun m hm i hi => by
      rw [hidx i hi m hm, hil]
      exact row_index_lt n c i m hi hm)
  have hd1 : ∀ m < c, ∃ p1, d1[m]? = some (some p1) ∧ p1.length = n ∧
      ∀ i < n, p1[i]? = inter[i * c + m]? := by
    intro m hm
    obtain ⟨fm, hfm, hfn⟩ := hfresh m hm
    obtain ⟨p1, e1, e2, e3⟩ := hch1 m hm fm (by simp [List.getElem?_map, hfm])
    refine ⟨p1, e1, by omega, fun i hi => ?_⟩
    rw [e3 i, if_pos hi, hidx i hi m hm]
  obtain ⟨out, h2, hl2, hc2⟩ := p2i_spec d1 buf n c hnw
    (by rw [hl1]; simp [hfl])
    (fun ch hch p hx => by
      obtain ⟨p1, e1, e2, -⟩ := hd1 ch hch
      rw [e1] at hx
      cases hx
      omega)
    (by omega)
  refine ⟨d1, h1, ?_⟩
  rw [h2]
  congr 2
  apply List.ext_getElem?
  intro j
  rw [hc2 j]
  by_cases hj : j < n * c
  · rw [if_pos hj]
    have hcpos : 0 < c := by
      rcases Nat.eq_zero_or_pos c with h0 | h0
      · subst h0; omega
      · exact h0
    have hm : j % c < c := Nat.mod_lt _ hcpos
    have hi : j / c < n := Nat.div_lt_of_lt_mul (by rw [Nat.mul_comm]; exact hj)
    obtain ⟨p1, e1, e2, e3⟩ := hd1 (j % c) hm
    have hdm := Nat.div_add_mod j c
    rw [sampleAt_some d1 (j % c) (j / c) e1 (by omega), e3 (j / c) hi]
    congr 1
    rw [Nat.mul_comm]
    exact hdm
  · rw [if_neg hj, List.getElem?_eq_none (by omega), List.getElem?_eq_none (by omega)]

/-- C28 amended, at three frames of two channels. -/
theorem interleaved_roundtrip_witness :
    ((2 : Nat) < 2 ^ 32 ∧ (3 : Nat) < 2 ^ 32 ∧ 3 * 2 ≤ 2 ^ 32 ∧
      ([⟨1⟩, ⟨2⟩, ⟨3⟩, ⟨4⟩, ⟨5⟩, ⟨6⟩] : List F32).length = 3 * 2 ∧
      (List.replicate 2 (List.replicate 3 F32.zero)).length = 2 ∧
      (∀ p ∈ List.replicate 2 (List.replicate 3 F32.zero), p.length = 3) ∧
      (List.replicate 6 F32.zero).length = 3 * 2) ∧
    ∃ planar,
      AudioUtils.InterleavedToPlanar (some [⟨1⟩, ⟨2⟩, ⟨3⟩, ⟨4⟩, ⟨5⟩, ⟨6⟩])
        (some ((List.replicate 2 (List.replicate 3 F32.zero)).map some)) 3 2 =
        .ok (some planar) ∧
      AudioUtils.PlanarToInterleaved (some planar) (some (List.replicate 6 F32.zero)) 3 2 =
        .ok (some [⟨1⟩, ⟨2⟩, ⟨3⟩, ⟨4⟩, ⟨5⟩, ⟨6⟩]) :=
  ⟨⟨by norm_num, by norm_num, by norm_num, rfl, rfl, by decide, rfl⟩,
    interleaved_roundtrip 2 3 [⟨1⟩, ⟨2⟩, ⟨3⟩, ⟨4⟩, ⟨5⟩, ⟨6⟩] (List.replicate 6 F32.zero)
      (List.replicate 2 (List.replicate 3 F32.zero))
      (by norm_num) (by norm_num) (by norm_num) rfl rfl (by decide) rfl⟩

/-- C28 as stated fails where `n * c` passes `2^32`: with `c = 2^31 + 1` and `n = 2`, an
interleaved buffer of `n * c = 2^32 + 2` samples `1.0f`, fresh planar channels and a fresh
interleaved buffer of zeros, both conversions return, and the result is not the original:
no store of `PlanarToInterleaved` reaches index `2^32`, which keeps the `0.0f` of the fresh
buffer. -/
theorem interleaved_roundtrip_wraps :
    ∃ planar out,
      AudioUtils.InterleavedToPlanar (some (List.replicate 4294967298 F32.one))
        (some (List.replicate 2147483649 (some [F32.zero, F32.zero]))) 2 2147483649 =
        .ok (some planar) ∧
      AudioUtils.PlanarToInterleaved (some planar) (some (List.replicate 4294967298 F32.zero))
        2 2147483649 = .ok (some out) ∧
      out ≠ List.replicate 4294967298 F32.one := by
  have hmod : ∀ a : Nat, a % 2 ^ 32 < 4294967298 := fun a => by
    have := Nat.mod_lt a (show 2 ^ 32 > 0 by norm_num)
    omega
  obtain ⟨d1, h1, hl1, -, -, hch1⟩ := i2p_spec (List.replicate 4294967298 F32.one) 2
    2147483649 (List.replicate 2147483649 (some [F32.zero, F32.zero]))
    (by rw [List.length_replicate])
    (fun m hm p hx => by
      rw [List.getElem?_replicate_of_lt hm] at hx
      simp only [Option.some.injEq] at hx
      rw [← hx]
      exact le_refl 2)
    (fun m hm i hi => by
      rw [List.length_replicate]
      exact hmod _)
  rw [List.length_replicate] at hl1
  obtain ⟨out, h2, hl2⟩ := p2i_returns d1 (List.replicate 4294967298 F32.zero) 2 2147483649
    (fun ch h => by rw [hl1]; exact h)
    (fun ch h p hx => by
      obtain ⟨p1, e1, e2, -⟩ := hch1 ch h [F32.zero, F32.zero]
        (List.getElem?_replicate_of_lt h)
      rw [e1] at hx
      cases hx
      rw [e2]
      exact le_refl 2)
    (fun i hi ch h => by
      rw [List.length_replicate]
      exact hmod _)
  refine ⟨d1, out, h1, h2, fun heq => ?_⟩
  have hhigh := p2i_high d1 _ out 2 2147483649 h2 4294967296 (by norm_num)
  rw [heq, List.getElem?_replicate_of_lt (by norm_num),
    List.getElem?_replicate_of_lt (by norm_num)] at hhigh
  simp [F32.zero, F32.one] at hhigh

/-! ### `LoadSettings` -/

/-- An `int` clamped between ordered bounds lies between them. -/
theorem clampInt_range (v lo hi : Int) (h : lo ≤ hi) :
    lo ≤ clampInt v lo hi ∧ clampInt v lo hi ≤ hi := by
  unfold clampInt
  split
  · exact ⟨le_refl _, h⟩
  · split
    · exact ⟨h, le_refl _⟩
    · constructor <;> omega

/-- An `int` between the bounds is what clamping returns. -/
theorem clampInt_of_mem (v lo hi : Int) (h1 : lo ≤ v) (h2 : v ≤ hi) : clampInt v lo hi = v := by
  unfold clampInt
  rw [if_neg (by omega), if_neg (by omega)]

/-- C29 as stated fails at a NaN volume: `LoadSettings` on a freshly constructed source with
settings whose volume is a NaN stores the NaN, which is neither `>= 0.0f` nor `<= 1.0f`. -/
theorem load_settings_keeps_nan_volume :
    (ChromiumSourceImpl.init.LoadSettings
      { url := none, custom_size := false, width := 0, height := 0, size_preset := 1,
        force_continuous := true, volume := F32.qNaN, muted := false, auto_reload := false,
        reload_interval := 300 }).volume_ = F32.qNaN ∧
    F32.zero.le F32.qNaN = false ∧ F32.qNaN.le F32.one = false :=
  ⟨rfl, by decide, by decide⟩

/-- C29, amended. `LoadSettings` keeps settings in range: for every settings object and every
prior source state, after `LoadSettings` the width is in `[100, 7680]`, the height in
`[100, 4320]`, the reload interval in `[10, 3600]`, and the volume in `[0, 1]` whenever the
volume of the settings is not a NaN. -/
theorem load_settings_in_range (settings : obs_data_t) (s : ChromiumSourceImpl) :
    (100 ≤ (s.LoadSettings settings).width_ ∧ (s.LoadSettings settings).width_ ≤ 7680) ∧
    (100 ≤ (s.LoadSettings settings).height_ ∧ (s.LoadSettings settings).height_ ≤ 4320) ∧
    (10 ≤ (s.LoadSettings settings).reload_interval_ ∧
      (s.LoadSettings settings).reload_interval_ ≤ 3600) ∧
    (settings.volume.isNaN = false →
      F32.zero.le (s.LoadSettings settings).volume_ = true ∧
      (s.LoadSettings settings).volume_.le F32.one = true) :=
  ⟨clampInt_range _ MIN_WIDTH MAX_WIDTH (by decide),
    clampInt_range _ MIN_HEIGHT MAX_HEIGHT (by decide),
    clampInt_range _ MIN_RELOAD_INTERVAL MAX_RELOAD_INTERVAL (by decide),
    fun hv => F32.clamp_unit_range settings.volume hv⟩

/-- C29 amended, at custom size 50 x 9000, volume 2.0 and reload interval 1. -/
theorem load_settings_in_range_witness :
    (F32.isNaN ⟨0x40000000⟩ = false) ∧
    (ChromiumSourceImpl.init.LoadSettings
      { url := none, custom_size := true, width := 50, height := 9000, size_preset := 1,
        force_continuous := true, volume := ⟨0x40000000⟩, muted := false,
        auto_reload := false, reload_interval := 1 }) =
      { url_ := DEFAULT_URL, width_ := 100, height_ := 4320,
        force_continuous_playback_ := true, volume_ := F32.one, muted_ := false,
        auto_reload_ := false, reload_interval_ := 10 } ∧
    F32.zero.le (ChromiumSourceImpl.init.LoadSettings
      { url := none, custom_size := true, width := 50, height := 9000, size_preset := 1,
        force_continuous := true, volume := ⟨0x40000000⟩, muted := false,
        auto_reload := false, reload_interval := 1 }).volume_ = true ∧
    (ChromiumSourceImpl.init.LoadSettings
      { url := none, custom_size := true, width := 50, height := 9000, size_preset := 1,
        force_continuous := true, volume := ⟨0x40000000⟩, muted := false,
        auto_reload := false, reload_interval := 1 }).volume_.le F32.one = true :=
  ⟨by decide, by decide,
    (load_settings_in_range
      { url := none, custom_size := true, width := 50, height := 9000, size_preset := 1,
        force_continuous := true, volume := ⟨0x40000000⟩, muted := false,
        auto_reload := false, reload_interval := 1 } ChromiumSourceImpl.init).2.2.2
      (by decide)⟩

/-- C30 as stated fails for a stored width outside the `int` range: with `custom_size` set,
width `4294967796 = 2^32 + 500` and height 600, `LoadSettings` converts the width to the
`int` 500 and keeps it, while the stored width clamped to range is 7680. -/
theorem load_settings_truncates_width :
    (ChromiumSourceImpl.init.LoadSettings
      { url := none, custom_size := true, width := 4294967796, height := 600,
        size_preset := 1, force_continuous := true, volume := F32.one, muted := false,
        auto_reload := false, reload_interval := 300 }).width_ = 500 ∧
    clampInt 4294967796 MIN_WIDTH MAX_WIDTH = 7680 :=
  ⟨by decide, by decide⟩

/-- C30, amended. `LoadSettings` size selection, with the preset index `p` and the width and
height of the settings taken as the `int` the stored 64-bit values convert to: when
`custom_size` is false and `1 ≤ p ≤ 9` the resulting width and height are those of
`SIZE_PRESETS[p]`; when `custom_size` is false and `p` is 0, negative or `≥ 10` they are the
previous width and height clamped to `[100, 7680]` and `[100, 4320]`; when `custom_size` is
true they are the width and height of the settings clamped to these ranges. -/
theorem load_settings_size_selection (settings : obs_data_t) (s : ChromiumSourceImpl) :
    (settings.custom_size = false → 1 ≤ toInt32 settings.size_preset →
      toInt32 settings.size_preset ≤ 9 →
      ∃ preset, SIZE_PRESETS[(toInt32 settings.size_preset).toNat]? = some preset ∧
        (s.LoadSettings settings).width_ = preset.width ∧
        (s.LoadSettings settings).height_ = preset.height) ∧
    (settings.custom_size = false →
      (toInt32 settings.size_preset ≤ 0 ∨ 10 ≤ toInt32 settings.size_preset) →
      (s.LoadSettings settings).width_ = clampInt s.width_ 100 7680 ∧
      (s.LoadSettings settings).height_ = clampInt s.height_ 100 4320) ∧
    (settings.custom_size = true →
      (s.LoadSettings settings).width_ = clampInt (toInt32 settings.width) 100 7680 ∧
      (s.LoadSettings settings).height_ = clampInt (toInt32 settings.height) 100 4320) := by
  refine ⟨fun hc h1 h9 => ?_, fun hc hp => ?_, fun hc => ?_⟩
  · obtain ⟨k, hk⟩ : ∃ k : Nat, toInt32 settings.size_preset = (k : Int) :=
      ⟨(toInt32 settings.size_preset).toNat, by omega⟩
    have hk1 : 1 ≤ k := by omega
    have hk9 : k ≤ 9 := by omega
    have hsize : ChromiumSourceImpl.loadedSize settings s =
        ((SIZE_PRESETS.getD k ⟨"", 0, 0⟩).width, (SIZE_PRESETS.getD k ⟨"", 0, 0⟩).height) ∧
        SIZE_PRESETS[k]? = some (SIZE_PRESETS.getD k ⟨"", 0, 0⟩) ∧
        100 ≤ (SIZE_PRESETS.getD k ⟨"", 0, 0⟩).width ∧
        (SIZE_PRESETS.getD k ⟨"", 0, 0⟩).width ≤ 7680 ∧
        100 ≤ (SIZE_PRESETS.getD k ⟨"", 0, 0⟩).height ∧
        (SIZE_PRESETS.getD k ⟨"", 0, 0⟩).height ≤ 4320 := by
      unfold ChromiumSourceImpl.loadedSize
      rw [hc, hk]
      interval_cases k <;> exact ⟨rfl, rfl, by decide, by decide, by decide, by decide⟩
    obtain ⟨e1, e2, w1, w2, g1, g2⟩ := hsize
    refine ⟨SIZE_PRESETS.getD k ⟨"", 0, 0⟩, by rw [hk]; exact e2, ?_, ?_⟩
    · show clampInt (ChromiumSourceImpl.loadedSize settings s).1 MIN_WIDTH MAX_WIDTH = _
      rw [e1]
      exact clampInt_of_mem _ _ _ w1 w2
    · show clampInt (ChromiumSourceImpl.loadedSize settings s).2 MIN_HEIGHT MAX_HEIGHT = _
      rw [e1]
      exact clampInt_of_mem _ _ _ g1 g2
  · have hsize : ChromiumSourceImpl.loadedSize settings s = (s.width_, s.height_) := by
      unfold ChromiumSourceImpl.loadedSize
      rw [hc]
      rcases hp with hp | hp
      · by_cases h0 : toInt32 settings.size_preset = 0
        · simp [h0, NUM_SIZE_PRESETS, SIZE_PRESETS]
        · have : ¬ (0 ≤ toInt32 settings.size_preset ∧
              toInt32 settings.size_preset < (NUM_SIZE_PRESETS : Int)) := by
            rintro ⟨h1, -⟩
            omega
          simp [this]
      · have : ¬ (0 ≤ toInt32 settings.size_preset ∧
            toInt32 settings.size_preset < (NUM_SIZE_PRESETS : Int)) := by
          rintro ⟨-, h2⟩
          have : (NUM_SIZE_PRESETS : Int) = 10 := by decide
          omega
        simp [this]
    constructor
    · show clampInt (ChromiumSourceImpl.loadedSize settings s).1 MIN_WIDTH MAX_WIDTH = _
      rw [hsize]
      rfl
    · show clampInt (ChromiumSourceImpl.loadedSize settings s).2 MIN_HEIGHT MAX_HEIGHT = _
      rw [hsize]
      rfl
  · have hsize : ChromiumSourceImpl.loadedSize settings s =
        (toInt32 settings.width, toInt32 settings.height) := by
      unfold ChromiumSourceImpl.loadedSize
      rw [hc]
      rfl
    constructor
    · show clampInt (ChromiumSourceImpl.loadedSize settings s).1 MIN_WIDTH MAX_WIDTH = _
      rw [hsize]
      rfl
    · show clampInt (ChromiumSourceImpl.loadedSize settings s).2 MIN_HEIGHT MAX_HEIGHT = _
      rw [hsize]
      rfl

/-- C30 amended, at preset 2 (1280x720) on a freshly constructed source. -/
theorem load_settings_size_selection_witness :
    ((false : Bool) = false ∧ 1 ≤ toInt32 2 ∧ toInt32 2 ≤ 9) ∧
    ∃ preset, SIZE_PRESETS[(toInt32 2).toNat]? = some preset ∧
      (ChromiumSourceImpl.init.LoadSettings
        { url := none, custom_size := false, width := 0, height := 0, size_preset := 2,
          force_continuous := true, volume := F32.one, muted := false, auto_reload := false,
          reload_interval := 300 }).width_ = preset.width ∧
      (ChromiumSourceImpl.init.LoadSettings
        { url := none, custom_size := false, width := 0, height := 0, size_preset := 2,
          force_continuous := true, volume := F32.one, muted := false, auto_reload := false,
          reload_interval := 300 }).height_ = preset.height :=
  ⟨⟨rfl, by decide, by decide⟩,
    (load_settings_size_selection
      { url := none, custom_size := false, width := 0, height := 0, size_preset := 2,
        force_continuous := true, volume := F32.one, muted := false, auto_reload := false,
        reload_interval := 300 } ChromiumSourceImpl.init).1 rfl (by decide) (by decide)⟩

end AlertTwitchFix
